import Mathlib

/-! # logchef-mcp: source aggregation, admin check, tool categories, connection
settings and the HTTP client

A shallow embedding of the Go sources `client/client.go`, `tools/sources.go`,
`tools/admin.go`, `mcplogchef.go` and `cmd/logchef-mcp/main.go`.

Modelling conventions

* A Go `error` is its message (`Error := String`); `fmt.Errorf("ctx: %w", err)` is
  string concatenation.  A Go function returning `(*T, error)` returns `Except Error T`
  (every `return` in the embedded functions is `nil, err` or `x, nil`); a function
  returning only `error` returns `Option Error`, `none` being `nil`.
* Go `int` values are identifiers that are only compared and printed: they are `Int`.
* The Logchef REST API is an answer table (`Backend`): one answer per client operation
  and argument.  Every client operation appends itself to a `Trace`, the sequence of
  operations the client was asked to perform, threaded through every function.
* Slices of pointers decoded from JSON (`[]*UserTeamDetails`, `[]*SourceResponse`)
  are lists of optional records, `none` being a nil pointer, which a JSON `null` entry
  decodes to; reading a field through a nil pointer panics.
* Iterating a Go map visits its entries in an unspecified order: `MapOrder` is that
  order, an arbitrary permutation, and the functions that range over a map take it as
  an argument.
* Go strings are Lean strings; `strings.Split` on the one-byte separator `","` splits
  at the same places on bytes and on characters.
* The `slog` lines of `maybeAddTools` write to the process log only and are left out.
* What the process cannot decide by itself is a `Runtime`: the environment
  (`os.LookupEnv`), `url.Parse`, the transport (`http.Client.Do`) and `json.Unmarshal`.
  `url.Parse` accepts the default URL `http://localhost:5173`.
* One HTTP exchange is `perform`: it returns the result of the operation and the list of
  the requests it passed to `c.httpClient.Do`.  `Runtime.Do` is that call as a whole, with
  the redirect policy of the client: `client.New` sets no `CheckRedirect`, so `Do` follows
  redirects and may put several requests on the wire before it returns the last response;
  the requests on the wire are not modelled, the calls of `Do` are.
  `Request.endpoint` is the table of method, path, body,
  `Authorization` header and expected status of the operations; `Backend.over` is the
  answer table of a client that talks to a `Runtime`.
* A Go `panic` is `Except Panic`; the context functions return the new context or the
  panic, together with the `slog` records they wrote (`Log`).
-/

namespace Logchef

/-- The message of a Go `error`. -/
abbrev Error := String

/-! ## client/client.go: data model -/

/-- The `Config` struct of the client; `Timeout` in nanoseconds. -/
structure Config where
  BaseURL : String
  APIKey : String
  Timeout : Int
deriving DecidableEq

/-- The `data.api_token` object of `ProfileResponse`. -/
structure ProfileAPIToken where
  CreatedAt : String
  ID : Int
  LastUsedAt : String
  Name : String
  Prefix : String
deriving DecidableEq

/-- The `data.user` object of `ProfileResponse`. -/
structure ProfileUser where
  ID : Int
  Email : String
  FullName : String
  Role : String
  Status : String
  LastLoginAt : String
  CreatedAt : String
  UpdatedAt : String
deriving DecidableEq

/-- The `data` object of `ProfileResponse`. -/
structure ProfileData where
  APIToken : ProfileAPIToken
  AuthMethod : String
  User : ProfileUser
deriving DecidableEq

/-- The struct `ProfileResponse`: the answer of `/api/v1/me`. -/
structure ProfileResponse where
  Status : String
  Data : ProfileData
deriving DecidableEq

/-- The struct `UserTeamDetails`: one membership entry. -/
structure UserTeamDetails where
  ID : Int
  Name : String
  Role : String
  MemberCount : Int
  CreatedAt : String
  UpdatedAt : String
deriving DecidableEq

/-- The struct `TeamsResponse`: the answer of `/api/v1/me/teams`; an entry of the
`[]*UserTeamDetails` slice `Data` is `none` when the pointer is nil. -/
structure TeamsResponse where
  Status : String
  Data : List (Option UserTeamDetails)
deriving DecidableEq

/-- The struct `SourceConnection`. -/
structure SourceConnection where
  Host : String
  Database : String
  TableName : String
deriving DecidableEq

/-- The struct `SourceResponse`: a source as a team sees it. -/
structure SourceResponse where
  ID : Int
  Name : String
  Description : String
  Connection : SourceConnection
  MetaIsAutoCreated : Bool
  MetaTsField : String
  MetaSeverityField : String
  TTLDays : Int
  IsConnected : Bool
  CreatedAt : String
  UpdatedAt : String
deriving DecidableEq

/-- The struct `TeamSourcesResponse`: the answer of `/api/v1/teams/:teamID/sources`; an
entry of the `[]*SourceResponse` slice `Data` is `none` when the pointer is nil. -/
structure TeamSourcesResponse where
  Status : String
  Data : List (Option SourceResponse)
deriving DecidableEq

/-- A Go `float64`, kept as its IEEE-754 bit pattern: the tools only pass it on. -/
abbrev Float64Bits := Nat

/-- The struct `LogColumn`; `Type_` is the Go field `Type`. -/
structure LogColumn where
  Name : String
  Type_ : String
deriving DecidableEq

/-- The struct `TableStats`. -/
structure TableStats where
  Database : String
  Table : String
  Compressed : String
  Uncompressed : String
  ComprRate : Float64Bits
  Rows : Int
  PartCount : Int
deriving DecidableEq

/-- The struct `ColumnStats`; `Type_` is the Go field `Type`. -/
structure ColumnStats where
  Name : String
  Type_ : String
deriving DecidableEq

/-- The `data` object of `SourceStatsResponse`. -/
structure SourceStatsData where
  TableStats : TableStats
  ColumnStats : List ColumnStats
deriving DecidableEq

/-- The struct `SourceStatsResponse`. -/
structure SourceStatsResponse where
  Status : String
  Data : SourceStatsData
deriving DecidableEq

/-- The struct `Team` of the admin API. -/
structure Team where
  ID : Int
  Name : String
  Description : String
  MemberCount : Int
  CreatedAt : String
  UpdatedAt : String
deriving DecidableEq

/-- The struct `TeamRequest`. -/
structure TeamRequest where
  Name : String
  Description : String
deriving DecidableEq

/-- The struct `TeamsListResponse`. -/
structure TeamsListResponse where
  Status : String
  Data : List Team
deriving DecidableEq

/-- The struct `TeamResponse`. -/
structure TeamResponse where
  Status : String
  Data : Team
deriving DecidableEq

/-- The struct `User` of the admin API; a `*string` is an `Option String`. -/
structure User where
  ID : Int
  Email : String
  FullName : String
  Role : String
  Status : String
  LastLoginAt : Option String
  LastActiveAt : Option String
  CreatedAt : String
  UpdatedAt : String
deriving DecidableEq

/-- The struct `UserRequest`. -/
structure UserRequest where
  Email : String
  FullName : String
  Role : String
  Status : String
deriving DecidableEq

/-- The struct `UserUpdateRequest`. -/
structure UserUpdateRequest where
  Email : Option String
  FullName : Option String
  Role : Option String
  Status : Option String
deriving DecidableEq

/-- The struct `UsersListResponse`. -/
structure UsersListResponse where
  Status : String
  Data : List User
deriving DecidableEq

/-- The struct `UserResponse`. -/
structure UserResponse where
  Status : String
  Data : User
deriving DecidableEq

/-- The struct `Source` of the admin API. -/
structure Source where
  ID : Int
  Name : String
  Description : String
  Connection : SourceConnection
  MetaIsAutoCreated : Bool
  MetaTsField : String
  MetaSeverityField : String
  TTLDays : Int
  IsConnected : Bool
  CreatedAt : String
  UpdatedAt : String
deriving DecidableEq

/-- The struct `SourceRequest`; a nil `Schema` slice is `none`. -/
structure SourceRequest where
  Name : String
  Description : String
  Connection : SourceConnection
  MetaIsAutoCreated : Bool
  MetaTsField : String
  MetaSeverityField : String
  TTLDays : Int
  Schema : Option (List LogColumn)
deriving DecidableEq

/-- The struct `SourceValidationRequest`. -/
structure SourceValidationRequest where
  Host : String
  Database : String
  TableName : String
  TimestampField : String
  SeverityField : String
deriving DecidableEq

/-- The struct `SourceValidationResult`. -/
structure SourceValidationResult where
  IsValid : Bool
  Message : String
  ErrorDetails : List String
  TableExists : Bool
  ColumnChecks : List (String × Bool)
deriving DecidableEq

/-- The struct `SourcesListResponse`. -/
structure SourcesListResponse where
  Status : String
  Data : List Source
deriving DecidableEq

/-- The struct `AdminSourceResponse`. -/
structure AdminSourceResponse where
  Status : String
  Data : Source
deriving DecidableEq

/-- The struct `SourceValidationResponse`. -/
structure SourceValidationResponse where
  Status : String
  Data : SourceValidationResult
deriving DecidableEq

/-- A Go `interface{}` holding a decoded JSON value. -/
inductive AnyValue where
  | null
  | bool (b : Bool)
  | number (f : Float64Bits)
  | string (s : String)
  | array (elems : List AnyValue)
  | object (fields : List (String × AnyValue))

/-- The `data` object of `MetaResponse`. -/
structure MetaData where
  Version : String
  HTTPServerTimeout : String
deriving DecidableEq

/-- The struct `MetaResponse`: the answer of `/api/v1/meta`. -/
structure MetaResponse where
  Status : String
  Data : MetaData
deriving DecidableEq

/-- The struct `LogQueryRequest`; the `*int` field `QueryTimeout` is `none` when nil. -/
structure LogQueryRequest where
  RawSQL : String
  Limit : Int
  QueryTimeout : Option Int
deriving DecidableEq

/-- The type `LogEntry`, a `map[string]interface{}`: its key and value pairs. -/
abbrev LogEntry := List (String × AnyValue)

/-- The struct `LogQueryStats`. -/
structure LogQueryStats where
  ExecutionTimeMs : Int
  RowsRead : Int
deriving DecidableEq

/-- The `data` object of `LogQueryResponse`. -/
structure LogQueryData where
  Logs : List LogEntry
  Stats : LogQueryStats
  Columns : List LogColumn

/-- The struct `LogQueryResponse`. -/
structure LogQueryResponse where
  Status : String
  Data : LogQueryData

/-- The struct `SchemaResponse`. -/
structure SchemaResponse where
  Status : String
  Data : List LogColumn
deriving DecidableEq

/-- The struct `HistogramRequest`; the `*int` field `QueryTimeout` is `none` when nil. -/
structure HistogramRequest where
  RawSQL : String
  Window : String
  GroupBy : String
  Timezone : String
  QueryTimeout : Option Int
deriving DecidableEq

/-- The struct `HistogramDataPoint`. -/
structure HistogramDataPoint where
  Bucket : String
  LogCount : Int
  GroupValue : String
deriving DecidableEq

/-- The `data` object of `HistogramResponse`. -/
structure HistogramData where
  Granularity : String
  Data : List HistogramDataPoint
deriving DecidableEq

/-- The struct `HistogramResponse`. -/
structure HistogramResponse where
  Status : String
  Data : HistogramData
deriving DecidableEq

/-- The struct `Collection`. -/
structure Collection where
  ID : Int
  Name : String
  Description : String
  TeamID : Int
  SourceID : Int
  Query : String
  CreatedAt : String
  UpdatedAt : String
deriving DecidableEq

/-- The struct `CollectionRequest`. -/
structure CollectionRequest where
  Name : String
  Description : String
  Query : String
deriving DecidableEq

/-- The struct `CollectionsResponse`. -/
structure CollectionsResponse where
  Status : String
  Data : List Collection
deriving DecidableEq

/-- The struct `CollectionResponse`. -/
structure CollectionResponse where
  Status : String
  Data : Collection
deriving DecidableEq

/-- The struct `TeamUpdateRequest`. -/
structure TeamUpdateRequest where
  Name : Option String
  Description : Option String
deriving DecidableEq

/-- The struct `TeamMember`. -/
structure TeamMember where
  TeamID : Int
  UserID : Int
  Role : String
  CreatedAt : String
  Email : String
  FullName : String
deriving DecidableEq

/-- The struct `TeamMemberRequest`. -/
structure TeamMemberRequest where
  UserID : Int
  Role : String
deriving DecidableEq

/-- The struct `TeamMembersResponse`. -/
structure TeamMembersResponse where
  Status : String
  Data : List TeamMember
deriving DecidableEq

/-- The struct `TeamSourceRequest`. -/
structure TeamSourceRequest where
  SourceID : Int
deriving DecidableEq

/-- The struct `APIToken`. -/
structure APIToken where
  ID : Int
  UserID : Int
  Name : String
  Prefix : String
  LastUsedAt : Option String
  ExpiresAt : Option String
  CreatedAt : String
  UpdatedAt : String
deriving DecidableEq

/-- The struct `APITokenRequest`. -/
structure APITokenRequest where
  Name : String
  ExpiresAt : Option String
deriving DecidableEq

/-- The struct `APITokenCreateResponse`. -/
structure APITokenCreateResponse where
  Token : String
  APIToken : APIToken
deriving DecidableEq

/-- The struct `APITokensResponse`. -/
structure APITokensResponse where
  Status : String
  Data : List APIToken
deriving DecidableEq

/-- The struct `APITokenResponse`. -/
structure APITokenResponse where
  Status : String
  Data : APITokenCreateResponse
deriving DecidableEq

/-! ## client/client.go: the client and its operations -/

/-- One client operation, with the arguments it was called with. -/
inductive Request where
  | GetProfile
  | GetTeams
  | GetTeamSources (teamID : Int)
  | ListAllTeams
  | CreateTeam (request : TeamRequest)
  | DeleteTeam (teamID : Int)
  | ListAllUsers
  | GetUserByID (userID : Int)
  | CreateUser (request : UserRequest)
  | UpdateUser (userID : Int) (request : UserUpdateRequest)
  | DeleteUser (userID : Int)
  | ListAllSources
  | CreateSource (request : SourceRequest)
  | ValidateSourceConnection (request : SourceValidationRequest)
  | DeleteSource (sourceID : Int)
  | GetAdminSourceStats (sourceID : Int)
  | GetMeta
  | QueryLogs (teamID sourceID : Int) (request : LogQueryRequest)
  | GetSourceSchema (teamID sourceID : Int)
  | GetSourceStats (teamID sourceID : Int)
  | GetLogHistogram (teamID sourceID : Int) (request : HistogramRequest)
  | GetCollections (teamID sourceID : Int)
  | CreateCollection (teamID sourceID : Int) (request : CollectionRequest)
  | GetCollection (teamID sourceID collectionID : Int)
  | UpdateCollection (teamID sourceID collectionID : Int) (request : CollectionRequest)
  | DeleteCollection (teamID sourceID collectionID : Int)
  | GetTeamByID (teamID : Int)
  | UpdateTeam (teamID : Int) (request : TeamUpdateRequest)
  | ListTeamMembers (teamID : Int)
  | AddTeamMember (teamID : Int) (request : TeamMemberRequest)
  | RemoveTeamMember (teamID userID : Int)
  | LinkSourceToTeam (teamID : Int) (request : TeamSourceRequest)
  | UnlinkSourceFromTeam (teamID sourceID : Int)
  | ListAPITokens
  | CreateAPIToken (request : APITokenRequest)
  | DeleteAPIToken (tokenID : Int)
deriving DecidableEq

/-- The operations the client has been asked to perform, oldest first. -/
abbrev Trace := List Request

/-! ## client/client.go: the HTTP exchange of an operation

Every method of `*Client` has the same body: build the URL from `BaseURL` and the
arguments, marshal the request struct if there is one, create the request, set the headers,
send it, compare the status with the one expected, and decode the body if the method returns
a value.  `Request.endpoint` holds what differs from one method to the next and `perform`
is the common body. -/

/-- The body of a request: the request struct given to `json.Marshal`. -/
inductive Payload where
  | logQuery (request : LogQueryRequest)
  | histogram (request : HistogramRequest)
  | collection (request : CollectionRequest)
  | team (request : TeamRequest)
  | teamUpdate (request : TeamUpdateRequest)
  | teamMember (request : TeamMemberRequest)
  | teamSource (request : TeamSourceRequest)
  | user (request : UserRequest)
  | userUpdate (request : UserUpdateRequest)
  | apiToken (request : APITokenRequest)
  | source (request : SourceRequest)
  | sourceValidation (request : SourceValidationRequest)
deriving DecidableEq

/-- An outgoing `*http.Request`: method, URL, the headers in the order they were set, and
the body. -/
structure HTTPRequest where
  Method : String
  URL : String
  Header : List (String × String)
  Body : Option Payload
deriving DecidableEq

/-- An `*http.Response`: the status code, what `io.ReadAll` reads of the body, and the
error `io.ReadAll` returns with it, if any. -/
structure HTTPResponse where
  StatusCode : Int
  Body : String
  ReadErr : Option Error
deriving DecidableEq

/-- A parsed `*url.URL`, as far as it is used: what its method `Redacted` returns. -/
structure URL where
  Redacted : String
deriving DecidableEq

/-- The response struct of each method of `*Client`; `Unit` for a method that returns only
an `error`. -/
def Request.Result : Request → Type
  | .GetProfile => ProfileResponse
  | .GetTeams => TeamsResponse
  | .GetTeamSources _ => TeamSourcesResponse
  | .GetMeta => MetaResponse
  | .QueryLogs _ _ _ => LogQueryResponse
  | .GetSourceSchema _ _ => SchemaResponse
  | .GetSourceStats _ _ => SourceStatsResponse
  | .GetLogHistogram _ _ _ => HistogramResponse
  | .GetCollections _ _ => CollectionsResponse
  | .CreateCollection _ _ _ => CollectionResponse
  | .GetCollection _ _ _ => CollectionResponse
  | .UpdateCollection _ _ _ _ => CollectionResponse
  | .DeleteCollection _ _ _ => Unit
  | .ListAllTeams => TeamsListResponse
  | .GetTeamByID _ => TeamResponse
  | .CreateTeam _ => TeamResponse
  | .UpdateTeam _ _ => TeamResponse
  | .DeleteTeam _ => Unit
  | .ListTeamMembers _ => TeamMembersResponse
  | .AddTeamMember _ _ => Unit
  | .RemoveTeamMember _ _ => Unit
  | .LinkSourceToTeam _ _ => Unit
  | .UnlinkSourceFromTeam _ _ => Unit
  | .ListAllUsers => UsersListResponse
  | .GetUserByID _ => UserResponse
  | .CreateUser _ => UserResponse
  | .UpdateUser _ _ => UserResponse
  | .DeleteUser _ => Unit
  | .ListAPITokens => APITokensResponse
  | .CreateAPIToken _ => APITokenResponse
  | .DeleteAPIToken _ => Unit
  | .ListAllSources => SourcesListResponse
  | .CreateSource _ => AdminSourceResponse
  | .ValidateSourceConnection _ => SourceValidationResponse
  | .DeleteSource _ => Unit
  | .GetAdminSourceStats _ => SourceStatsResponse

/-- The request after the defaults that `QueryLogs` sets before it marshals it. -/
def queryLogsDefaults (request : LogQueryRequest) : LogQueryRequest :=
  let request := if request.Limit ≤ 0 then { request with Limit := 100 } else request
  let request := if request.Limit > 100 then { request with Limit := 100 } else request
  if request.QueryTimeout = none then { request with QueryTimeout := some 30 } else request

/-- The request after the default that `GetLogHistogram` sets before it marshals it. -/
def histogramDefaults (request : HistogramRequest) : HistogramRequest :=
  if request.QueryTimeout = none then { request with QueryTimeout := some 30 } else request

/-- What one method of `*Client` puts on the wire and expects back: the HTTP method, the
path appended to `BaseURL`, the marshalled request struct, whether the `Authorization`
header is set, and the status code compared with `resp.StatusCode`. -/
structure Endpoint where
  Method : String
  Path : String
  Body : Option Payload
  Authorized : Bool
  Expected : Int
deriving DecidableEq

/-- The endpoint of each method of `*Client`, for the arguments it is called with. -/
def Request.endpoint : Request → Endpoint
  | .GetProfile =>
    { Method := "GET"
      Path := "/api/v1/me"
      Body := none, Authorized := true, Expected := 200 }
  | .GetTeams =>
    { Method := "GET"
      Path := "/api/v1/me/teams"
      Body := none, Authorized := true, Expected := 200 }
  | .GetTeamSources teamID =>
    { Method := "GET"
      Path := "/api/v1/teams/" ++ toString teamID ++ "/sources"
      Body := none, Authorized := true, Expected := 200 }
  | .GetMeta =>
    { Method := "GET"
      Path := "/api/v1/meta"
      Body := none, Authorized := false, Expected := 200 }
  | .QueryLogs teamID sourceID request =>
    { Method := "POST"
      Path := "/api/v1/teams/" ++ toString teamID ++ "/sources/" ++ toString sourceID ++
        "/logs/query"
      Body := some (.logQuery (queryLogsDefaults request)), Authorized := true, Expected := 200 }
  | .GetSourceSchema teamID sourceID =>
    { Method := "GET"
      Path := "/api/v1/teams/" ++ toString teamID ++ "/sources/" ++ toString sourceID ++
        "/schema"
      Body := none, Authorized := true, Expected := 200 }
  | .GetSourceStats teamID sourceID =>
    { Method := "GET"
      Path := "/api/v1/teams/" ++ toString teamID ++ "/sources/" ++ toString sourceID ++
        "/stats"
      Body := none, Authorized := true, Expected := 200 }
  | .GetLogHistogram teamID sourceID request =>
    { Method := "POST"
      Path := "/api/v1/teams/" ++ toString teamID ++ "/sources/" ++ toString sourceID ++
        "/logs/histogram"
      Body := some (.histogram (histogramDefaults request)), Authorized := true, Expected := 200 }
  | .GetCollections teamID sourceID =>
    { Method := "GET"
      Path := "/api/v1/teams/" ++ toString teamID ++ "/sources/" ++ toString sourceID ++
        "/collections"
      Body := none, Authorized := true, Expected := 200 }
  | .CreateCollection teamID sourceID request =>
    { Method := "POST"
      Path := "/api/v1/teams/" ++ toString teamID ++ "/sources/" ++ toString sourceID ++
        "/collections"
      Body := some (.collection request), Authorized := true, Expected := 201 }
  | .GetCollection teamID sourceID collectionID =>
    { Method := "GET"
      Path := "/api/v1/teams/" ++ toString teamID ++ "/sources/" ++ toString sourceID ++
        "/collections/" ++ toString collectionID
      Body := none, Authorized := true, Expected := 200 }
  | .UpdateCollection teamID sourceID collectionID request =>
    { Method := "PUT"
      Path := "/api/v1/teams/" ++ toString teamID ++ "/sources/" ++ toString sourceID ++
        "/collections/" ++ toString collectionID
      Body := some (.collection request), Authorized := true, Expected := 200 }
  | .DeleteCollection teamID sourceID collectionID =>
    { Method := "DELETE"
      Path := "/api/v1/teams/" ++ toString teamID ++ "/sources/" ++ toString sourceID ++
        "/collections/" ++ toString collectionID
      Body := none, Authorized := true, Expected := 204 }
  | .ListAllTeams =>
    { Method := "GET"
      Path := "/api/v1/admin/teams"
      Body := none, Authorized := true, Expected := 200 }
  | .GetTeamByID teamID =>
    { Method := "GET"
      Path := "/api/v1/teams/" ++ toString teamID
      Body := none, Authorized := true, Expected := 200 }
  | .CreateTeam request =>
    { Method := "POST"
      Path := "/api/v1/admin/teams"
      Body := some (.team request), Authorized := true, Expected := 201 }
  | .UpdateTeam teamID request =>
    { Method := "PUT"
      Path := "/api/v1/teams/" ++ toString teamID
      Body := some (.teamUpdate request), Authorized := true, Expected := 200 }
  | .DeleteTeam teamID =>
    { Method := "DELETE"
      Path := "/api/v1/admin/teams/" ++ toString teamID
      Body := none, Authorized := true, Expected := 200 }
  | .ListTeamMembers teamID =>
    { Method := "GET"
      Path := "/api/v1/teams/" ++ toString teamID ++ "/members"
      Body := none, Authorized := true, Expected := 200 }
  | .AddTeamMember teamID request =>
    { Method := "POST"
      Path := "/api/v1/teams/" ++ toString teamID ++ "/members"
      Body := some (.teamMember request), Authorized := true, Expected := 200 }
  | .RemoveTeamMember teamID userID =>
    { Method := "DELETE"
      Path := "/api/v1/teams/" ++ toString teamID ++ "/members/" ++ toString userID
      Body := none, Authorized := true, Expected := 200 }
  | .LinkSourceToTeam teamID request =>
    { Method := "POST"
      Path := "/api/v1/teams/" ++ toString teamID ++ "/sources"
      Body := some (.teamSource request), Authorized := true, Expected := 200 }
  | .UnlinkSourceFromTeam teamID sourceID =>
    { Method := "DELETE"
      Path := "/api/v1/teams/" ++ toString teamID ++ "/sources/" ++ toString sourceID
      Body := none, Authorized := true, Expected := 200 }
  | .ListAllUsers =>
    { Method := "GET"
      Path := "/api/v1/admin/users"
      Body := none, Authorized := true, Expected := 200 }
  | .GetUserByID userID =>
    { Method := "GET"
      Path := "/api/v1/admin/users/" ++ toString userID
      Body := none, Authorized := true, Expected := 200 }
  | .CreateUser request =>
    { Method := "POST"
      Path := "/api/v1/admin/users"
      Body := some (.user request), Authorized := true, Expected := 201 }
  | .UpdateUser userID request =>
    { Method := "PUT"
      Path := "/api/v1/admin/users/" ++ toString userID
      Body := some (.userUpdate request), Authorized := true, Expected := 200 }
  | .DeleteUser userID =>
    { Method := "DELETE"
      Path := "/api/v1/admin/users/" ++ toString userID
      Body := none, Authorized := true, Expected := 200 }
  | .ListAPITokens =>
    { Method := "GET"
      Path := "/api/v1/me/tokens"
      Body := none, Authorized := true, Expected := 200 }
  | .CreateAPIToken request =>
    { Method := "POST"
      Path := "/api/v1/me/tokens"
      Body := some (.apiToken request), Authorized := true, Expected := 201 }
  | .DeleteAPIToken tokenID =>
    { Method := "DELETE"
      Path := "/api/v1/me/tokens/" ++ toString tokenID
      Body := none, Authorized := true, Expected := 200 }
  | .ListAllSources =>
    { Method := "GET"
      Path := "/api/v1/admin/sources"
      Body := none, Authorized := true, Expected := 200 }
  | .CreateSource request =>
    { Method := "POST"
      Path := "/api/v1/admin/sources"
      Body := some (.source request), Authorized := true, Expected := 201 }
  | .ValidateSourceConnection request =>
    { Method := "POST"
      Path := "/api/v1/admin/sources/validate"
      Body := some (.sourceValidation request), Authorized := true, Expected := 200 }
  | .DeleteSource sourceID =>
    { Method := "DELETE"
      Path := "/api/v1/admin/sources/" ++ toString sourceID
      Body := none, Authorized := true, Expected := 200 }
  | .GetAdminSourceStats sourceID =>
    { Method := "GET"
      Path := "/api/v1/admin/sources/" ++ toString sourceID ++ "/stats"
      Body := none, Authorized := true, Expected := 200 }

/-- The process surroundings that the client and the context functions reach through the
Go standard library: the environment (`os.LookupEnv`), `url.Parse`, the call
`c.httpClient.Do` (the whole call: the HTTP client follows redirects by itself and returns
the last response) and `json.Unmarshal` into the response struct of an operation.
`url.Parse` accepts the default Logchef URL. -/
structure Runtime where
  LookupEnv : String → Option String
  urlParse : String → Except Error URL
  urlParse_default : ∃ u, urlParse "http://localhost:5173" = .ok u
  Do : HTTPRequest → Except Error HTTPResponse
  unmarshal : (op : Request) → String → Except Error op.Result

/-- The tail of a method that returns a value: read the body, then decode it. -/
def readJSON {T : Type} (unmarshal : String → Except Error T) (resp : HTTPResponse) :
    Except Error T :=
  match resp.ReadErr with
  | some err => .error ("read response body: " ++ err)
  | none =>
    match unmarshal resp.Body with
    | .error err => .error ("unmarshal response: " ++ err)
    | .ok value => .ok value

/-- What each method does with a response of the expected status: a method that returns a
value reads and decodes the body, a method that returns only an `error` returns nil. -/
def Request.receive (unmarshal : (op : Request) → String → Except Error op.Result)
    (resp : HTTPResponse) : (op : Request) → Except Error op.Result
  | .GetProfile => readJSON (unmarshal (.GetProfile)) resp
  | .GetTeams => readJSON (unmarshal (.GetTeams)) resp
  | .GetTeamSources teamID => readJSON (unmarshal (.GetTeamSources teamID)) resp
  | .GetMeta => readJSON (unmarshal (.GetMeta)) resp
  | .QueryLogs teamID sourceID request =>
    readJSON (unmarshal (.QueryLogs teamID sourceID request)) resp
  | .GetSourceSchema teamID sourceID => readJSON (unmarshal (.GetSourceSchema teamID sourceID)) resp
  | .GetSourceStats teamID sourceID => readJSON (unmarshal (.GetSourceStats teamID sourceID)) resp
  | .GetLogHistogram teamID sourceID request =>
    readJSON (unmarshal (.GetLogHistogram teamID sourceID request)) resp
  | .GetCollections teamID sourceID => readJSON (unmarshal (.GetCollections teamID sourceID)) resp
  | .CreateCollection teamID sourceID request =>
    readJSON (unmarshal (.CreateCollection teamID sourceID request)) resp
  | .GetCollection teamID sourceID collectionID =>
    readJSON (unmarshal (.GetCollection teamID sourceID collectionID)) resp
  | .UpdateCollection teamID sourceID collectionID request =>
    readJSON (unmarshal (.UpdateCollection teamID sourceID collectionID request)) resp
  | .DeleteCollection _ _ _ => .ok ()
  | .ListAllTeams => readJSON (unmarshal (.ListAllTeams)) resp
  | .GetTeamByID teamID => readJSON (unmarshal (.GetTeamByID teamID)) resp
  | .CreateTeam request => readJSON (unmarshal (.CreateTeam request)) resp
  | .UpdateTeam teamID request => readJSON (unmarshal (.UpdateTeam teamID request)) resp
  | .DeleteTeam _ => .ok ()
  | .ListTeamMembers teamID => readJSON (unmarshal (.ListTeamMembers teamID)) resp
  | .AddTeamMember _ _ => .ok ()
  | .RemoveTeamMember _ _ => .ok ()
  | .LinkSourceToTeam _ _ => .ok ()
  | .UnlinkSourceFromTeam _ _ => .ok ()
  | .ListAllUsers => readJSON (unmarshal (.ListAllUsers)) resp
  | .GetUserByID userID => readJSON (unmarshal (.GetUserByID userID)) resp
  | .CreateUser request => readJSON (unmarshal (.CreateUser request)) resp
  | .UpdateUser userID request => readJSON (unmarshal (.UpdateUser userID request)) resp
  | .DeleteUser _ => .ok ()
  | .ListAPITokens => readJSON (unmarshal (.ListAPITokens)) resp
  | .CreateAPIToken request => readJSON (unmarshal (.CreateAPIToken request)) resp
  | .DeleteAPIToken _ => .ok ()
  | .ListAllSources => readJSON (unmarshal (.ListAllSources)) resp
  | .CreateSource request => readJSON (unmarshal (.CreateSource request)) resp
  | .ValidateSourceConnection request =>
    readJSON (unmarshal (.ValidateSourceConnection request)) resp
  | .DeleteSource _ => .ok ()
  | .GetAdminSourceStats sourceID => readJSON (unmarshal (.GetAdminSourceStats sourceID)) resp

/-- The headers a method sets on its request, in order. -/
def requestHeader (config : Config) (authorized : Bool) : List (String × String) :=
  if authorized then
    [("Authorization", "Bearer " ++ config.APIKey), ("Content-Type", "application/json")]
  else
    [("Content-Type", "application/json")]

/-- The request that a method builds. -/
def Request.httpRequest (config : Config) (op : Request) : HTTPRequest :=
  { Method := op.endpoint.Method
    URL := config.BaseURL ++ op.endpoint.Path
    Header := requestHeader config op.endpoint.Authorized
    Body := op.endpoint.Body }

/-- The body common to the methods of `*Client`, for the method and arguments `op`: the
result of the method and the requests it has passed to `c.httpClient.Do`, one per call of
`Do`.  `http.NewRequestWithContext` fails
when `url.Parse` rejects the URL; `json.Marshal` of a request struct does not fail. -/
def perform (rt : Runtime) (config : Config) (op : Request) :
    Except Error op.Result × List HTTPRequest :=
  match rt.urlParse (config.BaseURL ++ op.endpoint.Path) with
  | .error err => (.error ("create request: " ++ err), [])
  | .ok _ =>
    let req := op.httpRequest config
    match rt.Do req with
    | .error err => (.error ("make request: " ++ err), [req])
    | .ok resp =>
      if resp.StatusCode ≠ op.endpoint.Expected then
        (.error ("API request failed with status " ++ toString resp.StatusCode ++ ": " ++
          resp.Body), [req])
      else
        (op.receive rt.unmarshal resp, [req])

/-- The outcome of each client operation against the Logchef REST API: the decoded
answer, or the error the operation returns (request, transport, status or decoding). -/
structure Backend where
  GetProfile : Except Error ProfileResponse
  GetTeams : Except Error TeamsResponse
  GetTeamSources : Int → Except Error TeamSourcesResponse
  ListAllTeams : Except Error TeamsListResponse
  CreateTeam : TeamRequest → Except Error TeamResponse
  DeleteTeam : Int → Option Error
  ListAllUsers : Except Error UsersListResponse
  GetUserByID : Int → Except Error UserResponse
  CreateUser : UserRequest → Except Error UserResponse
  UpdateUser : Int → UserUpdateRequest → Except Error UserResponse
  DeleteUser : Int → Option Error
  ListAllSources : Except Error SourcesListResponse
  CreateSource : SourceRequest → Except Error AdminSourceResponse
  ValidateSourceConnection : SourceValidationRequest → Except Error SourceValidationResponse
  DeleteSource : Int → Option Error
  GetAdminSourceStats : Int → Except Error SourceStatsResponse
  GetMeta : Except Error MetaResponse
  QueryLogs : Int → Int → LogQueryRequest → Except Error LogQueryResponse
  GetSourceSchema : Int → Int → Except Error SchemaResponse
  GetSourceStats : Int → Int → Except Error SourceStatsResponse
  GetLogHistogram : Int → Int → HistogramRequest → Except Error HistogramResponse
  GetCollections : Int → Int → Except Error CollectionsResponse
  CreateCollection : Int → Int → CollectionRequest → Except Error CollectionResponse
  GetCollection : Int → Int → Int → Except Error CollectionResponse
  UpdateCollection : Int → Int → Int → CollectionRequest → Except Error CollectionResponse
  DeleteCollection : Int → Int → Int → Option Error
  GetTeamByID : Int → Except Error TeamResponse
  UpdateTeam : Int → TeamUpdateRequest → Except Error TeamResponse
  ListTeamMembers : Int → Except Error TeamMembersResponse
  AddTeamMember : Int → TeamMemberRequest → Option Error
  RemoveTeamMember : Int → Int → Option Error
  LinkSourceToTeam : Int → TeamSourceRequest → Option Error
  UnlinkSourceFromTeam : Int → Int → Option Error
  ListAPITokens : Except Error APITokensResponse
  CreateAPIToken : APITokenRequest → Except Error APITokenResponse
  DeleteAPIToken : Int → Option Error

/-- The `error` of a method that returns nothing else: nil when the method succeeded. -/
def errorOf (result : Except Error Unit) : Option Error :=
  match result with
  | .ok _ => none
  | .error err => some err

/-- The outcome of every method of a client with the given configuration on a runtime. -/
def Backend.over (rt : Runtime) (config : Config) : Backend :=
  { GetProfile := (perform rt config .GetProfile).1
    GetTeams := (perform rt config .GetTeams).1
    GetTeamSources := fun teamID => (perform rt config (.GetTeamSources teamID)).1
    ListAllTeams := (perform rt config .ListAllTeams).1
    CreateTeam := fun request => (perform rt config (.CreateTeam request)).1
    DeleteTeam := fun teamID => errorOf (perform rt config (.DeleteTeam teamID)).1
    ListAllUsers := (perform rt config .ListAllUsers).1
    GetUserByID := fun userID => (perform rt config (.GetUserByID userID)).1
    CreateUser := fun request => (perform rt config (.CreateUser request)).1
    UpdateUser := fun userID request => (perform rt config (.UpdateUser userID request)).1
    DeleteUser := fun userID => errorOf (perform rt config (.DeleteUser userID)).1
    ListAllSources := (perform rt config .ListAllSources).1
    CreateSource := fun request => (perform rt config (.CreateSource request)).1
    ValidateSourceConnection := fun request =>
      (perform rt config (.ValidateSourceConnection request)).1
    DeleteSource := fun sourceID => errorOf (perform rt config (.DeleteSource sourceID)).1
    GetAdminSourceStats := fun sourceID => (perform rt config (.GetAdminSourceStats sourceID)).1
    GetMeta := (perform rt config .GetMeta).1
    QueryLogs := fun teamID sourceID request =>
      (perform rt config (.QueryLogs teamID sourceID request)).1
    GetSourceSchema := fun teamID sourceID =>
      (perform rt config (.GetSourceSchema teamID sourceID)).1
    GetSourceStats := fun teamID sourceID => (perform rt config (.GetSourceStats teamID sourceID)).1
    GetLogHistogram := fun teamID sourceID request =>
      (perform rt config (.GetLogHistogram teamID sourceID request)).1
    GetCollections := fun teamID sourceID => (perform rt config (.GetCollections teamID sourceID)).1
    CreateCollection := fun teamID sourceID request =>
      (perform rt config (.CreateCollection teamID sourceID request)).1
    GetCollection := fun teamID sourceID collectionID =>
      (perform rt config (.GetCollection teamID sourceID collectionID)).1
    UpdateCollection := fun teamID sourceID collectionID request =>
      (perform rt config (.UpdateCollection teamID sourceID collectionID request)).1
    DeleteCollection := fun teamID sourceID collectionID =>
      errorOf (perform rt config (.DeleteCollection teamID sourceID collectionID)).1
    GetTeamByID := fun teamID => (perform rt config (.GetTeamByID teamID)).1
    UpdateTeam := fun teamID request => (perform rt config (.UpdateTeam teamID request)).1
    ListTeamMembers := fun teamID => (perform rt config (.ListTeamMembers teamID)).1
    AddTeamMember := fun teamID request =>
      errorOf (perform rt config (.AddTeamMember teamID request)).1
    RemoveTeamMember := fun teamID userID =>
      errorOf (perform rt config (.RemoveTeamMember teamID userID)).1
    LinkSourceToTeam := fun teamID request =>
      errorOf (perform rt config (.LinkSourceToTeam teamID request)).1
    UnlinkSourceFromTeam := fun teamID sourceID =>
      errorOf (perform rt config (.UnlinkSourceFromTeam teamID sourceID)).1
    ListAPITokens := (perform rt config .ListAPITokens).1
    CreateAPIToken := fun request => (perform rt config (.CreateAPIToken request)).1
    DeleteAPIToken := fun tokenID => errorOf (perform rt config (.DeleteAPIToken tokenID)).1 }

/-- The struct `http.Client`, as far as the client sets it: the request timeout, in
nanoseconds. -/
structure HTTPClient where
  Timeout : Int
deriving DecidableEq

/-- The struct `Client`: its configuration, its HTTP client, and the outcome of each of
its methods on the API that the HTTP client reaches. -/
structure Client where
  config : Config
  httpClient : HTTPClient
  backend : Backend

/-- The constant `time.Second`, in nanoseconds. -/
def Second : Int := 1000000000

/-- The function `client.New`. -/
def New (rt : Runtime) (config : Config) : Client :=
  let config := if config.Timeout = 0 then { config with Timeout := 30 * Second } else config
  { config := config
    httpClient := { Timeout := config.Timeout }
    backend := Backend.over rt config }

namespace Client

/-! Each method of `*Client` builds one HTTP request, passes it to `c.httpClient.Do` and
decodes the answer; here
it looks its outcome up in the `Backend` and records itself in the trace. -/

/-- Method `(*Client).GetProfile`. -/
def GetProfile (c : Client) (tr : Trace) : Except Error ProfileResponse × Trace :=
  (c.backend.GetProfile, tr ++ [Request.GetProfile])

/-- Method `(*Client).GetTeams`. -/
def GetTeams (c : Client) (tr : Trace) : Except Error TeamsResponse × Trace :=
  (c.backend.GetTeams, tr ++ [Request.GetTeams])

/-- Method `(*Client).GetTeamSources`. -/
def GetTeamSources (c : Client) (teamID : Int) (tr : Trace) :
    Except Error TeamSourcesResponse × Trace :=
  (c.backend.GetTeamSources teamID, tr ++ [Request.GetTeamSources teamID])

/-- Method `(*Client).ListAllTeams`. -/
def ListAllTeams (c : Client) (tr : Trace) : Except Error TeamsListResponse × Trace :=
  (c.backend.ListAllTeams, tr ++ [Request.ListAllTeams])

/-- Method `(*Client).CreateTeam`. -/
def CreateTeam (c : Client) (request : TeamRequest) (tr : Trace) :
    Except Error TeamResponse × Trace :=
  (c.backend.CreateTeam request, tr ++ [Request.CreateTeam request])

/-- Method `(*Client).DeleteTeam`. -/
def DeleteTeam (c : Client) (teamID : Int) (tr : Trace) : Option Error × Trace :=
  (c.backend.DeleteTeam teamID, tr ++ [Request.DeleteTeam teamID])

/-- Method `(*Client).ListAllUsers`. -/
def ListAllUsers (c : Client) (tr : Trace) : Except Error UsersListResponse × Trace :=
  (c.backend.ListAllUsers, tr ++ [Request.ListAllUsers])

/-- Method `(*Client).GetUserByID`. -/
def GetUserByID (c : Client) (userID : Int) (tr : Trace) : Except Error UserResponse × Trace :=
  (c.backend.GetUserByID userID, tr ++ [Request.GetUserByID userID])

/-- Method `(*Client).CreateUser`. -/
def CreateUser (c : Client) (request : UserRequest) (tr : Trace) :
    Except Error UserResponse × Trace :=
  (c.backend.CreateUser request, tr ++ [Request.CreateUser request])

/-- Method `(*Client).UpdateUser`. -/
def UpdateUser (c : Client) (userID : Int) (request : UserUpdateRequest) (tr : Trace) :
    Except Error UserResponse × Trace :=
  (c.backend.UpdateUser userID request, tr ++ [Request.UpdateUser userID request])

/-- Method `(*Client).DeleteUser`. -/
def DeleteUser (c : Client) (userID : Int) (tr : Trace) : Option Error × Trace :=
  (c.backend.DeleteUser userID, tr ++ [Request.DeleteUser userID])

/-- Method `(*Client).ListAllSources`. -/
def ListAllSources (c : Client) (tr : Trace) : Except Error SourcesListResponse × Trace :=
  (c.backend.ListAllSources, tr ++ [Request.ListAllSources])

/-- Method `(*Client).CreateSource`. -/
def CreateSource (c : Client) (request : SourceRequest) (tr : Trace) :
    Except Error AdminSourceResponse × Trace :=
  (c.backend.CreateSource request, tr ++ [Request.CreateSource request])

/-- Method `(*Client).ValidateSourceConnection`. -/
def ValidateSourceConnection (c : Client) (request : SourceValidationRequest) (tr : Trace) :
    Except Error SourceValidationResponse × Trace :=
  (c.backend.ValidateSourceConnection request, tr ++ [Request.ValidateSourceConnection request])

/-- Method `(*Client).DeleteSource`. -/
def DeleteSource (c : Client) (sourceID : Int) (tr : Trace) : Option Error × Trace :=
  (c.backend.DeleteSource sourceID, tr ++ [Request.DeleteSource sourceID])

/-- Method `(*Client).GetAdminSourceStats`. -/
def GetAdminSourceStats (c : Client) (sourceID : Int) (tr : Trace) :
    Except Error SourceStatsResponse × Trace :=
  (c.backend.GetAdminSourceStats sourceID, tr ++ [Request.GetAdminSourceStats sourceID])

/-- Method `(*Client).GetMeta`. -/
def GetMeta (c : Client) (tr : Trace) :
    Except Error MetaResponse × Trace :=
  (c.backend.GetMeta, tr ++ [Request.GetMeta])

/-- Method `(*Client).QueryLogs`. -/
def QueryLogs (c : Client) (teamID sourceID : Int) (request : LogQueryRequest) (tr : Trace) :
    Except Error LogQueryResponse × Trace :=
  (c.backend.QueryLogs teamID sourceID request, tr ++ [Request.QueryLogs teamID sourceID request])

/-- Method `(*Client).GetSourceSchema`. -/
def GetSourceSchema (c : Client) (teamID sourceID : Int) (tr : Trace) :
    Except Error SchemaResponse × Trace :=
  (c.backend.GetSourceSchema teamID sourceID, tr ++ [Request.GetSourceSchema teamID sourceID])

/-- Method `(*Client).GetSourceStats`. -/
def GetSourceStats (c : Client) (teamID sourceID : Int) (tr : Trace) :
    Except Error SourceStatsResponse × Trace :=
  (c.backend.GetSourceStats teamID sourceID, tr ++ [Request.GetSourceStats teamID sourceID])

/-- Method `(*Client).GetLogHistogram`. -/
def GetLogHistogram (c : Client) (teamID sourceID : Int) (request : HistogramRequest) (tr : Trace) :
    Except Error HistogramResponse × Trace :=
  (c.backend.GetLogHistogram teamID sourceID request,
    tr ++ [Request.GetLogHistogram teamID sourceID request])

/-- Method `(*Client).GetCollections`. -/
def GetCollections (c : Client) (teamID sourceID : Int) (tr : Trace) :
    Except Error CollectionsResponse × Trace :=
  (c.backend.GetCollections teamID sourceID, tr ++ [Request.GetCollections teamID sourceID])

/-- Method `(*Client).CreateCollection`. -/
def CreateCollection (c : Client) (teamID sourceID : Int)
    (request : CollectionRequest) (tr : Trace) :
    Except Error CollectionResponse × Trace :=
  (c.backend.CreateCollection teamID sourceID request,
    tr ++ [Request.CreateCollection teamID sourceID request])

/-- Method `(*Client).GetCollection`. -/
def GetCollection (c : Client) (teamID sourceID collectionID : Int) (tr : Trace) :
    Except Error CollectionResponse × Trace :=
  (c.backend.GetCollection teamID sourceID collectionID,
    tr ++ [Request.GetCollection teamID sourceID collectionID])

/-- Method `(*Client).UpdateCollection`. -/
def UpdateCollection (c : Client) (teamID sourceID collectionID : Int)
    (request : CollectionRequest) (tr : Trace) :
    Except Error CollectionResponse × Trace :=
  (c.backend.UpdateCollection teamID sourceID collectionID request,
    tr ++ [Request.UpdateCollection teamID sourceID collectionID request])

/-- Method `(*Client).DeleteCollection`. -/
def DeleteCollection (c : Client) (teamID sourceID collectionID : Int) (tr : Trace) :
    Option Error × Trace :=
  (c.backend.DeleteCollection teamID sourceID collectionID,
    tr ++ [Request.DeleteCollection teamID sourceID collectionID])

/-- Method `(*Client).GetTeamByID`. -/
def GetTeamByID (c : Client) (teamID : Int) (tr : Trace) :
    Except Error TeamResponse × Trace :=
  (c.backend.GetTeamByID teamID, tr ++ [Request.GetTeamByID teamID])

/-- Method `(*Client).UpdateTeam`. -/
def UpdateTeam (c : Client) (teamID : Int) (request : TeamUpdateRequest) (tr : Trace) :
    Except Error TeamResponse × Trace :=
  (c.backend.UpdateTeam teamID request, tr ++ [Request.UpdateTeam teamID request])

/-- Method `(*Client).ListTeamMembers`. -/
def ListTeamMembers (c : Client) (teamID : Int) (tr : Trace) :
    Except Error TeamMembersResponse × Trace :=
  (c.backend.ListTeamMembers teamID, tr ++ [Request.ListTeamMembers teamID])

/-- Method `(*Client).AddTeamMember`. -/
def AddTeamMember (c : Client) (teamID : Int) (request : TeamMemberRequest) (tr : Trace) :
    Option Error × Trace :=
  (c.backend.AddTeamMember teamID request, tr ++ [Request.AddTeamMember teamID request])

/-- Method `(*Client).RemoveTeamMember`. -/
def RemoveTeamMember (c : Client) (teamID userID : Int) (tr : Trace) :
    Option Error × Trace :=
  (c.backend.RemoveTeamMember teamID userID, tr ++ [Request.RemoveTeamMember teamID userID])

/-- Method `(*Client).LinkSourceToTeam`. -/
def LinkSourceToTeam (c : Client) (teamID : Int) (request : TeamSourceRequest) (tr : Trace) :
    Option Error × Trace :=
  (c.backend.LinkSourceToTeam teamID request, tr ++ [Request.LinkSourceToTeam teamID request])

/-- Method `(*Client).UnlinkSourceFromTeam`. -/
def UnlinkSourceFromTeam (c : Client) (teamID sourceID : Int) (tr : Trace) :
    Option Error × Trace :=
  (c.backend.UnlinkSourceFromTeam teamID sourceID,
    tr ++ [Request.UnlinkSourceFromTeam teamID sourceID])

/-- Method `(*Client).ListAPITokens`. -/
def ListAPITokens (c : Client) (tr : Trace) :
    Except Error APITokensResponse × Trace :=
  (c.backend.ListAPITokens, tr ++ [Request.ListAPITokens])

/-- Method `(*Client).CreateAPIToken`. -/
def CreateAPIToken (c : Client) (request : APITokenRequest) (tr : Trace) :
    Except Error APITokenResponse × Trace :=
  (c.backend.CreateAPIToken request, tr ++ [Request.CreateAPIToken request])

/-- Method `(*Client).DeleteAPIToken`. -/
def DeleteAPIToken (c : Client) (tokenID : Int) (tr : Trace) :
    Option Error × Trace :=
  (c.backend.DeleteAPIToken tokenID, tr ++ [Request.DeleteAPIToken tokenID])

end Client

/-! ## mcplogchef.go: the request context -/

/-- A `context.Context` as far as this package uses it: the values stored under the keys
`logchefDebugKey`, `logchefURLKey`, `logchefAPIKeyKey` and `logchefClientKey`, `none`
when the key was never set. -/
structure Context where
  logchefDebug : Option Bool
  logchefURL : Option String
  logchefAPIKey : Option String
  logchefClient : Option Client

/-- The function `context.Background()`: no key is set. -/
def Context.background : Context :=
  { logchefDebug := none, logchefURL := none, logchefAPIKey := none, logchefClient := none }

/-- The function `WithLogchefClient`. -/
def WithLogchefClient (ctx : Context) (client : Client) : Context :=
  { ctx with logchefClient := some client }

/-- The function `LogchefClientFromContext`: the bound client, `none` for Go's `nil`. -/
def LogchefClientFromContext (ctx : Context) : Option Client :=
  ctx.logchefClient

/-- The constant `defaultLogchefHost`. -/
def defaultLogchefHost : String := "localhost:5173"

/-- The constant `defaultLogchefURL`. -/
def defaultLogchefURL : String := "http://" ++ defaultLogchefHost

/-- The constant `logchefURLEnvVar`. -/
def logchefURLEnvVar : String := "LOGCHEF_URL"

/-- The constant `logchefAPIEnvVar`. -/
def logchefAPIEnvVar : String := "LOGCHEF_API_KEY"

/-- The constant `logchefURLHeader`. -/
def logchefURLHeader : String := "X-Logchef-URL"

/-- The constant `logchefAPIKeyHeader`. -/
def logchefAPIKeyHeader : String := "X-Logchef-API-Key"

/-- The function `os.Getenv`: the value of the variable, empty when it is unset. -/
def Runtime.Getenv (rt : Runtime) (key : String) : String :=
  match rt.LookupEnv key with
  | some value => value
  | none => ""

/-- The call `strings.TrimRight(s, "/")`: `s` without its trailing slashes, all of them. -/
def trimRightSlash (s : String) : String :=
  String.mk (s.data.reverse.dropWhile (fun c => decide (c = '/'))).reverse

/-- An inbound `*http.Request`, as far as it is read: its headers, each with the value
that `Header.Get` returns for it. -/
structure InboundRequest where
  Header : List (String × String)
deriving DecidableEq

/-- The method `Header.Get`: the value of the header, empty when it is absent. -/
def headerGet : List (String × String) → String → String
  | [], _ => ""
  | (k, v) :: rest, key => if k = key then v else headerGet rest key

/-- The value of an attribute of a log record. -/
inductive LogValue where
  | str (s : String)
  | bool (b : Bool)
deriving DecidableEq

/-- One call of `slog.Info` or `slog.Debug`: level, message and attributes. -/
structure LogRecord where
  Level : String
  Message : String
  Attrs : List (String × LogValue)
deriving DecidableEq

/-- The records written to the process log, oldest first. -/
abbrev Log := List LogRecord

/-- The message of the error a function panics with. -/
abbrev Panic := String

/-- The type `server.StdioContextFunc`: a step from a context to a context, which may write
log records and may panic. -/
abbrev StdioContextFunc := Context → Log → Except Panic Context × Log

/-- The type `httpContextFunc`, and with it `server.SSEContextFunc` and
`server.HTTPContextFunc`: a step that also receives the inbound request. -/
abbrev httpContextFunc := Context → InboundRequest → Log → Except Panic Context × Log

/-- The function `urlAndAPIKeyFromEnv`. -/
def urlAndAPIKeyFromEnv (rt : Runtime) : String × String :=
  let u := trimRightSlash (rt.Getenv logchefURLEnvVar)
  let apiKey := rt.Getenv logchefAPIEnvVar
  (u, apiKey)

/-- The function `urlAndAPIKeyFromHeaders`. -/
def urlAndAPIKeyFromHeaders (req : InboundRequest) : String × String :=
  let u := headerGet req.Header logchefURLHeader
  let apiKey := headerGet req.Header logchefAPIKeyHeader
  (u, apiKey)

/-- The function `WithLogchefDebug`. -/
def WithLogchefDebug (ctx : Context) (debug : Bool) (log : Log) : Context × Log :=
  let log :=
    if debug then
      log ++ [{ Level := "INFO", Message := "Logchef transport debug mode enabled", Attrs := [] }]
    else log
  ({ ctx with logchefDebug := some debug }, log)

/-- The function `LogchefDebugFromContext`. -/
def LogchefDebugFromContext (ctx : Context) : Bool :=
  match ctx.logchefDebug with
  | some debug => debug
  | none => false

/-- The function `WithLogchefURL`. -/
def WithLogchefURL (ctx : Context) (url : String) : Context :=
  { ctx with logchefURL := some url }

/-- The function `WithLogchefAPIKey`. -/
def WithLogchefAPIKey (ctx : Context) (apiKey : String) : Context :=
  { ctx with logchefAPIKey := some apiKey }

/-- The function `LogchefURLFromContext`. -/
def LogchefURLFromContext (ctx : Context) : String :=
  match ctx.logchefURL with
  | some u => u
  | none => defaultLogchefURL

/-- The function `LogchefAPIKeyFromContext`. -/
def LogchefAPIKeyFromContext (ctx : Context) : String :=
  match ctx.logchefAPIKey with
  | some k => k
  | none => ""

/-- The function `ExtractLogchefInfoFromEnv`. -/
def ExtractLogchefInfoFromEnv (rt : Runtime) : StdioContextFunc := fun ctx log =>
  let u := (urlAndAPIKeyFromEnv rt).1
  let apiKey := (urlAndAPIKeyFromEnv rt).2
  let u := if u = "" then defaultLogchefURL else u
  match rt.urlParse u with
  | .error err => (.error ("invalid Logchef URL " ++ u ++ ": " ++ err), log)
  | .ok parsedURL =>
    let log := log ++
      [{ Level := "INFO", Message := "Using Logchef configuration",
         Attrs := [("url", .str parsedURL.Redacted), ("api_key_set", .bool (apiKey != ""))] }]
    (.ok (WithLogchefURL (WithLogchefAPIKey ctx apiKey) u), log)

/-- The function `ExtractLogchefInfoFromHeaders`. -/
def ExtractLogchefInfoFromHeaders (rt : Runtime) : httpContextFunc := fun ctx req log =>
  let u := (urlAndAPIKeyFromHeaders req).1
  let apiKey := (urlAndAPIKeyFromHeaders req).2
  let uEnv := (urlAndAPIKeyFromEnv rt).1
  let apiKeyEnv := (urlAndAPIKeyFromEnv rt).2
  let u := if u = "" then uEnv else u
  let u := if u = "" then defaultLogchefURL else u
  let apiKey := if apiKey = "" then apiKeyEnv else apiKey
  (.ok (WithLogchefURL (WithLogchefAPIKey ctx apiKey) u), log)

/-- The function `NewLogchefClient`; it does not read its context argument. -/
def NewLogchefClient (rt : Runtime) (_ctx : Context) (logchefURL apiKey : String) (log : Log) :
    Except Panic Client × Log :=
  let logchefURL := if logchefURL = "" then defaultLogchefURL else logchefURL
  match rt.urlParse logchefURL with
  | .error err => (.error ("invalid Logchef URL: " ++ err), log)
  | .ok parsedURL =>
    let log := log ++
      [{ Level := "DEBUG", Message := "Creating Logchef client",
         Attrs := [("url", .str parsedURL.Redacted), ("api_key_set", .bool (apiKey != ""))] }]
    (.ok (New rt { BaseURL := logchefURL, APIKey := apiKey, Timeout := 0 }), log)

/-- The function `ExtractLogchefClientFromEnv`. -/
def ExtractLogchefClientFromEnv (rt : Runtime) : StdioContextFunc := fun ctx log =>
  let logchefURL :=
    match rt.LookupEnv logchefURLEnvVar with
    | some value => value
    | none => defaultLogchefURL
  let apiKey := rt.Getenv logchefAPIEnvVar
  match NewLogchefClient rt ctx logchefURL apiKey log with
  | (.error p, log) => (.error p, log)
  | (.ok logchefClient, log) => (.ok { ctx with logchefClient := some logchefClient }, log)

/-- The function `ExtractLogchefClientFromHeaders`. -/
def ExtractLogchefClientFromHeaders (rt : Runtime) : httpContextFunc := fun ctx req log =>
  let u := (urlAndAPIKeyFromHeaders req).1
  let apiKey := (urlAndAPIKeyFromHeaders req).2
  let uEnv := (urlAndAPIKeyFromEnv rt).1
  let apiKeyEnv := (urlAndAPIKeyFromEnv rt).2
  let u := if u = "" then uEnv else u
  let u := if u = "" then defaultLogchefURL else u
  let apiKey := if apiKey = "" then apiKeyEnv else apiKey
  match NewLogchefClient rt ctx u apiKey log with
  | (.error p, log) => (.error p, log)
  | (.ok logchefClient, log) => (.ok (WithLogchefClient ctx logchefClient), log)

/-- The function `ComposeStdioContextFuncs`: the steps run in order, each on the context
the one before it returned; a panic of a step ends the run. -/
def ComposeStdioContextFuncs : List StdioContextFunc → StdioContextFunc
  | [] => fun ctx log => (.ok ctx, log)
  | f :: funcs => fun ctx log =>
    match f ctx log with
    | (.error p, log) => (.error p, log)
    | (.ok ctx, log) => ComposeStdioContextFuncs funcs ctx log

/-- The function `ComposeSSEContextFuncs`. -/
def ComposeSSEContextFuncs : List httpContextFunc → httpContextFunc
  | [] => fun ctx _ log => (.ok ctx, log)
  | f :: funcs => fun ctx req log =>
    match f ctx req log with
    | (.error p, log) => (.error p, log)
    | (.ok ctx, log) => ComposeSSEContextFuncs funcs ctx req log

/-- The function `ComposeHTTPContextFuncs`. -/
def ComposeHTTPContextFuncs : List httpContextFunc → httpContextFunc
  | [] => fun ctx _ log => (.ok ctx, log)
  | f :: funcs => fun ctx req log =>
    match f ctx req log with
    | (.error p, log) => (.error p, log)
    | (.ok ctx, log) => ComposeHTTPContextFuncs funcs ctx req log

/-- The function `ComposedStdioContextFunc`. -/
def ComposedStdioContextFunc (rt : Runtime) (debug : Bool) : StdioContextFunc :=
  ComposeStdioContextFuncs
    [ fun ctx log => (.ok (WithLogchefDebug ctx debug log).1, (WithLogchefDebug ctx debug log).2),
      ExtractLogchefInfoFromEnv rt,
      ExtractLogchefClientFromEnv rt ]

/-- The function `ComposedSSEContextFunc`. -/
def ComposedSSEContextFunc (rt : Runtime) (debug : Bool) : httpContextFunc :=
  ComposeSSEContextFuncs
    [ fun ctx _ log => (.ok (WithLogchefDebug ctx debug log).1, (WithLogchefDebug ctx debug log).2),
      ExtractLogchefInfoFromHeaders rt,
      ExtractLogchefClientFromHeaders rt ]

/-- The function `ComposedHTTPContextFunc`. -/
def ComposedHTTPContextFunc (rt : Runtime) (debug : Bool) : httpContextFunc :=
  ComposeHTTPContextFuncs
    [ fun ctx _ log => (.ok (WithLogchefDebug ctx debug log).1, (WithLogchefDebug ctx debug log).2),
      ExtractLogchefInfoFromHeaders rt,
      ExtractLogchefClientFromHeaders rt ]

/-! ## tools/sources.go: source aggregation -/

/-- The struct `GetSourcesParams`: no parameters. -/
structure GetSourcesParams where
deriving DecidableEq

/-- The struct `TeamInfo`. -/
structure TeamInfo where
  ID : Int
  Name : String
  Role : String
deriving DecidableEq

/-- The struct `SourceWithTeams`: the embedded `*client.SourceResponse` and the teams. -/
structure SourceWithTeams where
  SourceResponse : SourceResponse
  Teams : List TeamInfo
deriving DecidableEq

/-- The struct `SourcesAggregateResponse`. -/
structure SourcesAggregateResponse where
  Sources : List SourceWithTeams
deriving DecidableEq

/-- The Go map `map[int]*SourceWithTeams`: its entries, in the order the keys were first
assigned, at most one entry per key. -/
abbrev SourceMap := List (Int × SourceWithTeams)

/-- The map read `existing, exists := sourceMap[key]`. -/
def mapIndex : SourceMap → Int → Option SourceWithTeams
  | [], _ => none
  | (k, v) :: rest, key => if k = key then some v else mapIndex rest key

/-- The map write `sourceMap[key] = value`; writing through the pointer stored under
`key` is a write of the changed struct under the same key. -/
def mapAssign : SourceMap → Int → SourceWithTeams → SourceMap
  | [], key, value => [(key, value)]
  | (k, v) :: rest, key, value =>
    if k = key then (k, value) :: rest else (k, v) :: mapAssign rest key value

/-- The order in which `for _, source := range sourceMap` visits the entries of a map:
any rearrangement of them. -/
structure MapOrder where
  range : SourceMap → SourceMap
  perm : ∀ m, (range m).Perm m

/-- The map order that visits the entries in the order the keys were first assigned. -/
def MapOrder.insertion : MapOrder :=
  { range := fun m => m, perm := fun m => List.Perm.refl m }

/-- The map order that visits the entries in the reverse of that order. -/
def MapOrder.reversed : MapOrder :=
  { range := fun m => m.reverse, perm := fun m => List.reverse_perm m }

/-- The body of the inner loop of `getSources`, for one `source` of `team`. -/
def addSource (team : UserTeamDetails) (sourceMap : SourceMap) (source : SourceResponse) :
    SourceMap :=
  match mapIndex sourceMap source.ID with
  | some existing =>
    mapAssign sourceMap source.ID
      { existing with
        Teams := existing.Teams ++ [{ ID := team.ID, Name := team.Name, Role := team.Role }] }
  | none =>
    mapAssign sourceMap source.ID
      { SourceResponse := source
        Teams := [{ ID := team.ID, Name := team.Name, Role := team.Role }] }

/-- The message of the run-time panic of a nil pointer dereference. -/
def nilDereference : Panic :=
  "runtime error: invalid memory address or nil pointer dereference"

/-- The inner loop of `getSources`, `for _, source := range teamSources.Data`: on a nil
entry the read of `source.ID` panics. -/
def addSources (team : UserTeamDetails) :
    List (Option SourceResponse) → SourceMap → Except Panic SourceMap
  | [], sourceMap => .ok sourceMap
  | none :: _, _ => .error nilDereference
  | some source :: rest, sourceMap => addSources team rest (addSource team sourceMap source)

/-- The outer loop of `getSources`, `for _, team := range teamsResp.Data`, with the inner
loop over `teamSources.Data`: on a nil entry the read of `team.ID` panics before the fetch
is issued; the loop stops at the first team whose fetch fails. -/
def getSourcesLoop (c : Client) :
    List (Option UserTeamDetails) → SourceMap → Trace →
      Except Panic (Except Error SourceMap) × Trace
  | [], sourceMap, tr => (.ok (.ok sourceMap), tr)
  | none :: _, _, tr => (.error nilDereference, tr)
  | some team :: rest, sourceMap, tr =>
    match c.GetTeamSources team.ID tr with
    | (.error err, tr) =>
      (.ok (.error ("get sources for team " ++ toString team.ID ++ ": " ++ err)), tr)
    | (.ok teamSources, tr) =>
      match addSources team teamSources.Data sourceMap with
      | .error p => (.error p, tr)
      | .ok sourceMap => getSourcesLoop c rest sourceMap tr

/-- The function `getSources`: it returns a response or an error, or panics. -/
def getSources (order : MapOrder) (ctx : Context) (_args : GetSourcesParams) (tr : Trace) :
    Except Panic (Except Error SourcesAggregateResponse) × Trace :=
  match LogchefClientFromContext ctx with
  | none => (.ok (.error "Logchef client not found in context"), tr)
  | some c =>
    match c.GetTeams tr with
    | (.error err, tr) => (.ok (.error ("get user teams: " ++ err)), tr)
    | (.ok teamsResp, tr) =>
      match getSourcesLoop c teamsResp.Data [] tr with
      | (.error p, tr) => (.error p, tr)
      | (.ok (.error err), tr) => (.ok (.error err), tr)
      | (.ok (.ok sourceMap), tr) =>
        (.ok (.ok { Sources := (order.range sourceMap).map (fun entry => entry.2) }), tr)

/-! ## tools/admin.go: the admin check and the tools that run it -/

/-- The struct `ListAllTeamsParams`. -/
structure ListAllTeamsParams where
deriving DecidableEq

/-- The struct `CreateTeamParams`. -/
structure CreateTeamParams where
  Name : String
  Description : String
deriving DecidableEq

/-- The struct `DeleteTeamParams`. -/
structure DeleteTeamParams where
  TeamID : Int
deriving DecidableEq

/-- The struct `ListAllUsersParams`. -/
structure ListAllUsersParams where
deriving DecidableEq

/-- The struct `GetUserParams`. -/
structure GetUserParams where
  UserID : Int
deriving DecidableEq

/-- The struct `CreateUserParams`. -/
structure CreateUserParams where
  Email : String
  FullName : String
  Role : String
  Status : String
deriving DecidableEq

/-- The struct `UpdateUserParams`. -/
structure UpdateUserParams where
  UserID : Int
  Email : Option String
  FullName : Option String
  Role : Option String
  Status : Option String
deriving DecidableEq

/-- The struct `DeleteUserParams`. -/
structure DeleteUserParams where
  UserID : Int
deriving DecidableEq

/-- The struct `ListAllSourcesParams`. -/
structure ListAllSourcesParams where
deriving DecidableEq

/-- The struct `CreateSourceParams`; `Schema` is a `[]map[string]interface{}`, `none` when
nil, each map being its key and value pairs. -/
structure CreateSourceParams where
  Name : String
  Description : String
  Host : String
  Database : String
  TableName : String
  MetaIsAutoCreated : Bool
  MetaTsField : String
  MetaSeverityField : String
  TTLDays : Int
  Schema : Option (List (List (String × AnyValue)))

/-- The struct `ValidateSourceConnectionParams`. -/
structure ValidateSourceConnectionParams where
  Host : String
  Database : String
  TableName : String
  TimestampField : String
  SeverityField : String
deriving DecidableEq

/-- The struct `DeleteSourceParams`. -/
structure DeleteSourceParams where
  SourceID : Int
deriving DecidableEq

/-- The struct `GetAdminSourceStatsParams`. -/
structure GetAdminSourceStatsParams where
  SourceID : Int
deriving DecidableEq

/-- The struct `DeleteTeamResponse`. -/
structure DeleteTeamResponse where
  Success : Bool
  Message : String
deriving DecidableEq

/-- The struct `DeleteUserResponse`. -/
structure DeleteUserResponse where
  Success : Bool
  Message : String
deriving DecidableEq

/-- The struct `DeleteSourceResponse`. -/
structure DeleteSourceResponse where
  Success : Bool
  Message : String
deriving DecidableEq

/-- The function `checkAdminRole`. -/
def checkAdminRole (c : Client) (tr : Trace) : Option Error × Trace :=
  match c.GetProfile tr with
  | (.error err, tr) => (some ("failed to get user profile: " ++ err), tr)
  | (.ok profile, tr) =>
    if profile.Data.User.Role ≠ "admin" then
      (some "access denied: admin role required", tr)
    else
      (none, tr)

/-- The function `listAllTeams`. -/
def listAllTeams (ctx : Context) (_args : ListAllTeamsParams) (tr : Trace) :
    Except Error TeamsListResponse × Trace :=
  match LogchefClientFromContext ctx with
  | none => (.error "Logchef client not found in context", tr)
  | some c =>
    match checkAdminRole c tr with
    | (some err, tr) => (.error err, tr)
    | (none, tr) =>
      match c.ListAllTeams tr with
      | (.error err, tr) => (.error ("list all teams: " ++ err), tr)
      | (.ok teams, tr) => (.ok teams, tr)

/-- The function `createTeam`. -/
def createTeam (ctx : Context) (args : CreateTeamParams) (tr : Trace) :
    Except Error TeamResponse × Trace :=
  match LogchefClientFromContext ctx with
  | none => (.error "Logchef client not found in context", tr)
  | some c =>
    match checkAdminRole c tr with
    | (some err, tr) => (.error err, tr)
    | (none, tr) =>
      let request : TeamRequest := { Name := args.Name, Description := args.Description }
      match c.CreateTeam request tr with
      | (.error err, tr) => (.error ("create team: " ++ err), tr)
      | (.ok team, tr) => (.ok team, tr)

/-- The function `deleteTeam`. -/
def deleteTeam (ctx : Context) (args : DeleteTeamParams) (tr : Trace) :
    Except Error DeleteTeamResponse × Trace :=
  match LogchefClientFromContext ctx with
  | none => (.error "Logchef client not found in context", tr)
  | some c =>
    match checkAdminRole c tr with
    | (some err, tr) => (.error err, tr)
    | (none, tr) =>
      match c.DeleteTeam args.TeamID tr with
      | (some err, tr) => (.error ("delete team: " ++ err), tr)
      | (none, tr) => (.ok { Success := true, Message := "Team deleted successfully" }, tr)

/-- The function `listAllUsers`. -/
def listAllUsers (ctx : Context) (_args : ListAllUsersParams) (tr : Trace) :
    Except Error UsersListResponse × Trace :=
  match LogchefClientFromContext ctx with
  | none => (.error "Logchef client not found in context", tr)
  | some c =>
    match checkAdminRole c tr with
    | (some err, tr) => (.error err, tr)
    | (none, tr) =>
      match c.ListAllUsers tr with
      | (.error err, tr) => (.error ("list all users: " ++ err), tr)
      | (.ok users, tr) => (.ok users, tr)

/-- The function `getUser`. -/
def getUser (ctx : Context) (args : GetUserParams) (tr : Trace) :
    Except Error UserResponse × Trace :=
  match LogchefClientFromContext ctx with
  | none => (.error "Logchef client not found in context", tr)
  | some c =>
    match checkAdminRole c tr with
    | (some err, tr) => (.error err, tr)
    | (none, tr) =>
      match c.GetUserByID args.UserID tr with
      | (.error err, tr) => (.error ("get user: " ++ err), tr)
      | (.ok user, tr) => (.ok user, tr)

/-- The function `createUser`. -/
def createUser (ctx : Context) (args : CreateUserParams) (tr : Trace) :
    Except Error UserResponse × Trace :=
  match LogchefClientFromContext ctx with
  | none => (.error "Logchef client not found in context", tr)
  | some c =>
    match checkAdminRole c tr with
    | (some err, tr) => (.error err, tr)
    | (none, tr) =>
      let request : UserRequest :=
        { Email := args.Email, FullName := args.FullName, Role := args.Role,
          Status := args.Status }
      match c.CreateUser request tr with
      | (.error err, tr) => (.error ("create user: " ++ err), tr)
      | (.ok user, tr) => (.ok user, tr)

/-- The function `updateUser`. -/
def updateUser (ctx : Context) (args : UpdateUserParams) (tr : Trace) :
    Except Error UserResponse × Trace :=
  match LogchefClientFromContext ctx with
  | none => (.error "Logchef client not found in context", tr)
  | some c =>
    match checkAdminRole c tr with
    | (some err, tr) => (.error err, tr)
    | (none, tr) =>
      let request : UserUpdateRequest :=
        { Email := args.Email, FullName := args.FullName, Role := args.Role,
          Status := args.Status }
      match c.UpdateUser args.UserID request tr with
      | (.error err, tr) => (.error ("update user: " ++ err), tr)
      | (.ok user, tr) => (.ok user, tr)

/-- The function `deleteUser`. -/
def deleteUser (ctx : Context) (args : DeleteUserParams) (tr : Trace) :
    Except Error DeleteUserResponse × Trace :=
  match LogchefClientFromContext ctx with
  | none => (.error "Logchef client not found in context", tr)
  | some c =>
    match checkAdminRole c tr with
    | (some err, tr) => (.error err, tr)
    | (none, tr) =>
      match c.DeleteUser args.UserID tr with
      | (some err, tr) => (.error ("delete user: " ++ err), tr)
      | (none, tr) => (.ok { Success := true, Message := "User deleted successfully" }, tr)

/-- The function `listAllSources`. -/
def listAllSources (ctx : Context) (_args : ListAllSourcesParams) (tr : Trace) :
    Except Error SourcesListResponse × Trace :=
  match LogchefClientFromContext ctx with
  | none => (.error "Logchef client not found in context", tr)
  | some c =>
    match checkAdminRole c tr with
    | (some err, tr) => (.error err, tr)
    | (none, tr) =>
      match c.ListAllSources tr with
      | (.error err, tr) => (.error ("list all sources: " ++ err), tr)
      | (.ok sources, tr) => (.ok sources, tr)

/-- The map read `col[key]` on a `map[string]interface{}`. -/
def colIndex : List (String × AnyValue) → String → Option AnyValue
  | [], _ => none
  | (k, v) :: rest, key => if k = key then some v else colIndex rest key

/-- The body of the schema loop of `createSource`, for the index `i` and the entry `col`:
`schema[i]` is assigned when both type assertions succeed and left as it is otherwise. -/
def schemaStep (schema : List LogColumn) (i : Nat) (col : List (String × AnyValue)) :
    List LogColumn :=
  match colIndex col "name" with
  | some (.string name) =>
    match colIndex col "type" with
    | some (.string colType) => schema.set i { Name := name, Type_ := colType }
    | _ => schema
  | _ => schema

/-- The schema conversion of `createSource` for a non-nil list: a slice of `len(cols)` zero
columns from `make`, then the loop `for i, col := range cols`. -/
def schemaLoop (cols : List (List (String × AnyValue))) : List LogColumn :=
  cols.enum.foldl (fun schema entry => schemaStep schema entry.1 entry.2)
    (List.replicate cols.length { Name := "", Type_ := "" })

/-- The function `createSource`. -/
def createSource (ctx : Context) (args : CreateSourceParams) (tr : Trace) :
    Except Error AdminSourceResponse × Trace :=
  match LogchefClientFromContext ctx with
  | none => (.error "Logchef client not found in context", tr)
  | some c =>
    match checkAdminRole c tr with
    | (some err, tr) => (.error err, tr)
    | (none, tr) =>
      let schema : Option (List LogColumn) :=
        match args.Schema with
        | none => none
        | some cols => some (schemaLoop cols)
      let request : SourceRequest :=
        { Name := args.Name
          Description := args.Description
          Connection :=
            { Host := args.Host, Database := args.Database, TableName := args.TableName }
          MetaIsAutoCreated := args.MetaIsAutoCreated
          MetaTsField := args.MetaTsField
          MetaSeverityField := args.MetaSeverityField
          TTLDays := args.TTLDays
          Schema := schema }
      match c.CreateSource request tr with
      | (.error err, tr) => (.error ("create source: " ++ err), tr)
      | (.ok source, tr) => (.ok source, tr)

/-- The function `validateSourceConnection`. -/
def validateSourceConnection (ctx : Context) (args : ValidateSourceConnectionParams)
    (tr : Trace) : Except Error SourceValidationResponse × Trace :=
  match LogchefClientFromContext ctx with
  | none => (.error "Logchef client not found in context", tr)
  | some c =>
    match checkAdminRole c tr with
    | (some err, tr) => (.error err, tr)
    | (none, tr) =>
      let request : SourceValidationRequest :=
        { Host := args.Host, Database := args.Database, TableName := args.TableName,
          TimestampField := args.TimestampField, SeverityField := args.SeverityField }
      match c.ValidateSourceConnection request tr with
      | (.error err, tr) => (.error ("validate source connection: " ++ err), tr)
      | (.ok validation, tr) => (.ok validation, tr)

/-- The function `deleteSource`. -/
def deleteSource (ctx : Context) (args : DeleteSourceParams) (tr : Trace) :
    Except Error DeleteSourceResponse × Trace :=
  match LogchefClientFromContext ctx with
  | none => (.error "Logchef client not found in context", tr)
  | some c =>
    match checkAdminRole c tr with
    | (some err, tr) => (.error err, tr)
    | (none, tr) =>
      match c.DeleteSource args.SourceID tr with
      | (some err, tr) => (.error ("delete source: " ++ err), tr)
      | (none, tr) => (.ok { Success := true, Message := "Source deleted successfully" }, tr)

/-- The function `getAdminSourceStats`. -/
def getAdminSourceStats (ctx : Context) (args : GetAdminSourceStatsParams) (tr : Trace) :
    Except Error SourceStatsResponse × Trace :=
  match LogchefClientFromContext ctx with
  | none => (.error "Logchef client not found in context", tr)
  | some c =>
    match checkAdminRole c tr with
    | (some err, tr) => (.error err, tr)
    | (none, tr) =>
      match c.GetAdminSourceStats args.SourceID tr with
      | (.error err, tr) => (.error ("get admin source stats: " ++ err), tr)
      | (.ok stats, tr) => (.ok stats, tr)

/-! ## The tools without an admin check

The functions of `tools/profile.go`, `getTeamSources` of `tools/sources.go`, the functions
of `tools/logs.go`, and the functions of `tools/admin.go` that do not call
`checkAdminRole`. -/

/-- The struct `GetProfileParams`. -/
structure GetProfileParams where
deriving DecidableEq

/-- The function `getProfile`. -/
def getProfile (ctx : Context) (_args : GetProfileParams) (tr : Trace) :
    Except Error ProfileResponse × Trace :=
  match LogchefClientFromContext ctx with
  | none => (.error "Logchef client not found in context", tr)
  | some c =>
    match c.GetProfile tr with
    | (.error err, tr) => (.error ("get profile: " ++ err), tr)
    | (.ok profile, tr) => (.ok profile, tr)

/-- The struct `GetTeamsParams`. -/
structure GetTeamsParams where
deriving DecidableEq

/-- The function `getTeams`. -/
def getTeams (ctx : Context) (_args : GetTeamsParams) (tr : Trace) :
    Except Error TeamsResponse × Trace :=
  match LogchefClientFromContext ctx with
  | none => (.error "Logchef client not found in context", tr)
  | some c =>
    match c.GetTeams tr with
    | (.error err, tr) => (.error ("get teams: " ++ err), tr)
    | (.ok teams, tr) => (.ok teams, tr)

/-- The struct `GetMetaParams`. -/
structure GetMetaParams where
deriving DecidableEq

/-- The function `getMeta`. -/
def getMeta (ctx : Context) (_args : GetMetaParams) (tr : Trace) :
    Except Error MetaResponse × Trace :=
  match LogchefClientFromContext ctx with
  | none => (.error "Logchef client not found in context", tr)
  | some c =>
    match c.GetMeta tr with
    | (.error err, tr) => (.error ("get meta: " ++ err), tr)
    | (.ok meta, tr) => (.ok meta, tr)

/-- The struct `GetTeamSourcesParams`. -/
structure GetTeamSourcesParams where
  TeamID : Int
deriving DecidableEq

/-- The function `getTeamSources`. -/
def getTeamSources (ctx : Context) (args : GetTeamSourcesParams) (tr : Trace) :
    Except Error TeamSourcesResponse × Trace :=
  match LogchefClientFromContext ctx with
  | none => (.error "Logchef client not found in context", tr)
  | some c =>
    match c.GetTeamSources args.TeamID tr with
    | (.error err, tr) => (.error ("get team sources: " ++ err), tr)
    | (.ok sources, tr) => (.ok sources, tr)

/-- The struct `QueryLogsParams`. -/
structure QueryLogsParams where
  TeamID : Int
  SourceID : Int
  RawSQL : String
  Limit : Int
  QueryTimeout : Option Int
deriving DecidableEq

/-- The function `queryLogs`. -/
def queryLogs (ctx : Context) (args : QueryLogsParams) (tr : Trace) :
    Except Error LogQueryResponse × Trace :=
  match LogchefClientFromContext ctx with
  | none => (.error "Logchef client not found in context", tr)
  | some c =>
    let args := if args.Limit < 0 then { args with Limit := 0 } else args
    let args := if args.Limit > 100 then { args with Limit := 100 } else args
    let request : LogQueryRequest :=
      { RawSQL := args.RawSQL, Limit := args.Limit, QueryTimeout := args.QueryTimeout }
    match c.QueryLogs args.TeamID args.SourceID request tr with
    | (.error err, tr) => (.error ("query logs: " ++ err), tr)
    | (.ok logs, tr) => (.ok logs, tr)

/-- The struct `GetSourceSchemaParams`. -/
structure GetSourceSchemaParams where
  TeamID : Int
  SourceID : Int
deriving DecidableEq

/-- The function `getSourceSchema`. -/
def getSourceSchema (ctx : Context) (args : GetSourceSchemaParams) (tr : Trace) :
    Except Error SchemaResponse × Trace :=
  match LogchefClientFromContext ctx with
  | none => (.error "Logchef client not found in context", tr)
  | some c =>
    match c.GetSourceSchema args.TeamID args.SourceID tr with
    | (.error err, tr) => (.error ("get source schema: " ++ err), tr)
    | (.ok schema, tr) => (.ok schema, tr)

/-- The struct `GetLogHistogramParams`. -/
structure GetLogHistogramParams where
  TeamID : Int
  SourceID : Int
  RawSQL : String
  Window : String
  GroupBy : String
  Timezone : String
  QueryTimeout : Option Int
deriving DecidableEq

/-- The function `getLogHistogram`. -/
def getLogHistogram (ctx : Context) (args : GetLogHistogramParams) (tr : Trace) :
    Except Error HistogramResponse × Trace :=
  match LogchefClientFromContext ctx with
  | none => (.error "Logchef client not found in context", tr)
  | some c =>
    let request : HistogramRequest :=
      { RawSQL := args.RawSQL,
        Window := args.Window,
        GroupBy := args.GroupBy,
        Timezone := args.Timezone,
        QueryTimeout := args.QueryTimeout }
    match c.GetLogHistogram args.TeamID args.SourceID request tr with
    | (.error err, tr) => (.error ("get log histogram: " ++ err), tr)
    | (.ok histogram, tr) => (.ok histogram, tr)

/-- The struct `GetCollectionsParams`. -/
structure GetCollectionsParams where
  TeamID : Int
  SourceID : Int
deriving DecidableEq

/-- The function `getCollections`. -/
def getCollections (ctx : Context) (args : GetCollectionsParams) (tr : Trace) :
    Except Error CollectionsResponse × Trace :=
  match LogchefClientFromContext ctx with
  | none => (.error "Logchef client not found in context", tr)
  | some c =>
    match c.GetCollections args.TeamID args.SourceID tr with
    | (.error err, tr) => (.error ("get collections: " ++ err), tr)
    | (.ok collections, tr) => (.ok collections, tr)

/-- The struct `CreateCollectionParams`. -/
structure CreateCollectionParams where
  TeamID : Int
  SourceID : Int
  Name : String
  Description : String
  Query : String
deriving DecidableEq

/-- The function `createCollection`. -/
def createCollection (ctx : Context) (args : CreateCollectionParams) (tr : Trace) :
    Except Error CollectionResponse × Trace :=
  match LogchefClientFromContext ctx with
  | none => (.error "Logchef client not found in context", tr)
  | some c =>
    let request : CollectionRequest :=
      { Name := args.Name,
        Description := args.Description,
        Query := args.Query }
    match c.CreateCollection args.TeamID args.SourceID request tr with
    | (.error err, tr) => (.error ("create collection: " ++ err), tr)
    | (.ok collection, tr) => (.ok collection, tr)

/-- The struct `GetCollectionParams`. -/
structure GetCollectionParams where
  TeamID : Int
  SourceID : Int
  CollectionID : Int
deriving DecidableEq

/-- The function `getCollection`. -/
def getCollection (ctx : Context) (args : GetCollectionParams) (tr : Trace) :
    Except Error CollectionResponse × Trace :=
  match LogchefClientFromContext ctx with
  | none => (.error "Logchef client not found in context", tr)
  | some c =>
    match c.GetCollection args.TeamID args.SourceID args.CollectionID tr with
    | (.error err, tr) => (.error ("get collection: " ++ err), tr)
    | (.ok collection, tr) => (.ok collection, tr)

/-- The struct `UpdateCollectionParams`. -/
structure UpdateCollectionParams where
  TeamID : Int
  SourceID : Int
  CollectionID : Int
  Name : String
  Description : String
  Query : String
deriving DecidableEq

/-- The function `updateCollection`. -/
def updateCollection (ctx : Context) (args : UpdateCollectionParams) (tr : Trace) :
    Except Error CollectionResponse × Trace :=
  match LogchefClientFromContext ctx with
  | none => (.error "Logchef client not found in context", tr)
  | some c =>
    let request : CollectionRequest :=
      { Name := args.Name,
        Description := args.Description,
        Query := args.Query }
    match c.UpdateCollection args.TeamID args.SourceID args.CollectionID request tr with
    | (.error err, tr) => (.error ("update collection: " ++ err), tr)
    | (.ok collection, tr) => (.ok collection, tr)

/-- The struct `DeleteCollectionParams`. -/
structure DeleteCollectionParams where
  TeamID : Int
  SourceID : Int
  CollectionID : Int
deriving DecidableEq

/-- The struct `DeleteCollectionResponse`. -/
structure DeleteCollectionResponse where
  Success : Bool
  Message : String
deriving DecidableEq

/-- The function `deleteCollection`. -/
def deleteCollection (ctx : Context) (args : DeleteCollectionParams) (tr : Trace) :
    Except Error DeleteCollectionResponse × Trace :=
  match LogchefClientFromContext ctx with
  | none => (.error "Logchef client not found in context", tr)
  | some c =>
    match c.DeleteCollection args.TeamID args.SourceID args.CollectionID tr with
    | (some err, tr) => (.error ("delete collection: " ++ err), tr)
    | (none, tr) => (.ok { Success := true, Message := "Collection deleted successfully" }, tr)

/-- The struct `GetTeamParams`. -/
structure GetTeamParams where
  TeamID : Int
deriving DecidableEq

/-- The function `getTeam`. -/
def getTeam (ctx : Context) (args : GetTeamParams) (tr : Trace) :
    Except Error TeamResponse × Trace :=
  match LogchefClientFromContext ctx with
  | none => (.error "Logchef client not found in context", tr)
  | some c =>
    match c.GetTeamByID args.TeamID tr with
    | (.error err, tr) => (.error ("get team: " ++ err), tr)
    | (.ok team, tr) => (.ok team, tr)

/-- The struct `UpdateTeamParams`. -/
structure UpdateTeamParams where
  TeamID : Int
  Name : Option String
  Description : Option String
deriving DecidableEq

/-- The function `updateTeam`. -/
def updateTeam (ctx : Context) (args : UpdateTeamParams) (tr : Trace) :
    Except Error TeamResponse × Trace :=
  match LogchefClientFromContext ctx with
  | none => (.error "Logchef client not found in context", tr)
  | some c =>
    let request : TeamUpdateRequest := { Name := args.Name, Description := args.Description }
    match c.UpdateTeam args.TeamID request tr with
    | (.error err, tr) => (.error ("update team: " ++ err), tr)
    | (.ok team, tr) => (.ok team, tr)

/-- The struct `ListTeamMembersParams`. -/
structure ListTeamMembersParams where
  TeamID : Int
deriving DecidableEq

/-- The function `listTeamMembers`. -/
def listTeamMembers (ctx : Context) (args : ListTeamMembersParams) (tr : Trace) :
    Except Error TeamMembersResponse × Trace :=
  match LogchefClientFromContext ctx with
  | none => (.error "Logchef client not found in context", tr)
  | some c =>
    match c.ListTeamMembers args.TeamID tr with
    | (.error err, tr) => (.error ("list team members: " ++ err), tr)
    | (.ok members, tr) => (.ok members, tr)

/-- The struct `AddTeamMemberParams`. -/
structure AddTeamMemberParams where
  TeamID : Int
  UserID : Int
  Role : String
deriving DecidableEq

/-- The struct `AddTeamMemberResponse`. -/
structure AddTeamMemberResponse where
  Success : Bool
  Message : String
deriving DecidableEq

/-- The function `addTeamMember`. -/
def addTeamMember (ctx : Context) (args : AddTeamMemberParams) (tr : Trace) :
    Except Error AddTeamMemberResponse × Trace :=
  match LogchefClientFromContext ctx with
  | none => (.error "Logchef client not found in context", tr)
  | some c =>
    let request : TeamMemberRequest := { UserID := args.UserID, Role := args.Role }
    match c.AddTeamMember args.TeamID request tr with
    | (some err, tr) => (.error ("add team member: " ++ err), tr)
    | (none, tr) => (.ok { Success := true, Message := "Team member added successfully" }, tr)

/-- The struct `RemoveTeamMemberParams`. -/
structure RemoveTeamMemberParams where
  TeamID : Int
  UserID : Int
deriving DecidableEq

/-- The struct `RemoveTeamMemberResponse`. -/
structure RemoveTeamMemberResponse where
  Success : Bool
  Message : String
deriving DecidableEq

/-- The function `removeTeamMember`. -/
def removeTeamMember (ctx : Context) (args : RemoveTeamMemberParams) (tr : Trace) :
    Except Error RemoveTeamMemberResponse × Trace :=
  match LogchefClientFromContext ctx with
  | none => (.error "Logchef client not found in context", tr)
  | some c =>
    match c.RemoveTeamMember args.TeamID args.UserID tr with
    | (some err, tr) => (.error ("remove team member: " ++ err), tr)
    | (none, tr) => (.ok { Success := true, Message := "Team member removed successfully" }, tr)

/-- The struct `LinkSourceToTeamParams`. -/
structure LinkSourceToTeamParams where
  TeamID : Int
  SourceID : Int
deriving DecidableEq

/-- The struct `LinkSourceResponse`. -/
structure LinkSourceResponse where
  Success : Bool
  Message : String
deriving DecidableEq

/-- The function `linkSourceToTeam`. -/
def linkSourceToTeam (ctx : Context) (args : LinkSourceToTeamParams) (tr : Trace) :
    Except Error LinkSourceResponse × Trace :=
  match LogchefClientFromContext ctx with
  | none => (.error "Logchef client not found in context", tr)
  | some c =>
    let request : TeamSourceRequest := { SourceID := args.SourceID }
    match c.LinkSourceToTeam args.TeamID request tr with
    | (some err, tr) => (.error ("link source to team: " ++ err), tr)
    | (none, tr) => (.ok { Success := true, Message := "Source linked to team successfully" }, tr)

/-- The struct `UnlinkSourceFromTeamParams`. -/
structure UnlinkSourceFromTeamParams where
  TeamID : Int
  SourceID : Int
deriving DecidableEq

/-- The struct `UnlinkSourceResponse`. -/
structure UnlinkSourceResponse where
  Success : Bool
  Message : String
deriving DecidableEq

/-- The function `unlinkSourceFromTeam`. -/
def unlinkSourceFromTeam (ctx : Context) (args : UnlinkSourceFromTeamParams) (tr : Trace) :
    Except Error UnlinkSourceResponse × Trace :=
  match LogchefClientFromContext ctx with
  | none => (.error "Logchef client not found in context", tr)
  | some c =>
    match c.UnlinkSourceFromTeam args.TeamID args.SourceID tr with
    | (some err, tr) => (.error ("unlink source from team: " ++ err), tr)
    | (none, tr) =>
      (.ok { Success := true, Message := "Source unlinked from team successfully" }, tr)

/-- The struct `ListAPITokensParams`. -/
structure ListAPITokensParams where
deriving DecidableEq

/-- The function `listAPITokens`. -/
def listAPITokens (ctx : Context) (_args : ListAPITokensParams) (tr : Trace) :
    Except Error APITokensResponse × Trace :=
  match LogchefClientFromContext ctx with
  | none => (.error "Logchef client not found in context", tr)
  | some c =>
    match c.ListAPITokens tr with
    | (.error err, tr) => (.error ("list API tokens: " ++ err), tr)
    | (.ok tokens, tr) => (.ok tokens, tr)

/-- The struct `CreateAPITokenParams`. -/
structure CreateAPITokenParams where
  Name : String
  ExpiresAt : Option String
deriving DecidableEq

/-- The function `createAPIToken`. -/
def createAPIToken (ctx : Context) (args : CreateAPITokenParams) (tr : Trace) :
    Except Error APITokenResponse × Trace :=
  match LogchefClientFromContext ctx with
  | none => (.error "Logchef client not found in context", tr)
  | some c =>
    let request : APITokenRequest := { Name := args.Name, ExpiresAt := args.ExpiresAt }
    match c.CreateAPIToken request tr with
    | (.error err, tr) => (.error ("create API token: " ++ err), tr)
    | (.ok token, tr) => (.ok token, tr)

/-- The struct `DeleteAPITokenParams`. -/
structure DeleteAPITokenParams where
  TokenID : Int
deriving DecidableEq

/-- The struct `DeleteAPITokenResponse`. -/
structure DeleteAPITokenResponse where
  Success : Bool
  Message : String
deriving DecidableEq

/-- The function `deleteAPIToken`. -/
def deleteAPIToken (ctx : Context) (args : DeleteAPITokenParams) (tr : Trace) :
    Except Error DeleteAPITokenResponse × Trace :=
  match LogchefClientFromContext ctx with
  | none => (.error "Logchef client not found in context", tr)
  | some c =>
    match c.DeleteAPIToken args.TokenID tr with
    | (some err, tr) => (.error ("delete API token: " ++ err), tr)
    | (none, tr) => (.ok { Success := true, Message := "API token deleted successfully" }, tr)

/-! ## Tool registration: tools/*.go and cmd/logchef-mcp/main.go -/

/-- The tool server `*server.MCPServer`, as far as registration goes: the names of the
tools registered so far, oldest first. -/
structure MCPServer where
  tools : List String
deriving DecidableEq

/-- Modelled from the spec: the method `Tool.Register` that `MustTool` values carry is
declared outside the embedded files; it registers the named tool with the tool server. -/
def Register (name : String) (mcp : MCPServer) : MCPServer :=
  { tools := mcp.tools ++ [name] }

/-- The function `AddProfileTools`. -/
def AddProfileTools (mcp : MCPServer) : MCPServer :=
  mcp |> Register "get_profile" |> Register "get_teams" |> Register "get_meta"

/-- The function `AddSourcesTools`. -/
def AddSourcesTools (mcp : MCPServer) : MCPServer :=
  mcp |> Register "get_team_sources" |> Register "get_sources"

/-- The function `AddLogsTools`. -/
def AddLogsTools (mcp : MCPServer) : MCPServer :=
  mcp |> Register "query_logs" |> Register "get_source_schema"
    |> Register "get_log_histogram" |> Register "get_collections"
    |> Register "create_collection" |> Register "get_collection"
    |> Register "update_collection" |> Register "delete_collection"

/-- The function `AddAdminTools`. -/
def AddAdminTools (mcp : MCPServer) : MCPServer :=
  mcp |> Register "list_all_teams" |> Register "get_team" |> Register "create_team"
    |> Register "update_team" |> Register "delete_team" |> Register "list_team_members"
    |> Register "add_team_member" |> Register "remove_team_member"
    |> Register "link_source_to_team" |> Register "unlink_source_from_team"
    |> Register "list_all_users" |> Register "get_user" |> Register "create_user"
    |> Register "update_user" |> Register "delete_user"
    |> Register "list_all_sources" |> Register "create_source"
    |> Register "validate_source_connection" |> Register "delete_source"
    |> Register "get_admin_source_stats"
    |> Register "list_api_tokens" |> Register "create_api_token"
    |> Register "delete_api_token"

/-- Go's `strings.Split` for a one-character separator, on the characters of the string:
the pieces between the separators, empty pieces kept, so that `n` separators give `n + 1`
pieces. -/
def splitChars (sep : Char) : List Char → List (List Char)
  | [] => [[]]
  | c :: cs =>
    if c = sep then [] :: splitChars sep cs
    else
      match splitChars sep cs with
      | [] => [[c]]
      | piece :: pieces => (c :: piece) :: pieces

/-- The call `strings.Split(s, ",")`. -/
def stringsSplitComma (s : String) : List String :=
  (splitChars ',' s.data).map String.mk

/-- The function `maybeAddTools`; `slices.Contains` is list membership. -/
def maybeAddTools (s : MCPServer) (tf : MCPServer → MCPServer) (enabledTools : List String)
    (disable : Bool) (category : String) : MCPServer :=
  if ¬ (category ∈ enabledTools) then s
  else if disable then s
  else tf s

/-- The struct `disabledTools`. -/
structure disabledTools where
  enabledTools : String
  profile : Bool
  sources : Bool
  logs : Bool
  admin : Bool
deriving DecidableEq

/-- The method `(*disabledTools).addFlags`: the values the flags have when the command
line names none of them, the defaults given to `flag.StringVar` and `flag.BoolVar`. -/
def disabledTools.addFlags (_dt : disabledTools) : disabledTools :=
  { enabledTools := "profile,sources,logs,admin"
    profile := false
    sources := false
    logs := false
    admin := false }

/-- The method `(*disabledTools).addTools`. -/
def disabledTools.addTools (dt : disabledTools) (s : MCPServer) : MCPServer :=
  let enabledTools := stringsSplitComma dt.enabledTools
  let s := maybeAddTools s AddProfileTools enabledTools dt.profile "profile"
  let s := maybeAddTools s AddSourcesTools enabledTools dt.sources "sources"
  let s := maybeAddTools s AddLogsTools enabledTools dt.logs "logs"
  maybeAddTools s AddAdminTools enabledTools dt.admin "admin"

/-! ## Vocabulary of the statements about `getSources` -/

/-- The `TeamInfo` entry that `getSources` records for a membership entry. -/
def teamInfoOf (team : UserTeamDetails) : TeamInfo :=
  { ID := team.ID, Name := team.Name, Role := team.Role }

/-- The team-source fetch that `getSources` issues for a membership entry. -/
def fetchOf (team : UserTeamDetails) : Request :=
  Request.GetTeamSources team.ID

/-- The source entries that the team fetches return, each with the membership entry it
was fetched for, in the order `getSources` scans them: teams in membership order, the
sources of one team in returned order.  Here `teams` is a membership list without nil
entries and `srcs` gives, for a team ID, the source list of that team, without nil
entries. -/
def scanned (srcs : Int → List SourceResponse) (teams : List UserTeamDetails) :
    List (UserTeamDetails × SourceResponse) :=
  teams.flatMap (fun team => (srcs team.ID).map (fun source => (team, source)))

/-- The aggregate record of source `id` after scanning `entries` from an empty map: the
fields of the first entry with that ID, and one team per entry with that ID. -/
def aggregateOf (entries : List (UserTeamDetails × SourceResponse)) (id : Int) :
    Option SourceWithTeams :=
  match entries.find? (fun e => decide (e.2.ID = id)) with
  | none => none
  | some first =>
    some { SourceResponse := first.2
           Teams := (entries.filter (fun e => decide (e.2.ID = id))).map
             (fun e => teamInfoOf e.1) }

/-- The map `getSources` has built once every team fetch has succeeded, for lists without
nil entries. -/
def aggregateMap (srcs : Int → List SourceResponse) (teams : List UserTeamDetails) :
    SourceMap :=
  (scanned srcs teams).foldl (fun acc e => addSource e.1 acc e.2) []

/-- The URL that the header steps resolve: the URL header when it is not empty, else the
URL of `urlAndAPIKeyFromEnv` when that is not empty, else the default URL. -/
def resolvedURL (rt : Runtime) (req : InboundRequest) : String :=
  if headerGet req.Header logchefURLHeader ≠ "" then headerGet req.Header logchefURLHeader
  else if (urlAndAPIKeyFromEnv rt).1 ≠ "" then (urlAndAPIKeyFromEnv rt).1
  else defaultLogchefURL

/-- The API key that the header steps resolve: the key header when it is not empty, else
the key of the environment, which may be empty. -/
def resolvedAPIKey (rt : Runtime) (req : InboundRequest) : String :=
  if headerGet req.Header logchefAPIKeyHeader ≠ "" then headerGet req.Header logchefAPIKeyHeader
  else rt.Getenv logchefAPIEnvVar

/-- The URL that `ExtractLogchefInfoFromEnv` attaches: the URL of `urlAndAPIKeyFromEnv`,
or the default URL when that is empty. -/
def envInfoURL (rt : Runtime) : String :=
  if (urlAndAPIKeyFromEnv rt).1 = "" then defaultLogchefURL else (urlAndAPIKeyFromEnv rt).1

/-- The URL that `ExtractLogchefClientFromEnv` binds: the value of `LOGCHEF_URL` as it is
set, or the default URL when it is unset or empty. -/
def envClientURL (rt : Runtime) : String :=
  match rt.LookupEnv logchefURLEnvVar with
  | some value => if value = "" then defaultLogchefURL else value
  | none => defaultLogchefURL

/-- Whether a method of `*Client` returns a value next to its `error`, and so reads and
decodes the body of a response of the expected status. -/
def Request.decodes : Request → Bool
  | .GetProfile => true
  | .GetTeams => true
  | .GetTeamSources _ => true
  | .GetMeta => true
  | .QueryLogs _ _ _ => true
  | .GetSourceSchema _ _ => true
  | .GetSourceStats _ _ => true
  | .GetLogHistogram _ _ _ => true
  | .GetCollections _ _ => true
  | .CreateCollection _ _ _ => true
  | .GetCollection _ _ _ => true
  | .UpdateCollection _ _ _ _ => true
  | .DeleteCollection _ _ _ => false
  | .ListAllTeams => true
  | .GetTeamByID _ => true
  | .CreateTeam _ => true
  | .UpdateTeam _ _ => true
  | .DeleteTeam _ => false
  | .ListTeamMembers _ => true
  | .AddTeamMember _ _ => false
  | .RemoveTeamMember _ _ => false
  | .LinkSourceToTeam _ _ => false
  | .UnlinkSourceFromTeam _ _ => false
  | .ListAllUsers => true
  | .GetUserByID _ => true
  | .CreateUser _ => true
  | .UpdateUser _ _ => true
  | .DeleteUser _ => false
  | .ListAPITokens => true
  | .CreateAPIToken _ => true
  | .DeleteAPIToken _ => false
  | .ListAllSources => true
  | .CreateSource _ => true
  | .ValidateSourceConnection _ => true
  | .DeleteSource _ => false
  | .GetAdminSourceStats _ => true

/-- The success code that the specification names for each operation: 201 for the five
create operations it lists, 204 for `DeleteCollection`, 200 for every other operation. -/
def statedSuccessCode : Request → Int
  | .CreateCollection _ _ _ => 201
  | .CreateTeam _ => 201
  | .CreateUser _ => 201
  | .CreateAPIToken _ => 201
  | .CreateSource _ => 201
  | .DeleteCollection _ _ _ => 204
  | _ => 200

/-- The `client.TeamRequest` that `createTeam` builds from its arguments. -/
def teamRequestOf (args : CreateTeamParams) : TeamRequest :=
  { Name := args.Name, Description := args.Description }

/-- The `client.UserRequest` that `createUser` builds from its arguments. -/
def userRequestOf (args : CreateUserParams) : UserRequest :=
  { Email := args.Email, FullName := args.FullName, Role := args.Role, Status := args.Status }

/-- The `client.UserUpdateRequest` that `updateUser` builds from its arguments. -/
def userUpdateRequestOf (args : UpdateUserParams) : UserUpdateRequest :=
  { Email := args.Email, FullName := args.FullName, Role := args.Role, Status := args.Status }

/-- The `client.SourceValidationRequest` that `validateSourceConnection` builds from its
arguments. -/
def validationRequestOf (args : ValidateSourceConnectionParams) : SourceValidationRequest :=
  { Host := args.Host, Database := args.Database, TableName := args.TableName,
    TimestampField := args.TimestampField, SeverityField := args.SeverityField }

/-- The column that the specification states for one entry of the schema argument of
`createSource`: its name and type when both values are strings, the zero `LogColumn` when
either key is missing or not a string. -/
def schemaColumn (col : List (String × AnyValue)) : LogColumn :=
  match colIndex col "name" with
  | some (.string name) =>
    match colIndex col "type" with
    | some (.string colType) => { Name := name, Type_ := colType }
    | _ => { Name := "", Type_ := "" }
  | _ => { Name := "", Type_ := "" }

/-- The `client.SourceRequest` that `createSource` builds from its arguments. -/
def sourceRequestOf (args : CreateSourceParams) : SourceRequest :=
  { Name := args.Name
    Description := args.Description
    Connection := { Host := args.Host, Database := args.Database, TableName := args.TableName }
    MetaIsAutoCreated := args.MetaIsAutoCreated
    MetaTsField := args.MetaTsField
    MetaSeverityField := args.MetaSeverityField
    TTLDays := args.TTLDays
    Schema :=
      match args.Schema with
      | none => none
      | some cols => some (schemaLoop cols) }

/-- The runtime whose environment has the variable `key` set to `value` and is otherwise
the one of `rt`; `url.Parse`, the transport and `json.Unmarshal` are those of `rt`. -/
def Runtime.Setenv (rt : Runtime) (key value : String) : Runtime :=
  { rt with LookupEnv := fun k => if k = key then some value else rt.LookupEnv k }

/-- The client `c` in front of an API that answers the profile fetch with `profile` and
every other operation as before: the same client used by another caller. -/
def Client.withProfile (c : Client) (profile : Except Error ProfileResponse) : Client :=
  { c with backend := { c.backend with GetProfile := profile } }

/-- The number of team entries of a response of `getSources`, over all its sources. -/
def teamEntries (resp : SourcesAggregateResponse) : Nat :=
  (resp.Sources.map (fun s => s.Teams.length)).sum

/-- The number of source entries that the team-source fetches return for the membership
list `teams`, an entry returned twice counted twice. -/
def sourceEntries (srcs : Int → List SourceResponse) (teams : List UserTeamDetails) : Nat :=
  (teams.map (fun team => (srcs team.ID).length)).sum

/-- The source IDs among the entries that the team-source fetches return, each once. -/
def distinctSourceIDs (srcs : Int → List SourceResponse) (teams : List UserTeamDetails) :
    List Int :=
  ((scanned srcs teams).map (fun e => e.2.ID)).dedup

/-- The trace after `n` invocations in a row of a tool function, each started on the trace
the one before it left. -/
def invocations {α : Type} (call : Trace → α × Trace) : Nat → Trace → Trace
  | 0, tr => tr
  | n + 1, tr => invocations call n (call tr).2

/-! ## Worked inputs -/

namespace Example

/-- A backend on which every operation fails. -/
def unavailable : Backend :=
  { GetProfile := .error "unavailable"
    GetTeams := .error "unavailable"
    GetTeamSources := fun _ => .error "unavailable"
    ListAllTeams := .error "unavailable"
    CreateTeam := fun _ => .error "unavailable"
    DeleteTeam := fun _ => some "unavailable"
    ListAllUsers := .error "unavailable"
    GetUserByID := fun _ => .error "unavailable"
    CreateUser := fun _ => .error "unavailable"
    UpdateUser := fun _ _ => .error "unavailable"
    DeleteUser := fun _ => some "unavailable"
    ListAllSources := .error "unavailable"
    CreateSource := fun _ => .error "unavailable"
    ValidateSourceConnection := fun _ => .error "unavailable"
    DeleteSource := fun _ => some "unavailable"
    GetAdminSourceStats := fun _ => .error "unavailable"
    GetMeta := .error "unavailable"
    QueryLogs := fun _ _ _ => .error "unavailable"
    GetSourceSchema := fun _ _ => .error "unavailable"
    GetSourceStats := fun _ _ => .error "unavailable"
    GetLogHistogram := fun _ _ _ => .error "unavailable"
    GetCollections := fun _ _ => .error "unavailable"
    CreateCollection := fun _ _ _ => .error "unavailable"
    GetCollection := fun _ _ _ => .error "unavailable"
    UpdateCollection := fun _ _ _ _ => .error "unavailable"
    DeleteCollection := fun _ _ _ => some "unavailable"
    GetTeamByID := fun _ => .error "unavailable"
    UpdateTeam := fun _ _ => .error "unavailable"
    ListTeamMembers := fun _ => .error "unavailable"
    AddTeamMember := fun _ _ => some "unavailable"
    RemoveTeamMember := fun _ _ => some "unavailable"
    LinkSourceToTeam := fun _ _ => some "unavailable"
    UnlinkSourceFromTeam := fun _ _ => some "unavailable"
    ListAPITokens := .error "unavailable"
    CreateAPIToken := fun _ => .error "unavailable"
    DeleteAPIToken := fun _ => some "unavailable" }

/-- A client that reaches `backend`. -/
def clientOf (backend : Backend) : Client :=
  { config := { BaseURL := "http://localhost:5173", APIKey := "key", Timeout := 30 * Second }
    httpClient := { Timeout := 30 * Second }
    backend := backend }

/-- A context whose bound client reaches `backend`. -/
def ctxOf (backend : Backend) : Context :=
  WithLogchefClient Context.background (clientOf backend)

/-- A source with the given ID and name. -/
def source (id : Int) (name : String) : SourceResponse :=
  { ID := id, Name := name, Description := "", Connection := ⟨"localhost", "logs", name⟩,
    MetaIsAutoCreated := false, MetaTsField := "timestamp", MetaSeverityField := "",
    TTLDays := 7, IsConnected := true, CreatedAt := "", UpdatedAt := "" }

/-- A membership entry with the given ID, name and role. -/
def team (id : Int) (name role : String) : UserTeamDetails :=
  { ID := id, Name := name, Role := role, MemberCount := 1, CreatedAt := "", UpdatedAt := "" }

/-- The team T1. -/
def T1 : UserTeamDetails := team 1 "T1" "admin"

/-- The team T2. -/
def T2 : UserTeamDetails := team 2 "T2" "member"

/-- The source lists T1 → [A, B], T2 → [B, C]; the B of T2 carries another name. -/
def mergeSources (teamID : Int) : List SourceResponse :=
  if teamID = 1 then [source 10 "A", source 11 "B"]
  else if teamID = 2 then [source 11 "B-renamed", source 12 "C"]
  else []

/-- A successful answer of a team-source fetch that holds the given sources, none nil. -/
def sourcesAnswer (sources : List SourceResponse) : TeamSourcesResponse :=
  ⟨"success", sources.map some⟩

/-- The backend of the merge law: memberships [T1, T2] with `mergeSources`. -/
def mergeBackend : Backend :=
  { unavailable with
    GetTeams := .ok ⟨"success", [some T1, some T2]⟩
    GetTeamSources := fun teamID => .ok (sourcesAnswer (mergeSources teamID)) }

/-- The source list T1 → [A, A]: the team's list names source A twice. -/
def repeatedSources (_teamID : Int) : List SourceResponse :=
  [source 10 "A", source 10 "A"]

/-- A backend with memberships [T1] and `repeatedSources`. -/
def repeatedSourceBackend : Backend :=
  { unavailable with
    GetTeams := .ok ⟨"success", [some T1]⟩
    GetTeamSources := fun teamID => .ok (sourcesAnswer (repeatedSources teamID)) }

/-- The source list T1 → [A]. -/
def singleSource (_teamID : Int) : List SourceResponse :=
  [source 10 "A"]

/-- A backend whose membership fetch returns T1 twice, with `singleSource`. -/
def repeatedTeamBackend : Backend :=
  { unavailable with
    GetTeams := .ok ⟨"success", [some T1, some T1]⟩
    GetTeamSources := fun teamID => .ok (sourcesAnswer (singleSource teamID)) }

/-- A backend with memberships [T1, T2, T1] on which the fetch for T2 fails. -/
def failingTeamBackend : Backend :=
  { unavailable with
    GetTeams := .ok ⟨"success", [some T1, some T2, some T1]⟩
    GetTeamSources := fun teamID =>
      if teamID = 2 then .error "API request failed with status 500: boom"
      else .ok (sourcesAnswer (singleSource teamID)) }

/-- A backend with memberships [T1, T2] whose source list for T1 is [A, null], a JSON
`null` as its second entry, and whose fetch for T2 succeeds. -/
def nullSourceBackend : Backend :=
  { unavailable with
    GetTeams := .ok ⟨"success", [some T1, some T2]⟩
    GetTeamSources := fun teamID =>
      if teamID = 1 then .ok ⟨"success", [some (source 10 "A"), none]⟩
      else .ok (sourcesAnswer (singleSource teamID)) }

/-- A backend whose membership list is [T1, null, T2] and on which every team-source fetch
succeeds. -/
def nullTeamBackend : Backend :=
  { unavailable with
    GetTeams := .ok ⟨"success", [some T1, none, some T2]⟩
    GetTeamSources := fun teamID => .ok (sourcesAnswer (singleSource teamID)) }

/-- A backend whose membership fetch returns no team. -/
def noTeamBackend : Backend :=
  { unavailable with GetTeams := .ok ⟨"success", []⟩ }

/-- A profile answer whose user has the given role. -/
def profile (role : String) : ProfileResponse :=
  { Status := "success"
    Data :=
      { APIToken := ⟨"", 1, "", "cli", "lc_"⟩
        AuthMethod := "api_token"
        User := ⟨7, "user@example.com", "User", role, "active", "", "", ""⟩ } }

/-- A backend that answers the profile fetch with the given role and on which every user
deletion succeeds. -/
def roleBackend (role : String) : Backend :=
  { unavailable with
    GetProfile := .ok (profile role)
    DeleteUser := fun _ => none }

/-- A stand-in for `url.Parse`: it rejects a URL that holds an ASCII control character, the
first check of `url.Parse`, and accepts any other; nothing is redacted. -/
def parseURL (rawURL : String) : Except Error URL :=
  if rawURL.data.any (fun c => decide (c.toNat < 32 ∨ c.toNat = 127)) then
    .error "net/url: invalid control character in URL"
  else
    .ok { Redacted := rawURL }

/-- A runtime with the given environment, on which every request is answered with status
200 and a body that is no JSON, and `json.Unmarshal` rejects every body. -/
def runtime (env : List (String × String)) : Runtime :=
  { LookupEnv := fun key => env.lookup key
    urlParse := parseURL
    urlParse_default := ⟨{ Redacted := "http://localhost:5173" }, rfl⟩
    Do := fun _ => .ok { StatusCode := 200, Body := "<html>", ReadErr := none }
    unmarshal := fun _ _ => .error "invalid character '<' looking for beginning of value" }

/-- An inbound request with the given Logchef URL and API key headers. -/
def inbound (url apiKey : String) : InboundRequest :=
  { Header := [("X-Logchef-URL", url), ("X-Logchef-API-Key", apiKey)] }

end Example

end Logchef

/-! # Theorems -/

namespace Logchef

/-! ## The aggregation map -/

theorem mapIndex_mapAssign (m : SourceMap) (k key : Int) (v : SourceWithTeams) :
    mapIndex (mapAssign m k v) key = if k = key then some v else mapIndex m key := by
  induction m with
  | nil => simp [mapAssign, mapIndex]
  | cons kv rest ih =>
    obtain ⟨k0, v0⟩ := kv
    by_cases h0 : k0 = k
    · subst h0
      by_cases h1 : k0 = key <;> simp [mapAssign, mapIndex, h1]
    · by_cases h1 : k0 = key
      · subst h1
        have h2 : ¬ k = k0 := fun h => h0 h.symm
        simp [mapAssign, mapIndex, h0, h2]
      · simp [mapAssign, mapIndex, h0, h1, ih]

theorem mapIndex_eq_none_iff (m : SourceMap) (key : Int) :
    mapIndex m key = none ↔ key ∉ m.map Prod.fst := by
  induction m with
  | nil => simp [mapIndex]
  | cons kv rest ih =>
    obtain ⟨k0, v0⟩ := kv
    by_cases h : k0 = key
    · simp [mapIndex, h]
    · have h2 : ¬ key = k0 := fun e => h e.symm
      simp [mapIndex, h, h2, ih]

theorem keys_mapAssign (m : SourceMap) (k : Int) (v : SourceWithTeams) :
    (mapAssign m k v).map Prod.fst =
      if k ∈ m.map Prod.fst then m.map Prod.fst else m.map Prod.fst ++ [k] := by
  induction m with
  | nil => simp [mapAssign]
  | cons kv rest ih =>
    obtain ⟨k0, v0⟩ := kv
    by_cases h : k0 = k
    · simp [mapAssign, h]
    · have h2 : ¬ k = k0 := fun e => h e.symm
      by_cases h3 : k ∈ rest.map Prod.fst
      · simp only [mapAssign, h, if_false, List.map_cons, ih, h3, if_true, List.mem_cons, or_true]
      · simp only [mapAssign, h, if_false, List.map_cons, ih, h3, List.mem_cons, h2, or_self,
          List.cons_append]

theorem nodup_keys_mapAssign (m : SourceMap) (k : Int) (v : SourceWithTeams)
    (h : (m.map Prod.fst).Nodup) : ((mapAssign m k v).map Prod.fst).Nodup := by
  rw [keys_mapAssign]
  by_cases hk : k ∈ m.map Prod.fst
  · simpa [hk] using h
  · rw [if_neg hk]
    exact List.Nodup.append h (List.nodup_singleton k) (by simpa using hk)

theorem mem_iff_mapIndex (m : SourceMap) (h : (m.map Prod.fst).Nodup) (k : Int)
    (v : SourceWithTeams) : (k, v) ∈ m ↔ mapIndex m k = some v := by
  induction m with
  | nil => simp [mapIndex]
  | cons kv rest ih =>
    obtain ⟨k0, v0⟩ := kv
    simp only [List.map_cons, List.nodup_cons] at h
    by_cases h0 : k0 = k
    · subst h0
      have hn : ∀ w, (k0, w) ∉ rest := fun w hw => h.1 (List.mem_map_of_mem Prod.fst hw)
      simp only [List.mem_cons, Prod.mk.injEq, true_and, mapIndex, if_true, Option.some.injEq]
      constructor
      · rintro (rfl | hw)
        · rfl
        · exact absurd hw (hn v)
      · intro e; exact Or.inl e.symm
    · have h2 : ¬ k = k0 := fun e => h0 e.symm
      simp [mapIndex, h0, h2, ih h.2]


/-- The inner-loop body on a scanned entry. -/
theorem addSource_index (team : UserTeamDetails) (m : SourceMap) (source : SourceResponse)
    (id : Int) :
    mapIndex (addSource team m source) id =
      if source.ID = id then
        (match mapIndex m id with
          | some existing =>
            some { existing with Teams := existing.Teams ++ [teamInfoOf team] }
          | none => some { SourceResponse := source, Teams := [teamInfoOf team] })
      else mapIndex m id := by
  unfold addSource
  by_cases h : source.ID = id
  · subst h
    cases hm : mapIndex m source.ID <;> simp [mapIndex_mapAssign, teamInfoOf]
  · cases hm : mapIndex m source.ID <;> simp [mapIndex_mapAssign, h]

theorem addSource_nodup (team : UserTeamDetails) (m : SourceMap) (source : SourceResponse)
    (h : (m.map Prod.fst).Nodup) : ((addSource team m source).map Prod.fst).Nodup := by
  unfold addSource
  cases mapIndex m source.ID <;> exact nodup_keys_mapAssign _ _ _ h

/-- Scanning all entries of all teams is the two nested loops of `getSources`. -/
theorem foldl_scanned (srcs : Int → List SourceResponse) (teams : List UserTeamDetails)
    (m : SourceMap) :
    (scanned srcs teams).foldl (fun acc e => addSource e.1 acc e.2) m =
      teams.foldl (fun acc team => (srcs team.ID).foldl (addSource team) acc) m := by
  induction teams generalizing m with
  | nil => rfl
  | cons team rest ih =>
    simp only [scanned, List.flatMap_cons, List.foldl_append, List.foldl_cons, List.foldl_map]
    exact ih _

theorem scan_nodup (entries : List (UserTeamDetails × SourceResponse)) (m : SourceMap)
    (h : (m.map Prod.fst).Nodup) :
    ((entries.foldl (fun acc e => addSource e.1 acc e.2) m).map Prod.fst).Nodup := by
  induction entries generalizing m with
  | nil => exact h
  | cons e rest ih => exact ih _ (addSource_nodup e.1 m e.2 h)

theorem scan_index (entries : List (UserTeamDetails × SourceResponse)) (m : SourceMap)
    (id : Int) :
    mapIndex (entries.foldl (fun acc e => addSource e.1 acc e.2) m) id =
      match mapIndex m id with
      | some existing =>
        some { existing with
               Teams := existing.Teams ++
                 (entries.filter (fun e => decide (e.2.ID = id))).map (fun e => teamInfoOf e.1) }
      | none => aggregateOf entries id := by
  induction entries generalizing m with
  | nil =>
    simp only [List.foldl_nil]
    cases h : mapIndex m id <;> simp [aggregateOf]
  | cons e rest ih =>
    rw [List.foldl_cons, ih, addSource_index]
    by_cases he : e.2.ID = id
    · cases hm : mapIndex m id <;> simp [he, aggregateOf]
    · cases hm : mapIndex m id <;> simp [he, aggregateOf]

theorem scan_index_empty (entries : List (UserTeamDetails × SourceResponse)) (id : Int) :
    mapIndex (entries.foldl (fun acc e => addSource e.1 acc e.2) []) id =
      aggregateOf entries id := by
  rw [scan_index]; rfl


/-- The inner loop on a list without nil entries is the fold of its body. -/
theorem addSources_some (team : UserTeamDetails) (l : List SourceResponse) (m : SourceMap) :
    addSources team (l.map some) m = .ok (l.foldl (addSource team) m) := by
  induction l generalizing m with
  | nil => rfl
  | cons x rest ih => simp only [List.map_cons, addSources, ih, List.foldl_cons]

/-- The inner loop on a list with a nil entry panics. -/
theorem addSources_nil (team : UserTeamDetails) (l : List (Option SourceResponse))
    (m : SourceMap) (h : none ∈ l) : addSources team l m = .error nilDereference := by
  induction l generalizing m with
  | nil => simp at h
  | cons x rest ih =>
    cases x with
    | none => rfl
    | some source =>
      have hrest : none ∈ rest := by simpa using h
      simp only [addSources, ih _ hrest]

/-- A list of pointers without a nil entry is a list of records. -/
theorem eq_map_some {α : Type} (l : List (Option α)) (h : none ∉ l) :
    l = l.reduceOption.map some := by
  induction l with
  | nil => rfl
  | cons x rest ih =>
    cases x with
    | none => simp at h
    | some a =>
      have hrest : none ∉ rest := fun hin => h (List.mem_cons_of_mem _ hin)
      rw [List.reduceOption_cons_of_some, List.map_cons, ← ih hrest]

theorem none_not_mem_map_some {α : Type} (l : List α) : none ∉ l.map some := by
  simp

theorem reduceOption_of_map_some {α : Type} (l : List α) : (l.map some).reduceOption = l := by
  induction l with
  | nil => rfl
  | cons x rest ih => rw [List.map_cons, List.reduceOption_cons_of_some, ih]

theorem getSourcesLoop_ok (c : Client) (srcs : Int → List SourceResponse)
    (teams : List UserTeamDetails) (m : SourceMap) (tr : Trace)
    (h : ∀ team ∈ teams, ∃ r, c.backend.GetTeamSources team.ID = .ok r ∧
      r.Data = (srcs team.ID).map some) :
    getSourcesLoop c (teams.map some) m tr =
      (.ok (.ok (teams.foldl (fun acc team => (srcs team.ID).foldl (addSource team) acc) m)),
        tr ++ teams.map fetchOf) := by
  induction teams generalizing m tr with
  | nil => simp [getSourcesLoop]
  | cons team rest ih =>
    obtain ⟨r, h1, hr⟩ := h team (List.mem_cons_self _ _)
    have h2 : ∀ t ∈ rest, ∃ r, c.backend.GetTeamSources t.ID = .ok r ∧
        r.Data = (srcs t.ID).map some :=
      fun t ht => h t (List.mem_cons_of_mem _ ht)
    simp only [List.map_cons, getSourcesLoop, Client.GetTeamSources, h1, hr, addSources_some,
      ih _ _ h2, List.foldl_cons, fetchOf, List.append_assoc, List.singleton_append]

/-- The loop on a membership list whose entries before `last` are not nil and have
successful fetches without nil entries: it scans them and goes on with `last :: after`. -/
theorem getSourcesLoop_prefix (c : Client) (before : List UserTeamDetails)
    (rest : List (Option UserTeamDetails)) (m : SourceMap) (tr : Trace)
    (hbefore : ∀ t ∈ before, ∃ r, c.backend.GetTeamSources t.ID = .ok r ∧ none ∉ r.Data) :
    ∃ m1, getSourcesLoop c (before.map some ++ rest) m tr =
      getSourcesLoop c rest m1 (tr ++ before.map fetchOf) := by
  induction before generalizing m tr with
  | nil => exact ⟨m, by simp⟩
  | cons t more ih =>
    obtain ⟨r, hr, hnil⟩ := hbefore t (List.mem_cons_self _ _)
    have h2 : ∀ x ∈ more, ∃ r, c.backend.GetTeamSources x.ID = .ok r ∧ none ∉ r.Data :=
      fun x hx => hbefore x (List.mem_cons_of_mem _ hx)
    have hdata := eq_map_some r.Data hnil
    obtain ⟨m1, hm1⟩ := ih (r.Data.reduceOption.foldl (addSource t) m)
      (tr ++ [Request.GetTeamSources t.ID]) h2
    refine ⟨m1, ?_⟩
    show getSourcesLoop c (some t :: (more.map some ++ rest)) m tr = _
    simp only [getSourcesLoop, Client.GetTeamSources, hr]
    rw [hdata, addSources_some]
    simp only [hm1, List.map_cons, fetchOf, List.append_assoc, List.singleton_append]

theorem getSourcesLoop_error (c : Client) (before : List UserTeamDetails)
    (team : UserTeamDetails) (after : List (Option UserTeamDetails)) (e : Error)
    (m : SourceMap) (tr : Trace)
    (hbefore : ∀ t ∈ before, ∃ r, c.backend.GetTeamSources t.ID = .ok r ∧ none ∉ r.Data)
    (hteam : c.backend.GetTeamSources team.ID = .error e) :
    getSourcesLoop c (before.map some ++ some team :: after) m tr =
      (.ok (.error ("get sources for team " ++ toString team.ID ++ ": " ++ e)),
        tr ++ (before ++ [team]).map fetchOf) := by
  obtain ⟨m1, hm1⟩ := getSourcesLoop_prefix c before (some team :: after) m tr hbefore
  rw [hm1]
  simp only [getSourcesLoop, Client.GetTeamSources, hteam, List.map_append, List.map_cons,
    List.map_nil, fetchOf, List.append_assoc]

/-- The loop panics at a nil membership entry, before a fetch is issued for it. -/
theorem getSourcesLoop_nil_team (c : Client) (before : List UserTeamDetails)
    (after : List (Option UserTeamDetails)) (m : SourceMap) (tr : Trace)
    (hbefore : ∀ t ∈ before, ∃ r, c.backend.GetTeamSources t.ID = .ok r ∧ none ∉ r.Data) :
    getSourcesLoop c (before.map some ++ none :: after) m tr =
      (.error nilDereference, tr ++ before.map fetchOf) := by
  obtain ⟨m1, hm1⟩ := getSourcesLoop_prefix c before (none :: after) m tr hbefore
  rw [hm1]
  rfl

/-- The loop panics at a nil source entry, after the fetch that returned it. -/
theorem getSourcesLoop_nil_source (c : Client) (before : List UserTeamDetails)
    (team : UserTeamDetails) (after : List (Option UserTeamDetails)) (r : TeamSourcesResponse)
    (m : SourceMap) (tr : Trace)
    (hbefore : ∀ t ∈ before, ∃ r, c.backend.GetTeamSources t.ID = .ok r ∧ none ∉ r.Data)
    (hteam : c.backend.GetTeamSources team.ID = .ok r) (hnil : none ∈ r.Data) :
    getSourcesLoop c (before.map some ++ some team :: after) m tr =
      (.error nilDereference, tr ++ (before ++ [team]).map fetchOf) := by
  obtain ⟨m1, hm1⟩ := getSourcesLoop_prefix c before (some team :: after) m tr hbefore
  rw [hm1]
  simp only [getSourcesLoop, Client.GetTeamSources, hteam, addSources_nil team r.Data m1 hnil,
    List.map_append, List.map_cons, List.map_nil, fetchOf, List.append_assoc]

theorem getSources_ok (order : MapOrder) (ctx : Context) (args : GetSourcesParams)
    (tr : Trace) (c : Client) (teamsResp : TeamsResponse) (teams : List UserTeamDetails)
    (srcs : Int → List SourceResponse)
    (hc : LogchefClientFromContext ctx = some c)
    (hteams : c.backend.GetTeams = .ok teamsResp)
    (hdata : teamsResp.Data = teams.map some)
    (hsrc : ∀ team ∈ teams, ∃ r, c.backend.GetTeamSources team.ID = .ok r ∧
      r.Data = (srcs team.ID).map some) :
    getSources order ctx args tr =
      (.ok (.ok { Sources :=
          (order.range (aggregateMap srcs teams)).map (fun entry => entry.2) }),
        tr ++ Request.GetTeams :: teams.map fetchOf) := by
  simp only [getSources, hc, Client.GetTeams, hteams, hdata,
    getSourcesLoop_ok c srcs teams [] _ hsrc, aggregateMap, foldl_scanned,
    List.append_assoc, List.singleton_append]

theorem aggregateMap_nodup (srcs : Int → List SourceResponse) (teams : List UserTeamDetails) :
    ((aggregateMap srcs teams).map Prod.fst).Nodup :=
  scan_nodup _ [] List.nodup_nil

theorem aggregateOf_id (entries : List (UserTeamDetails × SourceResponse)) (id : Int)
    (s : SourceWithTeams) (h : aggregateOf entries id = some s) : s.SourceResponse.ID = id := by
  unfold aggregateOf at h
  split at h
  · exact absurd h (by simp)
  · rename_i first hfirst
    have := List.find?_some hfirst
    simp only [Option.some.injEq] at h
    subst h
    simpa using this

theorem mem_aggregateMap (srcs : Int → List SourceResponse) (teams : List UserTeamDetails)
    (k : Int) (s : SourceWithTeams) :
    (k, s) ∈ aggregateMap srcs teams ↔ aggregateOf (scanned srcs teams) k = some s := by
  rw [mem_iff_mapIndex _ (aggregateMap_nodup srcs teams), aggregateMap, scan_index_empty]

/-- The sources of the response are the aggregate records, each once. -/
theorem mem_range_aggregateMap (order : MapOrder) (srcs : Int → List SourceResponse)
    (teams : List UserTeamDetails) (s : SourceWithTeams) :
    s ∈ (order.range (aggregateMap srcs teams)).map (fun entry => entry.2) ↔
      aggregateOf (scanned srcs teams) s.SourceResponse.ID = some s := by
  constructor
  · intro h
    obtain ⟨⟨k, v⟩, hkv, rfl⟩ := List.mem_map.mp h
    have hm := (order.perm _).mem_iff.mp hkv
    have ha := (mem_aggregateMap srcs teams k v).mp hm
    have hk := aggregateOf_id _ _ _ ha
    simpa [hk] using ha
  · intro h
    have hm := (mem_aggregateMap srcs teams _ s).mpr h
    exact List.mem_map.mpr ⟨(_, s), (order.perm _).mem_iff.mpr hm, rfl⟩

theorem ids_aggregateMap (srcs : Int → List SourceResponse) (teams : List UserTeamDetails) :
    (aggregateMap srcs teams).map (fun entry => entry.2.SourceResponse.ID) =
      (aggregateMap srcs teams).map Prod.fst := by
  apply List.map_congr_left
  rintro ⟨k, v⟩ hkv
  exact aggregateOf_id _ _ _ ((mem_aggregateMap srcs teams k v).mp hkv)

theorem aggregateOf_isSome_iff (entries : List (UserTeamDetails × SourceResponse)) (id : Int) :
    (∃ s, aggregateOf entries id = some s) ↔ ∃ e ∈ entries, e.2.ID = id := by
  unfold aggregateOf
  cases h : entries.find? (fun e => decide (e.2.ID = id)) with
  | none =>
    have := List.find?_eq_none.mp h
    simp only [decide_eq_true_eq] at this
    constructor
    · rintro ⟨s, hs⟩
      exact absurd hs (by simp)
    · rintro ⟨e, he, hid⟩
      exact absurd hid (this e he)
  | some first =>
    have h1 := List.find?_some h
    have h2 := List.mem_of_find?_eq_some h
    simp only [decide_eq_true_eq] at h1
    exact ⟨fun _ => ⟨first, h2, h1⟩, fun _ => ⟨_, rfl⟩⟩

theorem mem_scanned (srcs : Int → List SourceResponse) (teams : List UserTeamDetails)
    (e : UserTeamDetails × SourceResponse) :
    e ∈ scanned srcs teams ↔ e.1 ∈ teams ∧ e.2 ∈ (srcs e.1.ID) := by
  obtain ⟨t, s⟩ := e
  simp only [scanned, List.mem_flatMap, List.mem_map, Prod.mk.injEq]
  constructor
  · rintro ⟨t', ht', s', hs', rfl, rfl⟩
    exact ⟨ht', hs'⟩
  · rintro ⟨ht, hs⟩
    exact ⟨t, ht, s, hs, rfl, rfl⟩


theorem teams_of_scanned (srcs : Int → List SourceResponse) (teams : List UserTeamDetails)
    (id : Int) :
    ((scanned srcs teams).filter (fun e => decide (e.2.ID = id))).map (fun e => teamInfoOf e.1) =
      teams.flatMap (fun team =>
        ((srcs team.ID).filter (fun x => decide (x.ID = id))).map
          (fun _ => teamInfoOf team)) := by
  induction teams with
  | nil => rfl
  | cons team rest ih =>
    have hcons : scanned srcs (team :: rest) =
        (srcs team.ID).map (fun source => (team, source)) ++ scanned srcs rest := by
      simp [scanned]
    rw [hcons, List.filter_append, List.map_append, ih, List.flatMap_cons, List.filter_map,
      List.map_map]
    rfl

theorem sources_of_scanned (srcs : Int → List SourceResponse) (teams : List UserTeamDetails) :
    (scanned srcs teams).map (fun e => e.2) = teams.flatMap (fun team => (srcs team.ID)) := by
  induction teams with
  | nil => rfl
  | cons team rest ih =>
    have hcons : scanned srcs (team :: rest) =
        (srcs team.ID).map (fun source => (team, source)) ++ scanned srcs rest := by
      simp [scanned]
    rw [hcons, List.map_append, ih, List.flatMap_cons, List.map_map]
    simp

theorem occurrences_of_nodup (l : List SourceResponse) (id : Int) (b : TeamInfo)
    (h : (l.map (fun x => x.ID)).Nodup) :
    (l.filter (fun x => decide (x.ID = id))).map (fun _ => b) =
      if l.any (fun x => decide (x.ID = id)) then [b] else [] := by
  induction l with
  | nil => rfl
  | cons x xs ih =>
    simp only [List.map_cons, List.nodup_cons] at h
    by_cases hx : x.ID = id
    · have hnil : xs.filter (fun y => decide (y.ID = id)) = [] := by
        rw [List.filter_eq_nil_iff]
        intro y hy hyid
        simp only [decide_eq_true_eq] at hyid
        exact h.1 (List.mem_map.mpr ⟨y, hy, by rw [hyid, hx]⟩)
      simp [List.filter_cons, hx, hnil]
    · simp [List.filter_cons, hx, ih h.2]

theorem flatMap_if_singleton (teams : List UserTeamDetails) (p : UserTeamDetails → Bool) :
    teams.flatMap (fun team => if p team then [teamInfoOf team] else []) =
      (teams.filter p).map teamInfoOf := by
  induction teams with
  | nil => rfl
  | cons team rest ih =>
    by_cases hp : p team <;> simp [List.flatMap_cons, List.filter_cons, hp, ih]

theorem aggregateOf_teams (entries : List (UserTeamDetails × SourceResponse)) (id : Int)
    (s : SourceWithTeams) (h : aggregateOf entries id = some s) :
    s.Teams = (entries.filter (fun e => decide (e.2.ID = id))).map (fun e => teamInfoOf e.1) := by
  unfold aggregateOf at h
  split at h
  · exact absurd h (by simp)
  · simp only [Option.some.injEq] at h
    subst h
    rfl

theorem aggregateOf_first (entries : List (UserTeamDetails × SourceResponse)) (id : Int)
    (s : SourceWithTeams) (h : aggregateOf entries id = some s) :
    (entries.map (fun e => e.2)).find? (fun x => decide (x.ID = id)) = some s.SourceResponse := by
  unfold aggregateOf at h
  split at h
  · exact absurd h (by simp)
  · rename_i first hfirst
    simp only [Option.some.injEq] at h
    subst h
    rw [List.find?_map]
    simp only [Function.comp_def, hfirst, Option.map_some']

/-- The IDs of the response: no repeats, and exactly the IDs some team's list holds. -/
theorem ids_of_response (order : MapOrder) (srcs : Int → List SourceResponse)
    (teams : List UserTeamDetails) :
    let ids := ((order.range (aggregateMap srcs teams)).map (fun entry => entry.2)).map
      (fun s => s.SourceResponse.ID)
    ids.Nodup ∧
      ∀ id, id ∈ ids ↔ ∃ team ∈ teams, ∃ source ∈ (srcs team.ID), source.ID = id := by
  intro ids
  have hperm : ids.Perm ((aggregateMap srcs teams).map Prod.fst) := by
    rw [← ids_aggregateMap]
    show (((order.range (aggregateMap srcs teams)).map (fun entry => entry.2)).map
      (fun s => s.SourceResponse.ID)).Perm _
    rw [List.map_map]
    exact (order.perm _).map _
  refine ⟨hperm.nodup_iff.mpr (aggregateMap_nodup srcs teams), fun id => ?_⟩
  rw [hperm.mem_iff]
  have h1 : id ∈ (aggregateMap srcs teams).map Prod.fst ↔
      ∃ s, aggregateOf (scanned srcs teams) id = some s := by
    rw [← scan_index_empty, ← aggregateMap]
    have := mapIndex_eq_none_iff (aggregateMap srcs teams) id
    cases hm : mapIndex (aggregateMap srcs teams) id with
    | none => simp [this.mp hm]
    | some v =>
      have hne : ¬ mapIndex (aggregateMap srcs teams) id = none := by simp [hm]
      have hin : id ∈ (aggregateMap srcs teams).map Prod.fst := by
        by_contra hcon; exact hne (this.mpr hcon)
      exact ⟨fun _ => ⟨v, rfl⟩, fun _ => hin⟩
  rw [h1, aggregateOf_isSome_iff]
  constructor
  · rintro ⟨e, he, hid⟩
    have := (mem_scanned srcs teams e).mp he
    exact ⟨e.1, this.1, e.2, this.2, hid⟩
  · rintro ⟨team, ht, source, hs, hid⟩
    exact ⟨(team, source), (mem_scanned srcs teams _).mpr ⟨ht, hs⟩, hid⟩

/-! ## Source aggregation: `getSources` -/

/-- C1, as stated, fails: for memberships [T1, T2] and the source list [A, null] for T1
every fetch succeeds, and `getSources` panics on the nil entry after the fetch for T1: it
returns no response, and so no source ID at all; for memberships [T1, null, T2] it panics
before the second fetch. -/
theorem getSources_null_entry_panics :
    (∃ teamsResp, Example.nullSourceBackend.GetTeams = .ok teamsResp) ∧
    (∀ teamID, ∃ r, Example.nullSourceBackend.GetTeamSources teamID = .ok r) ∧
    getSources MapOrder.insertion (Example.ctxOf Example.nullSourceBackend) {} [] =
      (.error "runtime error: invalid memory address or nil pointer dereference",
        [Request.GetTeams, Request.GetTeamSources 1]) ∧
    getSources MapOrder.insertion (Example.ctxOf Example.nullTeamBackend) {} [] =
      (.error "runtime error: invalid memory address or nil pointer dereference",
        [Request.GetTeams, Request.GetTeamSources 1]) := by
  refine ⟨⟨_, rfl⟩, fun teamID => ?_, rfl, rfl⟩
  by_cases h : teamID = 1
  · exact ⟨⟨"success", [some (Example.source 10 "A"), none]⟩,
      by simp only [Example.nullSourceBackend, h, if_true]⟩
  · exact ⟨Example.sourcesAnswer (Example.singleSource teamID),
      by simp only [Example.nullSourceBackend, h, if_false]⟩

/-- C1, amended: when the membership fetch and every team-source fetch succeed and no entry
of the lists they return is nil, `getSources` returns a response in which a source ID
occurs exactly once if it occurs in the source list of at least one team of the membership
list, and not at all otherwise. -/
theorem getSources_ids_exactly_once (order : MapOrder) (ctx : Context)
    (args : GetSourcesParams) (tr : Trace) (c : Client) (teamsResp : TeamsResponse)
    (teams : List UserTeamDetails) (srcs : Int → List SourceResponse)
    (hc : LogchefClientFromContext ctx = some c)
    (hteams : c.backend.GetTeams = .ok teamsResp)
    (hdata : teamsResp.Data = teams.map some)
    (hsrc : ∀ team ∈ teams, ∃ r, c.backend.GetTeamSources team.ID = .ok r ∧
      r.Data = (srcs team.ID).map some) :
    ∃ resp, (getSources order ctx args tr).1 = .ok (.ok resp) ∧
      ∀ id : Int,
        ((∃ team ∈ teams, ∃ source ∈ (srcs team.ID), source.ID = id) →
          (resp.Sources.map (fun s => s.SourceResponse.ID)).count id = 1) ∧
        ((¬ ∃ team ∈ teams, ∃ source ∈ (srcs team.ID), source.ID = id) →
          (resp.Sources.map (fun s => s.SourceResponse.ID)).count id = 0) := by
  refine ⟨_, by
    rw [getSources_ok order ctx args tr c teamsResp teams srcs hc hteams hdata hsrc], ?_⟩
  obtain ⟨hnodup, hmem⟩ := ids_of_response order srcs teams
  intro id
  constructor
  · intro h
    exact List.count_eq_one_of_mem hnodup ((hmem id).mpr h)
  · intro h
    exact List.count_eq_zero_of_not_mem (fun hin => h ((hmem id).mp hin))

/-- The merge law input T1 → [A, B], T2 → [B, C]: the IDs of A, B and C occur once each,
any other ID does not occur. -/
theorem getSources_ids_exactly_once_witness :
    ∃ resp, (getSources MapOrder.reversed (Example.ctxOf Example.mergeBackend) {} []).1 =
        .ok (.ok resp) ∧
      ∀ id : Int,
        ((∃ team ∈ [Example.T1, Example.T2],
            ∃ source ∈ (Example.mergeSources team.ID), source.ID = id) →
          (resp.Sources.map (fun s => s.SourceResponse.ID)).count id = 1) ∧
        ((¬ ∃ team ∈ [Example.T1, Example.T2],
            ∃ source ∈ (Example.mergeSources team.ID), source.ID = id) →
          (resp.Sources.map (fun s => s.SourceResponse.ID)).count id = 0) :=
  getSources_ids_exactly_once MapOrder.reversed (Example.ctxOf Example.mergeBackend) {} []
    _ ⟨"success", [some Example.T1, some Example.T2]⟩ [Example.T1, Example.T2]
    Example.mergeSources rfl rfl rfl (fun _ _ => ⟨_, rfl, rfl⟩)

theorem teams_of_nodup (srcs : Int → List SourceResponse) (teams : List UserTeamDetails)
    (id : Int) (hnodup : ∀ team ∈ teams, ((srcs team.ID).map (fun x => x.ID)).Nodup) :
    teams.flatMap (fun team =>
        ((srcs team.ID).filter (fun x => decide (x.ID = id))).map
          (fun _ => teamInfoOf team)) =
      (teams.filter (fun team => (srcs team.ID).any (fun x => decide (x.ID = id)))).map
        teamInfoOf := by
  rw [← flatMap_if_singleton]
  induction teams with
  | nil => rfl
  | cons team rest ih =>
    rw [List.flatMap_cons, List.flatMap_cons,
      occurrences_of_nodup _ _ _ (hnodup team (List.mem_cons_self _ _)),
      ih (fun t ht => hnodup t (List.mem_cons_of_mem _ ht))]

/-- C2, as stated, fails: for memberships [T1] and T1 → [A, A] the aggregation succeeds
and the teams list of A is [T1, T1], not the membership list restricted to the teams whose
source list contains A, which is [T1]. -/
theorem getSources_teams_repeated_source :
    ∃ resp, (getSources MapOrder.insertion (Example.ctxOf Example.repeatedSourceBackend)
        {} []).1 = .ok (.ok resp) ∧
      ∃ s ∈ resp.Sources,
        s.Teams = [teamInfoOf Example.T1, teamInfoOf Example.T1] ∧
        s.Teams ≠ ([Example.T1].filter (fun team =>
          (Example.repeatedSources team.ID).any
            (fun x => decide (x.ID = s.SourceResponse.ID)))).map teamInfoOf :=
  ⟨_, rfl, ⟨Example.source 10 "A", [teamInfoOf Example.T1, teamInfoOf Example.T1]⟩,
    by decide, rfl, by decide⟩

/-- C2, amended: on a successful aggregation, one where the membership fetch and every
team-source fetch succeed and no entry of the lists they return is nil
(`getSources_ok_only_if`), the teams list of every source of the result
is the membership list in returned order, each entry mapped to its ID, name and role and
taken once per occurrence of the source ID in that team's source list; when no team's
source list holds an ID twice, that is the membership list restricted to the teams whose
source list contains the source ID. -/
theorem getSources_teams_in_membership_order (order : MapOrder) (ctx : Context)
    (args : GetSourcesParams) (tr : Trace) (c : Client) (teamsResp : TeamsResponse)
    (teams : List UserTeamDetails) (srcs : Int → List SourceResponse)
    (hc : LogchefClientFromContext ctx = some c)
    (hteams : c.backend.GetTeams = .ok teamsResp)
    (hdata : teamsResp.Data = teams.map some)
    (hsrc : ∀ team ∈ teams, ∃ r, c.backend.GetTeamSources team.ID = .ok r ∧
      r.Data = (srcs team.ID).map some) :
    ∃ resp, (getSources order ctx args tr).1 = .ok (.ok resp) ∧
      ∀ s ∈ resp.Sources,
        s.Teams = teams.flatMap (fun team =>
          ((srcs team.ID).filter (fun x => decide (x.ID = s.SourceResponse.ID))).map
            (fun _ => teamInfoOf team)) ∧
        ((∀ team ∈ teams, ((srcs team.ID).map (fun x => x.ID)).Nodup) →
          s.Teams = (teams.filter (fun team =>
            (srcs team.ID).any (fun x => decide (x.ID = s.SourceResponse.ID)))).map
              teamInfoOf) := by
  refine ⟨_, by
    rw [getSources_ok order ctx args tr c teamsResp teams srcs hc hteams hdata hsrc], ?_⟩
  intro s hs
  have hagg := (mem_range_aggregateMap order srcs teams s).mp hs
  have hgen := (aggregateOf_teams _ _ _ hagg).trans
    (teams_of_scanned srcs teams s.SourceResponse.ID)
  refine ⟨hgen, fun hnodup => ?_⟩
  rw [hgen]
  exact teams_of_nodup srcs teams s.SourceResponse.ID hnodup

/-- The merge law: for T1 → [A, B], T2 → [B, C] the result is exactly A, B and C; the
teams of B are T1 then T2, and A and C have one team each. -/
theorem getSources_teams_in_membership_order_witness :
    (∃ resp, (getSources MapOrder.insertion (Example.ctxOf Example.mergeBackend) {} []).1 =
        .ok (.ok resp) ∧
      ∀ s ∈ resp.Sources,
        s.Teams = [Example.T1, Example.T2].flatMap (fun team =>
          ((Example.mergeSources team.ID).filter
            (fun x => decide (x.ID = s.SourceResponse.ID))).map (fun _ => teamInfoOf team)) ∧
        ((∀ team ∈ [Example.T1, Example.T2],
            ((Example.mergeSources team.ID).map (fun x => x.ID)).Nodup) →
          s.Teams = ([Example.T1, Example.T2].filter (fun team =>
            (Example.mergeSources team.ID).any
              (fun x => decide (x.ID = s.SourceResponse.ID)))).map teamInfoOf)) ∧
    (∀ team ∈ [Example.T1, Example.T2],
      ((Example.mergeSources team.ID).map (fun x => x.ID)).Nodup) ∧
    (getSources MapOrder.insertion (Example.ctxOf Example.mergeBackend) {} []).1 =
      .ok (.ok ⟨[⟨Example.source 10 "A", [teamInfoOf Example.T1]⟩,
            ⟨Example.source 11 "B", [teamInfoOf Example.T1, teamInfoOf Example.T2]⟩,
            ⟨Example.source 12 "C", [teamInfoOf Example.T2]⟩]⟩) :=
  ⟨getSources_teams_in_membership_order MapOrder.insertion
      (Example.ctxOf Example.mergeBackend) {} [] _
      ⟨"success", [some Example.T1, some Example.T2]⟩ [Example.T1, Example.T2]
      Example.mergeSources rfl rfl rfl (fun _ _ => ⟨_, rfl, rfl⟩),
    by decide, rfl⟩

/-- C3, as stated, fails: when the membership fetch returns T1 twice and T1 → [A], the
aggregation succeeds and the teams list of A holds two entries with the ID of T1. -/
theorem getSources_teams_repeated_team :
    ∃ resp, (getSources MapOrder.insertion (Example.ctxOf Example.repeatedTeamBackend)
        {} []).1 = .ok (.ok resp) ∧
      ∃ s ∈ resp.Sources, ¬ (s.Teams.map (fun t => t.ID)).Nodup :=
  ⟨_, rfl, ⟨Example.source 10 "A", [teamInfoOf Example.T1, teamInfoOf Example.T1]⟩,
    by decide, by decide⟩

/-- C3, amended: on a successful aggregation, one where the membership fetch and every
team-source fetch succeed and no entry of the lists they return is nil
(`getSources_ok_only_if`), when the membership list holds no team ID
twice and no team's source list holds a source ID twice, the teams list of every source
of the result holds no two entries with the same team ID, and its team IDs are exactly
the IDs of the teams whose source list contains the source. -/
theorem getSources_teams_distinct (order : MapOrder) (ctx : Context)
    (args : GetSourcesParams) (tr : Trace) (c : Client) (teamsResp : TeamsResponse)
    (teams : List UserTeamDetails) (srcs : Int → List SourceResponse)
    (hc : LogchefClientFromContext ctx = some c)
    (hteams : c.backend.GetTeams = .ok teamsResp)
    (hdata : teamsResp.Data = teams.map some)
    (hsrc : ∀ team ∈ teams, ∃ r, c.backend.GetTeamSources team.ID = .ok r ∧
      r.Data = (srcs team.ID).map some)
    (hdistinct : (teams.map (fun team => team.ID)).Nodup)
    (hnodup : ∀ team ∈ teams, ((srcs team.ID).map (fun x => x.ID)).Nodup) :
    ∃ resp, (getSources order ctx args tr).1 = .ok (.ok resp) ∧
      ∀ s ∈ resp.Sources,
        (s.Teams.map (fun t => t.ID)).Nodup ∧
        ∀ teamID, teamID ∈ s.Teams.map (fun t => t.ID) ↔
          ∃ team ∈ teams, team.ID = teamID ∧
            ∃ x ∈ (srcs team.ID), x.ID = s.SourceResponse.ID := by
  refine ⟨_, by
    rw [getSources_ok order ctx args tr c teamsResp teams srcs hc hteams hdata hsrc], ?_⟩
  intro s hs
  have hagg := (mem_range_aggregateMap order srcs teams s).mp hs
  have hteamsEq : s.Teams = (teams.filter (fun team =>
      (srcs team.ID).any (fun x => decide (x.ID = s.SourceResponse.ID)))).map teamInfoOf :=
    ((aggregateOf_teams _ _ _ hagg).trans
      (teams_of_scanned srcs teams s.SourceResponse.ID)).trans
      (teams_of_nodup srcs teams s.SourceResponse.ID hnodup)
  have hids : s.Teams.map (fun t => t.ID) = (teams.filter (fun team =>
      (srcs team.ID).any (fun x => decide (x.ID = s.SourceResponse.ID)))).map
        (fun team => team.ID) := by
    rw [hteamsEq, List.map_map]
    rfl
  rw [hids]
  refine ⟨(List.filter_sublist _).map _ |>.nodup hdistinct, fun teamID => ?_⟩
  simp only [List.mem_map, List.mem_filter, List.any_eq_true, decide_eq_true_eq]
  constructor
  · rintro ⟨team, ⟨ht, x, hx, hid⟩, rfl⟩
    exact ⟨team, ht, rfl, x, hx, hid⟩
  · rintro ⟨team, ht, rfl, x, hx, hid⟩
    exact ⟨team, ⟨ht, x, hx, hid⟩, rfl⟩

/-- The merge law input satisfies both side conditions: every teams list is duplicate
free. -/
theorem getSources_teams_distinct_witness :
    ∃ resp, (getSources MapOrder.reversed (Example.ctxOf Example.mergeBackend) {} []).1 =
        .ok (.ok resp) ∧
      ∀ s ∈ resp.Sources,
        (s.Teams.map (fun t => t.ID)).Nodup ∧
        ∀ teamID, teamID ∈ s.Teams.map (fun t => t.ID) ↔
          ∃ team ∈ [Example.T1, Example.T2], team.ID = teamID ∧
            ∃ x ∈ (Example.mergeSources team.ID), x.ID = s.SourceResponse.ID :=
  getSources_teams_distinct MapOrder.reversed (Example.ctxOf Example.mergeBackend) {} []
    _ ⟨"success", [some Example.T1, some Example.T2]⟩ [Example.T1, Example.T2]
    Example.mergeSources rfl rfl rfl (fun _ _ => ⟨_, rfl, rfl⟩)
    (by decide) (by decide)

/-- C4: on a successful aggregation, one where the membership fetch and every team-source
fetch succeed and no entry of the lists they return is nil, which is the case whenever
`getSources` returns a response (`getSources_ok_only_if`), the source fields of every
source of the result are those of the first entry with its ID, scanning the teams in
membership order and the sources of each team in returned order; a later entry with the
same ID leaves the stored source fields as they are and only extends the teams list. -/
theorem getSources_first_seen_fields (order : MapOrder) (ctx : Context)
    (args : GetSourcesParams) (tr : Trace) (c : Client) (teamsResp : TeamsResponse)
    (teams : List UserTeamDetails) (srcs : Int → List SourceResponse)
    (hc : LogchefClientFromContext ctx = some c)
    (hteams : c.backend.GetTeams = .ok teamsResp)
    (hdata : teamsResp.Data = teams.map some)
    (hsrc : ∀ team ∈ teams, ∃ r, c.backend.GetTeamSources team.ID = .ok r ∧
      r.Data = (srcs team.ID).map some) :
    (∃ resp, (getSources order ctx args tr).1 = .ok (.ok resp) ∧
      ∀ s ∈ resp.Sources,
        (teams.flatMap (fun team => (srcs team.ID))).find?
          (fun x => decide (x.ID = s.SourceResponse.ID)) = some s.SourceResponse) ∧
    (∀ (team : UserTeamDetails) (sourceMap : SourceMap) (later : SourceResponse)
        (existing : SourceWithTeams), mapIndex sourceMap later.ID = some existing →
      (∀ id, mapIndex (addSource team sourceMap later) id =
        if later.ID = id then
          some { SourceResponse := existing.SourceResponse
                 Teams := existing.Teams ++ [teamInfoOf team] }
        else mapIndex sourceMap id)) := by
  constructor
  · refine ⟨_, by
      rw [getSources_ok order ctx args tr c teamsResp teams srcs hc hteams hdata hsrc], ?_⟩
    intro s hs
    have hagg := (mem_range_aggregateMap order srcs teams s).mp hs
    rw [← sources_of_scanned]
    exact aggregateOf_first _ _ _ hagg
  · intro team sourceMap later existing hex id
    rw [addSource_index]
    by_cases h : later.ID = id
    · subst h
      simp [hex]
    · simp [h]

/-- On the merge law input source B is listed by T1 as "B" and by T2 as "B-renamed": the
result keeps the fields T1 returned. -/
theorem getSources_first_seen_fields_witness :
    ((∃ resp, (getSources MapOrder.insertion (Example.ctxOf Example.mergeBackend) {} []).1 =
        .ok (.ok resp) ∧
      ∀ s ∈ resp.Sources,
        ([Example.T1, Example.T2].flatMap (fun team => (Example.mergeSources team.ID))).find?
          (fun x => decide (x.ID = s.SourceResponse.ID)) = some s.SourceResponse) ∧
    (∀ (team : UserTeamDetails) (sourceMap : SourceMap) (later : SourceResponse)
        (existing : SourceWithTeams), mapIndex sourceMap later.ID = some existing →
      (∀ id, mapIndex (addSource team sourceMap later) id =
        if later.ID = id then
          some { SourceResponse := existing.SourceResponse
                 Teams := existing.Teams ++ [teamInfoOf team] }
        else mapIndex sourceMap id))) ∧
    ∃ resp, (getSources MapOrder.insertion (Example.ctxOf Example.mergeBackend) {} []).1 =
        .ok (.ok resp) ∧
      (resp.Sources.filter (fun s => decide (s.SourceResponse.ID = 11))).map
        (fun s => s.SourceResponse.Name) = ["B"] :=
  ⟨getSources_first_seen_fields MapOrder.insertion (Example.ctxOf Example.mergeBackend) {} []
      _ ⟨"success", [some Example.T1, some Example.T2]⟩ [Example.T1, Example.T2]
    Example.mergeSources rfl rfl rfl (fun _ _ => ⟨_, rfl, rfl⟩),
    _, rfl, by decide⟩

/-- On lists without nil entries the loop fails exactly when the fetch of some team of the
list fails. -/
theorem getSourcesLoop_error_iff (c : Client) (teams : List UserTeamDetails) (m : SourceMap)
    (tr : Trace)
    (hnil : ∀ team ∈ teams, ∀ r,
      c.backend.GetTeamSources team.ID = .ok r → none ∉ r.Data) :
    (∃ err, (getSourcesLoop c (teams.map some) m tr).1 = .ok (.error err)) ↔
      ∃ team ∈ teams, ∃ e, c.backend.GetTeamSources team.ID = .error e := by
  induction teams generalizing m tr with
  | nil => simp [getSourcesLoop]
  | cons team rest ih =>
    have hrest : ∀ t ∈ rest, ∀ r, c.backend.GetTeamSources t.ID = .ok r → none ∉ r.Data :=
      fun t ht => hnil t (List.mem_cons_of_mem _ ht)
    cases h : c.backend.GetTeamSources team.ID with
    | error e =>
      simp only [List.map_cons, getSourcesLoop, Client.GetTeamSources, h]
      exact ⟨fun _ => ⟨team, List.mem_cons_self _ _, e, h⟩, fun _ => ⟨_, rfl⟩⟩
    | ok r =>
      have hdata := eq_map_some r.Data (hnil team (List.mem_cons_self _ _) r h)
      simp only [List.map_cons, getSourcesLoop, Client.GetTeamSources, h]
      rw [hdata, addSources_some]
      simp only [ih _ _ hrest]
      constructor
      · rintro ⟨t, ht, e, he⟩
        exact ⟨t, List.mem_cons_of_mem _ ht, e, he⟩
      · rintro ⟨t, ht, e, he⟩
        rcases List.mem_cons.mp ht with rfl | ht
        · rw [h] at he
          exact absurd he (by simp)
        · exact ⟨t, ht, e, he⟩

/-- The loop fails exactly when it reaches a team whose fetch fails: every membership entry
before it is not nil and its fetch succeeded with a list without nil entries. -/
theorem getSourcesLoop_error_reached (c : Client) (l : List (Option UserTeamDetails))
    (m : SourceMap) (tr : Trace) :
    (∃ err, (getSourcesLoop c l m tr).1 = .ok (.error err)) ↔
      ∃ (before : List UserTeamDetails) (team : UserTeamDetails)
          (after : List (Option UserTeamDetails)) (e : Error),
        l = before.map some ++ some team :: after ∧
        (∀ t ∈ before, ∃ r, c.backend.GetTeamSources t.ID = .ok r ∧ none ∉ r.Data) ∧
        c.backend.GetTeamSources team.ID = .error e := by
  constructor
  · intro herr
    induction l generalizing m tr with
    | nil =>
      obtain ⟨err, h⟩ := herr
      simp [getSourcesLoop] at h
    | cons x rest ih =>
      cases x with
      | none =>
        obtain ⟨err, h⟩ := herr
        simp [getSourcesLoop] at h
      | some team =>
        cases hf : c.backend.GetTeamSources team.ID with
        | error e => exact ⟨[], team, rest, e, rfl, by simp, hf⟩
        | ok r =>
          by_cases hnil : none ∈ r.Data
          · obtain ⟨err, h⟩ := herr
            simp [getSourcesLoop, Client.GetTeamSources, hf, addSources_nil team r.Data m hnil]
              at h
          · have hdata := eq_map_some r.Data hnil
            simp only [getSourcesLoop, Client.GetTeamSources, hf] at herr
            rw [hdata, addSources_some] at herr
            obtain ⟨before, t, after, e, hl, hb, he⟩ := ih _ _ herr
            refine ⟨team :: before, t, after, e, by simp [hl], ?_, he⟩
            intro x hx
            rcases List.mem_cons.mp hx with rfl | hx
            · exact ⟨r, hf, hnil⟩
            · exact hb x hx
  · rintro ⟨before, team, after, e, rfl, hb, he⟩
    rw [getSourcesLoop_error c before team after e m tr hb he]
    exact ⟨_, rfl⟩

/-- Successful answers without nil entries are lists of sources, one list per team ID. -/
theorem lists_of_answers (c : Client) (teams : List UserTeamDetails)
    (h : ∀ team ∈ teams, ∃ r, c.backend.GetTeamSources team.ID = .ok r ∧ none ∉ r.Data) :
    ∃ srcs : Int → List SourceResponse,
      ∀ team ∈ teams, ∃ r, c.backend.GetTeamSources team.ID = .ok r ∧
        r.Data = (srcs team.ID).map some := by
  refine ⟨fun id => match c.backend.GetTeamSources id with
    | .ok r => r.Data.reduceOption
    | .error _ => [], ?_⟩
  intro team ht
  obtain ⟨r, hr, hnil⟩ := h team ht
  refine ⟨r, hr, ?_⟩
  simp only [hr]
  exact eq_map_some _ hnil

/-- The loop ends without error and without panic only when no membership entry is nil and
the fetch of every team succeeds with a list without nil entries. -/
theorem getSourcesLoop_ok_only_if (c : Client) (l : List (Option UserTeamDetails))
    (m m1 : SourceMap) (tr : Trace) (h : (getSourcesLoop c l m tr).1 = .ok (.ok m1)) :
    none ∉ l ∧ ∀ team ∈ l.reduceOption, ∃ r, c.backend.GetTeamSources team.ID = .ok r ∧
      none ∉ r.Data := by
  induction l generalizing m tr with
  | nil => simp
  | cons x rest ih =>
    cases x with
    | none => simp [getSourcesLoop] at h
    | some team =>
      cases hf : c.backend.GetTeamSources team.ID with
      | error e => simp [getSourcesLoop, Client.GetTeamSources, hf] at h
      | ok r =>
        by_cases hnil : none ∈ r.Data
        · simp [getSourcesLoop, Client.GetTeamSources, hf, addSources_nil team r.Data m hnil]
            at h
        · have hdata := eq_map_some r.Data hnil
          simp only [getSourcesLoop, Client.GetTeamSources, hf] at h
          rw [hdata, addSources_some] at h
          obtain ⟨h1, h2⟩ := ih _ _ h
          refine ⟨by simpa using h1, ?_⟩
          intro t ht
          rw [List.reduceOption_cons_of_some] at ht
          rcases List.mem_cons.mp ht with rfl | ht
          · exact ⟨r, hf, hnil⟩
          · exact h2 t ht

/-- A successful aggregation is one with a bound client, a successful membership fetch
without a nil entry, and for every team a successful fetch without a nil entry: the
conditions under which the statements about a successful aggregation are proved. -/
theorem getSources_ok_only_if (order : MapOrder) (ctx : Context) (args : GetSourcesParams)
    (tr : Trace) (resp : SourcesAggregateResponse)
    (h : (getSources order ctx args tr).1 = .ok (.ok resp)) :
    ∃ (c : Client) (teamsResp : TeamsResponse) (teams : List UserTeamDetails)
        (srcs : Int → List SourceResponse),
      LogchefClientFromContext ctx = some c ∧
      c.backend.GetTeams = .ok teamsResp ∧
      teamsResp.Data = teams.map some ∧
      ∀ team ∈ teams, ∃ r, c.backend.GetTeamSources team.ID = .ok r ∧
        r.Data = (srcs team.ID).map some := by
  unfold getSources at h
  cases hc : LogchefClientFromContext ctx with
  | none => simp [hc] at h
  | some c =>
    cases hteams : c.backend.GetTeams with
    | error e => simp [hc, Client.GetTeams, hteams] at h
    | ok teamsResp =>
      simp only [hc, Client.GetTeams, hteams] at h
      cases hl : getSourcesLoop c teamsResp.Data [] (tr ++ [Request.GetTeams]) with
      | mk res tr2 =>
        rw [hl] at h
        cases res with
        | error p => simp at h
        | ok inner =>
          cases inner with
          | error err => simp at h
          | ok m1 =>
            have hloop : (getSourcesLoop c teamsResp.Data [] (tr ++ [Request.GetTeams])).1 =
                .ok (.ok m1) := by rw [hl]
            obtain ⟨h1, h2⟩ := getSourcesLoop_ok_only_if c _ _ _ _ hloop
            obtain ⟨srcs, hsrc⟩ := lists_of_answers c teamsResp.Data.reduceOption h2
            exact ⟨c, teamsResp, teamsResp.Data.reduceOption, srcs, rfl, hteams,
              eq_map_some _ h1, hsrc⟩

/-- C5, as stated, fails: on a context with no bound client `getSources` returns an error
although no fetch has failed, none having been issued. -/
theorem getSources_error_without_fetch :
    getSources MapOrder.insertion Context.background {} [] =
      (.ok (.error "Logchef client not found in context"), []) :=
  rfl

/-- C5, amended: with a bound client, `getSources` returns an error, and so no response,
exactly when the membership fetch fails or it reaches a team whose source fetch fails:
every membership entry before that team is not nil and its fetch succeeded with a list
without nil entries.  When no list holds a nil entry this is: exactly when the membership
fetch fails or the source fetch of some team of the membership list fails.  A failed
membership fetch is the only request issued.  When the membership fetch succeeds and the
team at index `i`, after `i` entries scanned without a nil entry, is the first whose fetch
fails, the error is "get sources for team <ID of team i>: <cause>" and the requests issued
are the membership fetch and then the `i + 1` fetches for the teams at indices `0..i`, in
membership order, none for a later team.  When every fetch succeeds and no entry is nil,
the requests issued are the membership fetch and then one fetch per membership entry, in
membership order, and a response is returned; a response is returned in no other case.
On a nil membership entry `getSources` panics before the fetch for it, and on a nil source
entry after the fetch that returned it: it returns neither an error nor a response. -/
theorem getSources_error_iff (order : MapOrder) (ctx : Context) (args : GetSourcesParams)
    (tr : Trace) (c : Client) (hc : LogchefClientFromContext ctx = some c) :
    ((∃ err, (getSources order ctx args tr).1 = .ok (.error err)) ↔
      ((∃ e, c.backend.GetTeams = .error e) ∨
        ∃ (teamsResp : TeamsResponse) (before : List UserTeamDetails)
            (team : UserTeamDetails) (after : List (Option UserTeamDetails)) (e : Error),
          c.backend.GetTeams = .ok teamsResp ∧
          teamsResp.Data = before.map some ++ some team :: after ∧
          (∀ t ∈ before, ∃ r, c.backend.GetTeamSources t.ID = .ok r ∧ none ∉ r.Data) ∧
          c.backend.GetTeamSources team.ID = .error e)) ∧
    (∀ (teamsResp : TeamsResponse) (teams : List UserTeamDetails),
      c.backend.GetTeams = .ok teamsResp → teamsResp.Data = teams.map some →
      (∀ team ∈ teams, ∀ r, c.backend.GetTeamSources team.ID = .ok r → none ∉ r.Data) →
      ((∃ err, (getSources order ctx args tr).1 = .ok (.error err)) ↔
        ∃ team ∈ teams, ∃ e, c.backend.GetTeamSources team.ID = .error e)) ∧
    (∀ e, c.backend.GetTeams = .error e →
      getSources order ctx args tr =
        (.ok (.error ("get user teams: " ++ e)), tr ++ [Request.GetTeams])) ∧
    (∀ (teamsResp : TeamsResponse) (before : List UserTeamDetails) (team : UserTeamDetails)
        (after : List (Option UserTeamDetails)) (e : Error),
      c.backend.GetTeams = .ok teamsResp →
      teamsResp.Data = before.map some ++ some team :: after →
      (∀ t ∈ before, ∃ r, c.backend.GetTeamSources t.ID = .ok r ∧ none ∉ r.Data) →
      c.backend.GetTeamSources team.ID = .error e →
      getSources order ctx args tr =
        (.ok (.error ("get sources for team " ++ toString team.ID ++ ": " ++ e)),
          tr ++ Request.GetTeams :: (before ++ [team]).map fetchOf) ∧
      ((before ++ [team]).map fetchOf).length = before.length + 1) ∧
    (∀ (teamsResp : TeamsResponse) (teams : List UserTeamDetails),
      c.backend.GetTeams = .ok teamsResp → teamsResp.Data = teams.map some →
      (∀ team ∈ teams, ∃ r, c.backend.GetTeamSources team.ID = .ok r ∧ none ∉ r.Data) →
      ∃ resp, getSources order ctx args tr =
        (.ok (.ok resp), tr ++ Request.GetTeams :: teams.map fetchOf)) ∧
    (∀ resp, (getSources order ctx args tr).1 = .ok (.ok resp) →
      ∃ teamsResp, c.backend.GetTeams = .ok teamsResp ∧ none ∉ teamsResp.Data ∧
        ∀ team ∈ teamsResp.Data.reduceOption,
          ∃ r, c.backend.GetTeamSources team.ID = .ok r ∧ none ∉ r.Data) ∧
    (∀ (teamsResp : TeamsResponse) (before : List UserTeamDetails)
        (after : List (Option UserTeamDetails)),
      c.backend.GetTeams = .ok teamsResp →
      teamsResp.Data = before.map some ++ none :: after →
      (∀ t ∈ before, ∃ r, c.backend.GetTeamSources t.ID = .ok r ∧ none ∉ r.Data) →
      getSources order ctx args tr =
        (.error nilDereference, tr ++ Request.GetTeams :: before.map fetchOf)) ∧
    (∀ (teamsResp : TeamsResponse) (before : List UserTeamDetails) (team : UserTeamDetails)
        (after : List (Option UserTeamDetails)) (r : TeamSourcesResponse),
      c.backend.GetTeams = .ok teamsResp →
      teamsResp.Data = before.map some ++ some team :: after →
      (∀ t ∈ before, ∃ r, c.backend.GetTeamSources t.ID = .ok r ∧ none ∉ r.Data) →
      c.backend.GetTeamSources team.ID = .ok r → none ∈ r.Data →
      getSources order ctx args tr =
        (.error nilDereference,
          tr ++ Request.GetTeams :: (before ++ [team]).map fetchOf)) := by
  have hres : ∀ teamsResp, c.backend.GetTeams = .ok teamsResp →
      ((∃ err, (getSources order ctx args tr).1 = .ok (.error err)) ↔
        ∃ err, (getSourcesLoop c teamsResp.Data [] (tr ++ [Request.GetTeams])).1 =
          .ok (.error err)) := by
    intro teamsResp hteams
    simp only [getSources, hc, Client.GetTeams, hteams]
    cases hl : getSourcesLoop c teamsResp.Data [] (tr ++ [Request.GetTeams]) with
    | mk res tr2 =>
      cases res with
      | error p => simp
      | ok inner => cases inner <;> simp
  refine ⟨?_, ?_, ?_, ?_, ?_, ?_, ?_, ?_⟩
  · cases hteams : c.backend.GetTeams with
    | error e =>
      simp only [getSources, hc, Client.GetTeams, hteams]
      exact ⟨fun _ => Or.inl ⟨e, rfl⟩, fun _ => ⟨_, rfl⟩⟩
    | ok teamsResp =>
      rw [hres teamsResp hteams, getSourcesLoop_error_reached]
      constructor
      · rintro ⟨before, team, after, e, hl, hb, he⟩
        exact Or.inr ⟨teamsResp, before, team, after, e, rfl, hl, hb, he⟩
      · rintro (⟨e, he⟩ | ⟨resp2, before, team, after, e, hresp2, hl, hb, he⟩)
        · exact absurd he (by simp)
        · simp only [Except.ok.injEq] at hresp2
          subst hresp2
          exact ⟨before, team, after, e, hl, hb, he⟩
  · intro teamsResp teams hteams hdata hnil
    rw [hres teamsResp hteams, hdata]
    exact getSourcesLoop_error_iff c teams [] _ hnil
  · intro e hteams
    simp only [getSources, hc, Client.GetTeams, hteams]
  · intro teamsResp before team after e hteams hdata hb hfail
    refine ⟨?_, by simp⟩
    simp only [getSources, hc, Client.GetTeams, hteams, hdata,
      getSourcesLoop_error c before team after e [] _ hb hfail, List.append_assoc,
      List.singleton_append]
  · intro teamsResp teams hteams hdata hall
    obtain ⟨srcs, hsrc⟩ := lists_of_answers c teams hall
    exact ⟨_, getSources_ok order ctx args tr c teamsResp teams srcs hc hteams hdata hsrc⟩
  · intro resp hresp
    obtain ⟨c2, teamsResp, teams, srcs, hc2, hteams, hdata, hsrc⟩ :=
      getSources_ok_only_if order ctx args tr resp hresp
    rw [hc] at hc2
    simp only [Option.some.injEq] at hc2
    subst hc2
    refine ⟨teamsResp, hteams, by rw [hdata]; exact none_not_mem_map_some teams, ?_⟩
    intro team ht
    rw [hdata, reduceOption_of_map_some] at ht
    obtain ⟨r, hr, hrd⟩ := hsrc team ht
    exact ⟨r, hr, by rw [hrd]; exact none_not_mem_map_some _⟩
  · intro teamsResp before after hteams hdata hb
    simp only [getSources, hc, Client.GetTeams, hteams, hdata,
      getSourcesLoop_nil_team c before after [] _ hb, List.append_assoc, List.singleton_append]
  · intro teamsResp before team after r hteams hdata hb hfetch hnil
    simp only [getSources, hc, Client.GetTeams, hteams, hdata,
      getSourcesLoop_nil_source c before team after r [] _ hb hfetch hnil, List.append_assoc,
      List.singleton_append]

/-- Memberships [T1, T2, T1] with a failing fetch for T2, index 1: the error names team 2
and the requests are the membership fetch, the fetch for T1 and the fetch for T2. -/
theorem getSources_error_iff_witness :
    getSources MapOrder.insertion (Example.ctxOf Example.failingTeamBackend) {} [] =
      (.ok (.error "get sources for team 2: API request failed with status 500: boom"),
        [Request.GetTeams, Request.GetTeamSources 1, Request.GetTeamSources 2]) :=
  ((getSources_error_iff MapOrder.insertion (Example.ctxOf Example.failingTeamBackend) {} []
      _ rfl).2.2.2.1 ⟨"success", [some Example.T1, some Example.T2, some Example.T1]⟩
    [Example.T1] Example.T2 [some Example.T1]
    "API request failed with status 500: boom" rfl rfl
    (fun t ht => by
      have ht1 : t = Example.T1 := by simpa using ht
      subst ht1
      exact ⟨_, rfl, by decide⟩)
    rfl).1

/-- C6: with a bound client whose membership fetch returns an empty team list,
`getSources` returns no error and a response with an empty source list, and the
membership fetch is the only request issued. -/
theorem getSources_no_teams (order : MapOrder) (ctx : Context) (args : GetSourcesParams)
    (tr : Trace) (c : Client) (teamsResp : TeamsResponse)
    (hc : LogchefClientFromContext ctx = some c)
    (hteams : c.backend.GetTeams = .ok teamsResp) (hempty : teamsResp.Data = []) :
    getSources order ctx args tr =
      (.ok (.ok { Sources := [] }), tr ++ [Request.GetTeams]) := by
  have hrange : order.range [] = [] := List.Perm.eq_nil (order.perm [])
  simp only [getSources, hc, Client.GetTeams, hteams, hempty, getSourcesLoop, hrange,
    List.map_nil]

/-- A caller in no team: an empty aggregate, one request. -/
theorem getSources_no_teams_witness :
    getSources MapOrder.reversed (Example.ctxOf Example.noTeamBackend) {} [] =
      (.ok (.ok { Sources := [] }), [Request.GetTeams]) :=
  getSources_no_teams MapOrder.reversed (Example.ctxOf Example.noTeamBackend) {} [] _
    ⟨"success", []⟩ rfl rfl rfl

/-! ## The admin check: `checkAdminRole` -/

/-- A message starting with `f` is never the access-denied message. -/
theorem profile_error_ne_access_denied (e : Error) :
    "failed to get user profile: " ++ e ≠ "access denied: admin role required" := by
  intro h
  have h2 := congrArg (fun s : String => s.data.head?) h
  simp only [String.data_append, List.cons_append, List.head?_cons, Option.some.injEq] at h2
  exact absurd h2 (by decide)

/-- C7: `checkAdminRole` returns nil exactly when the profile fetch succeeds with the user
role "admin"; a failed fetch gives "failed to get user profile: <cause>", a successful
fetch with any other role, "member", "Admin" and the empty role among them, gives exactly
"access denied: admin role required"; the two messages differ; the check issues the
profile fetch and nothing else. -/
theorem checkAdminRole_nil_iff (c : Client) (tr : Trace) :
    ((checkAdminRole c tr).1 = none ↔
      ∃ profile, c.backend.GetProfile = .ok profile ∧ profile.Data.User.Role = "admin") ∧
    (∀ e, c.backend.GetProfile = .error e →
      (checkAdminRole c tr).1 = some ("failed to get user profile: " ++ e)) ∧
    (∀ profile, c.backend.GetProfile = .ok profile → profile.Data.User.Role ≠ "admin" →
      (checkAdminRole c tr).1 = some "access denied: admin role required") ∧
    (∀ profile, c.backend.GetProfile = .ok profile →
      profile.Data.User.Role = "member" ∨ profile.Data.User.Role = "Admin" ∨
        profile.Data.User.Role = "" →
      (checkAdminRole c tr).1 = some "access denied: admin role required") ∧
    (∀ e : Error,
      "failed to get user profile: " ++ e ≠ "access denied: admin role required") ∧
    (checkAdminRole c tr).2 = tr ++ [Request.GetProfile] := by
  have hdenied : ∀ profile, c.backend.GetProfile = .ok profile →
      profile.Data.User.Role ≠ "admin" →
      (checkAdminRole c tr).1 = some "access denied: admin role required" := by
    intro profile hp hrole
    simp only [checkAdminRole, Client.GetProfile, hp, hrole, ne_eq, not_false_eq_true, if_true]
  refine ⟨?_, ?_, hdenied, ?_, profile_error_ne_access_denied, ?_⟩
  · cases hp : c.backend.GetProfile with
    | error e =>
      simp only [checkAdminRole, Client.GetProfile, hp]
      constructor
      · intro h; exact absurd h (by simp)
      · rintro ⟨p, hp2, _⟩; exact absurd hp2 (by simp)
    | ok profile =>
      by_cases hrole : profile.Data.User.Role = "admin"
      · simp only [checkAdminRole, Client.GetProfile, hp, hrole, ne_eq, not_true_eq_false,
          if_false, true_iff]
        exact ⟨profile, rfl, hrole⟩
      · simp only [checkAdminRole, Client.GetProfile, hp, hrole, ne_eq, not_false_eq_true,
          if_true]
        constructor
        · intro h; exact absurd h (by simp)
        · rintro ⟨p, hp2, hr⟩
          simp only [Except.ok.injEq] at hp2
          subst hp2
          exact absurd hr hrole
  · intro e hp
    simp only [checkAdminRole, Client.GetProfile, hp]
  · intro profile hp hrole
    apply hdenied profile hp
    rcases hrole with h | h | h <;> rw [h] <;> decide
  · cases hp : c.backend.GetProfile with
    | error e => simp only [checkAdminRole, Client.GetProfile, hp]
    | ok profile =>
      by_cases hrole : profile.Data.User.Role = "admin"
      · simp only [checkAdminRole, Client.GetProfile, hp, hrole, ne_eq, not_true_eq_false,
          if_false]
      · simp only [checkAdminRole, Client.GetProfile, hp, hrole, ne_eq, not_false_eq_true,
          if_true]

/-- The three outcomes of the check: an admin passes, a member is denied, and a failed
profile fetch is reported as such. -/
theorem checkAdminRole_nil_iff_witness :
    (checkAdminRole (Example.clientOf (Example.roleBackend "admin")) []).1 = none ∧
    (checkAdminRole (Example.clientOf (Example.roleBackend "member")) []).1 =
      some "access denied: admin role required" ∧
    (checkAdminRole (Example.clientOf Example.unavailable) []).1 =
      some "failed to get user profile: unavailable" :=
  ⟨(checkAdminRole_nil_iff (Example.clientOf (Example.roleBackend "admin")) []).1.mpr
      ⟨Example.profile "admin", rfl, rfl⟩,
    (checkAdminRole_nil_iff (Example.clientOf (Example.roleBackend "member")) []).2.2.1
      (Example.profile "member") rfl (by decide),
    (checkAdminRole_nil_iff (Example.clientOf Example.unavailable) []).2.1 "unavailable" rfl⟩

/-! ## The tools that run the admin check -/

theorem checkAdminRole_trace (c : Client) (tr : Trace) :
    (checkAdminRole c tr).2 = tr ++ [Request.GetProfile] := by
  cases hp : c.backend.GetProfile with
  | error e => simp only [checkAdminRole, Client.GetProfile, hp]
  | ok profile =>
    by_cases hrole : profile.Data.User.Role = "admin"
    · simp only [checkAdminRole, Client.GetProfile, hp, hrole, ne_eq, not_true_eq_false,
        if_false]
    · simp only [checkAdminRole, Client.GetProfile, hp, hrole, ne_eq, not_false_eq_true,
        if_true]

theorem checkAdminRole_of_fail (c : Client) (tr : Trace) (err : Error)
    (h : (checkAdminRole c tr).1 = some err) :
    checkAdminRole c tr = (some err, tr ++ [Request.GetProfile]) :=
  Prod.ext h (checkAdminRole_trace c tr)

theorem checkAdminRole_of_admin (c : Client) (tr : Trace) (profile : ProfileResponse)
    (hp : c.backend.GetProfile = .ok profile) (hrole : profile.Data.User.Role = "admin") :
    checkAdminRole c tr = (none, tr ++ [Request.GetProfile]) := by
  simp only [checkAdminRole, Client.GetProfile, hp, hrole, ne_eq, not_true_eq_false, if_false]

/-- C8: with a bound client on which `checkAdminRole` fails with `err`, each of the
thirteen admin-checked tool functions returns `err` and no result, for every argument
value, and the profile fetch is the only client operation performed: the privileged
operation is not invoked. -/
theorem admin_tools_reject (ctx : Context) (c : Client) (tr : Trace) (err : Error)
    (hc : LogchefClientFromContext ctx = some c)
    (hfail : (checkAdminRole c tr).1 = some err) :
    (∀ args, listAllTeams ctx args tr = (.error err, tr ++ [Request.GetProfile])) ∧
    (∀ args, createTeam ctx args tr = (.error err, tr ++ [Request.GetProfile])) ∧
    (∀ args, deleteTeam ctx args tr = (.error err, tr ++ [Request.GetProfile])) ∧
    (∀ args, listAllUsers ctx args tr = (.error err, tr ++ [Request.GetProfile])) ∧
    (∀ args, getUser ctx args tr = (.error err, tr ++ [Request.GetProfile])) ∧
    (∀ args, createUser ctx args tr = (.error err, tr ++ [Request.GetProfile])) ∧
    (∀ args, updateUser ctx args tr = (.error err, tr ++ [Request.GetProfile])) ∧
    (∀ args, deleteUser ctx args tr = (.error err, tr ++ [Request.GetProfile])) ∧
    (∀ args, listAllSources ctx args tr = (.error err, tr ++ [Request.GetProfile])) ∧
    (∀ args, createSource ctx args tr = (.error err, tr ++ [Request.GetProfile])) ∧
    (∀ args, validateSourceConnection ctx args tr =
      (.error err, tr ++ [Request.GetProfile])) ∧
    (∀ args, deleteSource ctx args tr = (.error err, tr ++ [Request.GetProfile])) ∧
    (∀ args, getAdminSourceStats ctx args tr = (.error err, tr ++ [Request.GetProfile])) := by
  have hck := checkAdminRole_of_fail c tr err hfail
  refine ⟨?_, ?_, ?_, ?_, ?_, ?_, ?_, ?_, ?_, ?_, ?_, ?_, ?_⟩ <;> intro args
  · simp only [listAllTeams, hc, hck]
  · simp only [createTeam, hc, hck]
  · simp only [deleteTeam, hc, hck]
  · simp only [listAllUsers, hc, hck]
  · simp only [getUser, hc, hck]
  · simp only [createUser, hc, hck]
  · simp only [updateUser, hc, hck]
  · simp only [deleteUser, hc, hck]
  · simp only [listAllSources, hc, hck]
  · simp only [createSource, hc, hck]
  · simp only [validateSourceConnection, hc, hck]
  · simp only [deleteSource, hc, hck]
  · simp only [getAdminSourceStats, hc, hck]

/-- The tool `deleteUser` called by a caller of role "member", on a backend where the
deletion would succeed: access denied, and no `DeleteUser` operation in the trace. -/
theorem admin_tools_reject_witness :
    deleteUser (Example.ctxOf (Example.roleBackend "member")) ⟨7⟩ [] =
        (.error "access denied: admin role required", [Request.GetProfile]) ∧
      ([] ++ [Request.GetProfile]).count (Request.DeleteUser 7) = 0 :=
  ⟨(admin_tools_reject (Example.ctxOf (Example.roleBackend "member")) _ []
      "access denied: admin role required" rfl rfl).2.2.2.2.2.2.2.1 ⟨7⟩, by decide⟩

/-- Every invocation that appends one profile fetch and one other operation raises the
number of profile fetches in the trace by one. -/
theorem invocations_count {α : Type} (call : Trace → α × Trace) (op : Trace → Request)
    (hop : ∀ tr, op tr ≠ Request.GetProfile)
    (h : ∀ tr, (call tr).2 = tr ++ [Request.GetProfile, op tr]) (n : Nat) (tr : Trace) :
    (invocations call n tr).count Request.GetProfile = tr.count Request.GetProfile + n := by
  induction n generalizing tr with
  | zero => rfl
  | succ n ih =>
    have hne : (op tr == Request.GetProfile) = false := by simpa using hop tr
    rw [invocations, ih, h, List.count_append]
    simp only [List.count_cons, List.count_nil, hne, beq_self_eq_true, if_true]
    simp only [Bool.false_eq_true, if_false]
    omega

/-- C9: with a bound client whose profile fetch returns the role "admin", one invocation
of each of the thirteen admin-checked tool functions performs exactly the profile fetch
and then the one privileged client operation, built from the caller's arguments, and
returns the result of that operation, or its error behind the name of the operation;
`n` invocations in a row perform `n` profile fetches. -/
theorem admin_tools_proceed (ctx : Context) (c : Client) (profile : ProfileResponse)
    (hc : LogchefClientFromContext ctx = some c)
    (hp : c.backend.GetProfile = .ok profile)
    (hrole : profile.Data.User.Role = "admin") :
    (∀ args tr, listAllTeams ctx args tr =
      ((c.backend.ListAllTeams).mapError (fun e => "list all teams: " ++ e),
       tr ++ [Request.GetProfile, Request.ListAllTeams])) ∧
    (∀ args tr, createTeam ctx args tr =
      ((c.backend.CreateTeam (teamRequestOf args)).mapError (fun e => "create team: " ++ e),
       tr ++ [Request.GetProfile, Request.CreateTeam (teamRequestOf args)])) ∧
    (∀ args tr, deleteTeam ctx args tr =
      ((match c.backend.DeleteTeam args.TeamID with
        | none => .ok { Success := true, Message := "Team deleted successfully" }
        | some e => .error ("delete team: " ++ e)),
       tr ++ [Request.GetProfile, Request.DeleteTeam args.TeamID])) ∧
    (∀ args tr, listAllUsers ctx args tr =
      ((c.backend.ListAllUsers).mapError (fun e => "list all users: " ++ e),
       tr ++ [Request.GetProfile, Request.ListAllUsers])) ∧
    (∀ args tr, getUser ctx args tr =
      ((c.backend.GetUserByID args.UserID).mapError (fun e => "get user: " ++ e),
       tr ++ [Request.GetProfile, Request.GetUserByID args.UserID])) ∧
    (∀ args tr, createUser ctx args tr =
      ((c.backend.CreateUser (userRequestOf args)).mapError (fun e => "create user: " ++ e),
       tr ++ [Request.GetProfile, Request.CreateUser (userRequestOf args)])) ∧
    (∀ args tr, updateUser ctx args tr =
      ((c.backend.UpdateUser args.UserID (userUpdateRequestOf args)).mapError
          (fun e => "update user: " ++ e),
       tr ++ [Request.GetProfile, Request.UpdateUser args.UserID (userUpdateRequestOf args)])) ∧
    (∀ args tr, deleteUser ctx args tr =
      ((match c.backend.DeleteUser args.UserID with
        | none => .ok { Success := true, Message := "User deleted successfully" }
        | some e => .error ("delete user: " ++ e)),
       tr ++ [Request.GetProfile, Request.DeleteUser args.UserID])) ∧
    (∀ args tr, listAllSources ctx args tr =
      ((c.backend.ListAllSources).mapError (fun e => "list all sources: " ++ e),
       tr ++ [Request.GetProfile, Request.ListAllSources])) ∧
    (∀ args tr, createSource ctx args tr =
      ((c.backend.CreateSource (sourceRequestOf args)).mapError (fun e => "create source: " ++ e),
       tr ++ [Request.GetProfile, Request.CreateSource (sourceRequestOf args)])) ∧
    (∀ args tr, validateSourceConnection ctx args tr =
      ((c.backend.ValidateSourceConnection (validationRequestOf args)).mapError
          (fun e => "validate source connection: " ++ e),
       tr ++ [Request.GetProfile, Request.ValidateSourceConnection (validationRequestOf args)])) ∧
    (∀ args tr, deleteSource ctx args tr =
      ((match c.backend.DeleteSource args.SourceID with
        | none => .ok { Success := true, Message := "Source deleted successfully" }
        | some e => .error ("delete source: " ++ e)),
       tr ++ [Request.GetProfile, Request.DeleteSource args.SourceID])) ∧
    (∀ args tr, getAdminSourceStats ctx args tr =
      ((c.backend.GetAdminSourceStats args.SourceID).mapError
          (fun e => "get admin source stats: " ++ e),
       tr ++ [Request.GetProfile, Request.GetAdminSourceStats args.SourceID])) ∧
    (∀ n tr,
      (∀ args, (invocations (listAllTeams ctx args) n tr).count Request.GetProfile =
        tr.count Request.GetProfile + n) ∧
      (∀ args, (invocations (createTeam ctx args) n tr).count Request.GetProfile =
        tr.count Request.GetProfile + n) ∧
      (∀ args, (invocations (deleteTeam ctx args) n tr).count Request.GetProfile =
        tr.count Request.GetProfile + n) ∧
      (∀ args, (invocations (listAllUsers ctx args) n tr).count Request.GetProfile =
        tr.count Request.GetProfile + n) ∧
      (∀ args, (invocations (getUser ctx args) n tr).count Request.GetProfile =
        tr.count Request.GetProfile + n) ∧
      (∀ args, (invocations (createUser ctx args) n tr).count Request.GetProfile =
        tr.count Request.GetProfile + n) ∧
      (∀ args, (invocations (updateUser ctx args) n tr).count Request.GetProfile =
        tr.count Request.GetProfile + n) ∧
      (∀ args, (invocations (deleteUser ctx args) n tr).count Request.GetProfile =
        tr.count Request.GetProfile + n) ∧
      (∀ args, (invocations (listAllSources ctx args) n tr).count Request.GetProfile =
        tr.count Request.GetProfile + n) ∧
      (∀ args, (invocations (createSource ctx args) n tr).count Request.GetProfile =
        tr.count Request.GetProfile + n) ∧
      (∀ args, (invocations (validateSourceConnection ctx args) n tr).count Request.GetProfile =
        tr.count Request.GetProfile + n) ∧
      (∀ args, (invocations (deleteSource ctx args) n tr).count Request.GetProfile =
        tr.count Request.GetProfile + n) ∧
      (∀ args, (invocations (getAdminSourceStats ctx args) n tr).count Request.GetProfile =
        tr.count Request.GetProfile + n)) := by
  have hck := fun tr => checkAdminRole_of_admin c tr profile hp hrole
  refine ⟨?_, ?_, ?_, ?_, ?_, ?_, ?_, ?_, ?_, ?_, ?_, ?_, ?_, ?_⟩
  · intro args tr
    cases h : c.backend.ListAllTeams <;>
      simp [listAllTeams, hc, hck, Client.ListAllTeams, h, Except.mapError]
  · intro args tr
    cases h : c.backend.CreateTeam (teamRequestOf args) <;>
      simp only [teamRequestOf] at h ⊢ <;>
      simp [createTeam, hc, hck, Client.CreateTeam, h, Except.mapError]
  · intro args tr
    cases h : c.backend.DeleteTeam args.TeamID <;>
      simp [deleteTeam, hc, hck, Client.DeleteTeam, h, Except.mapError]
  · intro args tr
    cases h : c.backend.ListAllUsers <;>
      simp [listAllUsers, hc, hck, Client.ListAllUsers, h, Except.mapError]
  · intro args tr
    cases h : c.backend.GetUserByID args.UserID <;>
      simp [getUser, hc, hck, Client.GetUserByID, h, Except.mapError]
  · intro args tr
    cases h : c.backend.CreateUser (userRequestOf args) <;>
      simp only [userRequestOf] at h ⊢ <;>
      simp [createUser, hc, hck, Client.CreateUser, h, Except.mapError]
  · intro args tr
    cases h : c.backend.UpdateUser args.UserID (userUpdateRequestOf args) <;>
      simp only [userUpdateRequestOf] at h ⊢ <;>
      simp [updateUser, hc, hck, Client.UpdateUser, h, Except.mapError]
  · intro args tr
    cases h : c.backend.DeleteUser args.UserID <;>
      simp [deleteUser, hc, hck, Client.DeleteUser, h, Except.mapError]
  · intro args tr
    cases h : c.backend.ListAllSources <;>
      simp [listAllSources, hc, hck, Client.ListAllSources, h, Except.mapError]
  · intro args tr
    cases h : c.backend.CreateSource (sourceRequestOf args) <;>
      simp only [sourceRequestOf] at h ⊢ <;>
      simp [createSource, hc, hck, Client.CreateSource, h, Except.mapError]
  · intro args tr
    cases h : c.backend.ValidateSourceConnection (validationRequestOf args) <;>
      simp only [validationRequestOf] at h ⊢ <;>
      simp [validateSourceConnection, hc, hck, Client.ValidateSourceConnection, h,
        Except.mapError]
  · intro args tr
    cases h : c.backend.DeleteSource args.SourceID <;>
      simp [deleteSource, hc, hck, Client.DeleteSource, h, Except.mapError]
  · intro args tr
    cases h : c.backend.GetAdminSourceStats args.SourceID <;>
      simp [getAdminSourceStats, hc, hck, Client.GetAdminSourceStats, h, Except.mapError]
  · intro n tr
    refine ⟨?_, ?_, ?_, ?_, ?_, ?_, ?_, ?_, ?_, ?_, ?_, ?_, ?_⟩
    · intro args
      refine invocations_count _ (fun _ => Request.ListAllTeams)
        (fun _ => by simp) (fun tr0 => ?_) n tr
      cases h : c.backend.ListAllTeams <;>
        simp [listAllTeams, hc, hck, Client.ListAllTeams, h]
    · intro args
      refine invocations_count _ (fun _ => Request.CreateTeam (teamRequestOf args))
        (fun _ => by simp) (fun tr0 => ?_) n tr
      cases h : c.backend.CreateTeam (teamRequestOf args) <;>
        simp only [teamRequestOf] at h ⊢ <;>
        simp [createTeam, hc, hck, Client.CreateTeam, h]
    · intro args
      refine invocations_count _ (fun _ => Request.DeleteTeam args.TeamID)
        (fun _ => by simp) (fun tr0 => ?_) n tr
      cases h : c.backend.DeleteTeam args.TeamID <;>
        simp [deleteTeam, hc, hck, Client.DeleteTeam, h]
    · intro args
      refine invocations_count _ (fun _ => Request.ListAllUsers)
        (fun _ => by simp) (fun tr0 => ?_) n tr
      cases h : c.backend.ListAllUsers <;>
        simp [listAllUsers, hc, hck, Client.ListAllUsers, h]
    · intro args
      refine invocations_count _ (fun _ => Request.GetUserByID args.UserID)
        (fun _ => by simp) (fun tr0 => ?_) n tr
      cases h : c.backend.GetUserByID args.UserID <;>
        simp [getUser, hc, hck, Client.GetUserByID, h]
    · intro args
      refine invocations_count _ (fun _ => Request.CreateUser (userRequestOf args))
        (fun _ => by simp) (fun tr0 => ?_) n tr
      cases h : c.backend.CreateUser (userRequestOf args) <;>
        simp only [userRequestOf] at h ⊢ <;>
        simp [createUser, hc, hck, Client.CreateUser, h]
    · intro args
      refine invocations_count _
        (fun _ => Request.UpdateUser args.UserID (userUpdateRequestOf args))
        (fun _ => by simp) (fun tr0 => ?_) n tr
      cases h : c.backend.UpdateUser args.UserID (userUpdateRequestOf args) <;>
        simp only [userUpdateRequestOf] at h ⊢ <;>
        simp [updateUser, hc, hck, Client.UpdateUser, h]
    · intro args
      refine invocations_count _ (fun _ => Request.DeleteUser args.UserID)
        (fun _ => by simp) (fun tr0 => ?_) n tr
      cases h : c.backend.DeleteUser args.UserID <;>
        simp [deleteUser, hc, hck, Client.DeleteUser, h]
    · intro args
      refine invocations_count _ (fun _ => Request.ListAllSources)
        (fun _ => by simp) (fun tr0 => ?_) n tr
      cases h : c.backend.ListAllSources <;>
        simp [listAllSources, hc, hck, Client.ListAllSources, h]
    · intro args
      refine invocations_count _ (fun _ => Request.CreateSource (sourceRequestOf args))
        (fun _ => by simp) (fun tr0 => ?_) n tr
      cases h : c.backend.CreateSource (sourceRequestOf args) <;>
        simp only [sourceRequestOf] at h ⊢ <;>
        simp [createSource, hc, hck, Client.CreateSource, h]
    · intro args
      refine invocations_count _
        (fun _ => Request.ValidateSourceConnection (validationRequestOf args))
        (fun _ => by simp) (fun tr0 => ?_) n tr
      cases h : c.backend.ValidateSourceConnection (validationRequestOf args) <;>
        simp only [validationRequestOf] at h ⊢ <;>
        simp [validateSourceConnection, hc, hck, Client.ValidateSourceConnection, h]
    · intro args
      refine invocations_count _ (fun _ => Request.DeleteSource args.SourceID)
        (fun _ => by simp) (fun tr0 => ?_) n tr
      cases h : c.backend.DeleteSource args.SourceID <;>
        simp [deleteSource, hc, hck, Client.DeleteSource, h]
    · intro args
      refine invocations_count _ (fun _ => Request.GetAdminSourceStats args.SourceID)
        (fun _ => by simp) (fun tr0 => ?_) n tr
      cases h : c.backend.GetAdminSourceStats args.SourceID <;>
        simp [getAdminSourceStats, hc, hck, Client.GetAdminSourceStats, h]

/-- The tool `deleteUser` called by an admin: the profile fetch, then the deletion of the
user the caller named; three invocations fetch the profile three times. -/
theorem admin_tools_proceed_witness :
    deleteUser (Example.ctxOf (Example.roleBackend "admin")) ⟨7⟩ [] =
        (.ok { Success := true, Message := "User deleted successfully" },
          [Request.GetProfile, Request.DeleteUser 7]) ∧
      (invocations (deleteUser (Example.ctxOf (Example.roleBackend "admin")) ⟨7⟩) 3 []).count
        Request.GetProfile = 3 :=
  have h := admin_tools_proceed (Example.ctxOf (Example.roleBackend "admin")) _
    (Example.profile "admin") rfl rfl rfl
  ⟨h.2.2.2.2.2.2.2.1 ⟨7⟩ [], (h.2.2.2.2.2.2.2.2.2.2.2.2.2 3 []).2.2.2.2.2.2.2.1 ⟨7⟩⟩

/-! ## The tool category gate -/

/-- Joining the pieces of a split with the separator gives the characters back. -/
theorem splitChars_intercalate (sep : Char) (cs : List Char) :
    [sep].intercalate (splitChars sep cs) = cs := by
  induction cs with
  | nil => rfl
  | cons c rest ih =>
    by_cases h : c = sep
    · subst h
      cases hs : splitChars c rest with
      | nil => rw [hs] at ih; simp [splitChars, hs, List.intercalate, ← ih]
      | cons piece pieces =>
        rw [hs] at ih
        simp only [splitChars, if_true, hs]
        simpa [List.intercalate, List.intersperse] using ih
    · cases hs : splitChars sep rest with
      | nil => rw [hs] at ih; simp [splitChars, h, hs, List.intercalate, ← ih]
      | cons piece pieces =>
        rw [hs] at ih
        simp only [splitChars, h, if_false, hs]
        cases pieces with
        | nil => simpa [List.intercalate, List.intersperse] using ih
        | cons p2 ps => simpa [List.intercalate, List.intersperse] using ih

/-- No piece of a split holds the separator. -/
theorem splitChars_no_sep (sep : Char) (cs : List Char) :
    ∀ piece ∈ splitChars sep cs, sep ∉ piece := by
  induction cs with
  | nil => simp [splitChars]
  | cons c rest ih =>
    by_cases h : c = sep
    · subst h
      intro piece hp
      simp only [splitChars, if_true, List.mem_cons] at hp
      rcases hp with rfl | hp
      · simp
      · exact ih piece hp
    · cases hs : splitChars sep rest with
      | nil =>
        intro piece hp
        simp only [splitChars, h, if_false, hs, List.mem_singleton] at hp
        subst hp
        simpa using fun e => h e.symm
      | cons p ps =>
        rw [hs] at ih
        intro piece hp
        simp only [splitChars, h, if_false, hs, List.mem_cons] at hp
        rcases hp with rfl | hp
        · have := ih p (List.mem_cons_self _ _)
          simp only [List.mem_cons, not_or]
          exact ⟨fun e => h e.symm, this⟩
        · exact ih piece (List.mem_cons_of_mem _ hp)


/-- C10: `maybeAddTools` invokes the registration function exactly when the category is an
element of the enabled list and its disable flag is false, and then once; `addTools` does
so for profile, sources, logs and admin in that order, the enabled list being the pieces
of the flag value between commas, compared exactly: a piece with a blank or another case
is another category.  For the enabled list "profile,logs" with logs disabled and profile
not, the profile tools alone are registered, whatever the sources and admin flags are. -/
theorem addTools_registers_active (dt : disabledTools) (s : MCPServer) :
    (∀ (s0 : MCPServer) (tf : MCPServer → MCPServer) (enabledTools : List String)
        (disable : Bool) (category : String),
      maybeAddTools s0 tf enabledTools disable category =
        if category ∈ enabledTools ∧ disable = false then tf s0 else s0) ∧
    (dt.addTools s =
      let enabled := stringsSplitComma dt.enabledTools
      let s1 := if "profile" ∈ enabled ∧ dt.profile = false then AddProfileTools s else s
      let s2 := if "sources" ∈ enabled ∧ dt.sources = false then AddSourcesTools s1 else s1
      let s3 := if "logs" ∈ enabled ∧ dt.logs = false then AddLogsTools s2 else s2
      if "admin" ∈ enabled ∧ dt.admin = false then AddAdminTools s3 else s3) ∧
    ((dt.addTools s).tools =
      s.tools ++
        (if "profile" ∈ stringsSplitComma dt.enabledTools ∧ dt.profile = false then
          (AddProfileTools ⟨[]⟩).tools else []) ++
        (if "sources" ∈ stringsSplitComma dt.enabledTools ∧ dt.sources = false then
          (AddSourcesTools ⟨[]⟩).tools else []) ++
        (if "logs" ∈ stringsSplitComma dt.enabledTools ∧ dt.logs = false then
          (AddLogsTools ⟨[]⟩).tools else []) ++
        (if "admin" ∈ stringsSplitComma dt.enabledTools ∧ dt.admin = false then
          (AddAdminTools ⟨[]⟩).tools else [])) ∧
    (∀ category : String, category ∈ stringsSplitComma dt.enabledTools ↔
      category.data ∈ splitChars ',' dt.enabledTools.data) ∧
    ([','].intercalate (splitChars ',' dt.enabledTools.data) = dt.enabledTools.data ∧
      ∀ piece ∈ splitChars ',' dt.enabledTools.data, ',' ∉ piece) ∧
    (stringsSplitComma "profile, logs,Admin,sources " = ["profile", " logs", "Admin", "sources "] ∧
      (disabledTools.addTools ⟨"profile, logs,Admin,sources ", false, false, false, false⟩
        ⟨[]⟩).tools = ["get_profile", "get_teams", "get_meta"]) ∧
    (∀ (disableSources disableAdmin : Bool),
      (disabledTools.addTools ⟨"profile,logs", false, disableSources, true, disableAdmin⟩
        s).tools = s.tools ++ ["get_profile", "get_teams", "get_meta"]) := by
  have hmaybe : ∀ (s0 : MCPServer) (tf : MCPServer → MCPServer) (enabledTools : List String)
      (disable : Bool) (category : String),
      maybeAddTools s0 tf enabledTools disable category =
        if category ∈ enabledTools ∧ disable = false then tf s0 else s0 := by
    intro s0 tf enabledTools disable category
    unfold maybeAddTools
    by_cases hin : category ∈ enabledTools <;> cases disable <;> simp [hin]
  have hadd : ∀ (d : disabledTools) (s0 : MCPServer), d.addTools s0 =
      let enabled := stringsSplitComma d.enabledTools
      let s1 := if "profile" ∈ enabled ∧ d.profile = false then AddProfileTools s0 else s0
      let s2 := if "sources" ∈ enabled ∧ d.sources = false then AddSourcesTools s1 else s1
      let s3 := if "logs" ∈ enabled ∧ d.logs = false then AddLogsTools s2 else s2
      if "admin" ∈ enabled ∧ d.admin = false then AddAdminTools s3 else s3 := by
    intro d s0
    simp only [disabledTools.addTools, hmaybe]
  refine ⟨hmaybe, hadd dt s, ?_, ?_, ⟨splitChars_intercalate _ _, splitChars_no_sep _ _⟩,
    ⟨by decide, by decide⟩, ?_⟩
  · rw [hadd]
    simp only
    split_ifs <;>
      simp [AddProfileTools, AddSourcesTools, AddLogsTools, AddAdminTools, Register]
  · intro category
    simp only [stringsSplitComma, List.mem_map]
    constructor
    · rintro ⟨cs, hcs, rfl⟩
      exact hcs
    · intro h
      exact ⟨category.data, h, rfl⟩
  · intro disableSources disableAdmin
    rw [hadd]
    have hsplit : stringsSplitComma "profile,logs" = ["profile", "logs"] := by decide
    simp only [hsplit]
    have h1 : "profile" ∈ ["profile", "logs"] := by decide
    have h2 : ¬ "sources" ∈ ["profile", "logs"] := by decide
    have h3 : ¬ "admin" ∈ ["profile", "logs"] := by decide
    simp only [h1, h2, h3, true_and, false_and, if_true, if_false, Bool.true_eq_false,
      and_false]
    simp [AddProfileTools, Register]

/-! ## The flag defaults -/

/-- C11: with the flag defaults of `addFlags`, the enabled list
"profile,sources,logs,admin" and no category disabled, `addTools` invokes the four
registration functions, in the order profile, sources, logs, admin. -/
theorem addTools_default_flags (dt : disabledTools) (s : MCPServer) :
    dt.addFlags = ⟨"profile,sources,logs,admin", false, false, false, false⟩ ∧
    dt.addFlags.addTools s =
      AddAdminTools (AddLogsTools (AddSourcesTools (AddProfileTools s))) ∧
    (dt.addFlags.addTools s).tools =
      s.tools ++ (AddProfileTools ⟨[]⟩).tools ++ (AddSourcesTools ⟨[]⟩).tools ++
        (AddLogsTools ⟨[]⟩).tools ++ (AddAdminTools ⟨[]⟩).tools := by
  have hsplit : stringsSplitComma "profile,sources,logs,admin" =
      ["profile", "sources", "logs", "admin"] := by decide
  have h1 : "profile" ∈ ["profile", "sources", "logs", "admin"] := by decide
  have h2 : "sources" ∈ ["profile", "sources", "logs", "admin"] := by decide
  have h3 : "logs" ∈ ["profile", "sources", "logs", "admin"] := by decide
  have h4 : "admin" ∈ ["profile", "sources", "logs", "admin"] := by decide
  have hadd : dt.addFlags.addTools s =
      AddAdminTools (AddLogsTools (AddSourcesTools (AddProfileTools s))) := by
    simp only [disabledTools.addTools, disabledTools.addFlags, hsplit, maybeAddTools, h1, h2, h3,
      h4, not_true_eq_false, if_false, Bool.false_eq_true]
  refine ⟨rfl, hadd, ?_⟩
  rw [hadd]
  simp [AddProfileTools, AddSourcesTools, AddLogsTools, AddAdminTools, Register]

/-! ## Resolution of the URL and the API key -/

theorem defaultLogchefURL_eq : defaultLogchefURL = "http://localhost:5173" := by decide

theorem default_ne_empty : ¬ defaultLogchefURL = "" := by decide

theorem trimRightSlash_empty : trimRightSlash "" = "" := by decide

/-- The URL half of `urlAndAPIKeyFromEnv` is empty when the variable is unset or empty. -/
theorem envURL_of_unset (rt : Runtime)
    (h : rt.LookupEnv logchefURLEnvVar = none ∨ rt.LookupEnv logchefURLEnvVar = some "") :
    (urlAndAPIKeyFromEnv rt).1 = "" := by
  rcases h with h | h <;> simp [urlAndAPIKeyFromEnv, Runtime.Getenv, h, trimRightSlash_empty]

/-- The step `ExtractLogchefInfoFromEnv`, by the outcome of `url.Parse`. -/
theorem ExtractLogchefInfoFromEnv_ok (rt : Runtime) (ctx : Context) (log : Log) (u : String)
    (parsed : URL)
    (hu : u = if (urlAndAPIKeyFromEnv rt).1 = "" then defaultLogchefURL
      else (urlAndAPIKeyFromEnv rt).1)
    (hparse : rt.urlParse u = .ok parsed) :
    ExtractLogchefInfoFromEnv rt ctx log =
      (.ok (WithLogchefURL (WithLogchefAPIKey ctx (rt.Getenv logchefAPIEnvVar)) u),
        log ++ [{ Level := "INFO", Message := "Using Logchef configuration",
                  Attrs := [("url", .str parsed.Redacted),
                    ("api_key_set", .bool (rt.Getenv logchefAPIEnvVar != ""))] }]) := by
  subst hu
  simp only [ExtractLogchefInfoFromEnv, hparse]
  rfl

/-- The function `NewLogchefClient`, by the outcome of `url.Parse`. -/
theorem NewLogchefClient_ok (rt : Runtime) (ctx : Context) (logchefURL apiKey u : String)
    (log : Log) (parsed : URL)
    (hu : u = if logchefURL = "" then defaultLogchefURL else logchefURL)
    (hparse : rt.urlParse u = .ok parsed) :
    NewLogchefClient rt ctx logchefURL apiKey log =
      (.ok (New rt { BaseURL := u, APIKey := apiKey, Timeout := 0 }),
        log ++ [{ Level := "DEBUG", Message := "Creating Logchef client",
                  Attrs := [("url", .str parsed.Redacted),
                    ("api_key_set", .bool (apiKey != ""))] }]) := by
  subst hu
  simp only [NewLogchefClient, hparse]

theorem New_config (rt : Runtime) (baseURL apiKey : String) :
    (New rt { BaseURL := baseURL, APIKey := apiKey, Timeout := 0 }).config =
      { BaseURL := baseURL, APIKey := apiKey, Timeout := 30 * Second } := by
  simp [New]

/-- C12: when `LOGCHEF_URL` is unset or empty, `ExtractLogchefInfoFromEnv` attaches the URL
"http://localhost:5173" and the API key of the environment as it is, and
`ExtractLogchefClientFromEnv` binds a client whose `BaseURL` is "http://localhost:5173" and
whose `APIKey` is the API key of the environment as it is, the empty key included. -/
theorem stdio_default_url (rt : Runtime) (ctx : Context) (log : Log)
    (h : rt.LookupEnv logchefURLEnvVar = none ∨ rt.LookupEnv logchefURLEnvVar = some "") :
    (∃ log1, ExtractLogchefInfoFromEnv rt ctx log =
        (.ok (WithLogchefURL (WithLogchefAPIKey ctx (rt.Getenv logchefAPIEnvVar))
          "http://localhost:5173"), log1) ∧
      LogchefURLFromContext (WithLogchefURL (WithLogchefAPIKey ctx (rt.Getenv logchefAPIEnvVar))
          "http://localhost:5173") = "http://localhost:5173" ∧
      LogchefAPIKeyFromContext (WithLogchefURL
          (WithLogchefAPIKey ctx (rt.Getenv logchefAPIEnvVar)) "http://localhost:5173") =
        rt.Getenv logchefAPIEnvVar) ∧
    (∃ c log2, ExtractLogchefClientFromEnv rt ctx log = (.ok (WithLogchefClient ctx c), log2) ∧
      c.config.BaseURL = "http://localhost:5173" ∧
      c.config.APIKey = rt.Getenv logchefAPIEnvVar) ∧
    (rt.LookupEnv logchefAPIEnvVar = none → rt.Getenv logchefAPIEnvVar = "") ∧
    (∀ key, rt.LookupEnv logchefAPIEnvVar = some key → rt.Getenv logchefAPIEnvVar = key) := by
  obtain ⟨parsed, hparse⟩ := rt.urlParse_default
  refine ⟨?_, ?_, ?_, ?_⟩
  · refine ⟨_, ExtractLogchefInfoFromEnv_ok rt ctx log _ parsed ?_ hparse, rfl, rfl⟩
    rw [envURL_of_unset rt h, if_pos rfl, defaultLogchefURL_eq]
  · have hnew : ∀ v, v = "" ∨ v = defaultLogchefURL →
        NewLogchefClient rt ctx v (rt.Getenv logchefAPIEnvVar) log =
          (.ok (New rt { BaseURL := "http://localhost:5173",
                         APIKey := rt.Getenv logchefAPIEnvVar, Timeout := 0 }),
            log ++ [{ Level := "DEBUG", Message := "Creating Logchef client",
                      Attrs := [("url", .str parsed.Redacted),
                        ("api_key_set", .bool (rt.Getenv logchefAPIEnvVar != ""))] }]) := by
      intro v hv
      refine NewLogchefClient_ok rt ctx v _ _ log parsed ?_ hparse
      rcases hv with hv | hv
      · rw [hv, if_pos rfl, defaultLogchefURL_eq]
      · rw [hv, if_neg default_ne_empty, defaultLogchefURL_eq]
    refine ⟨New rt { BaseURL := "http://localhost:5173",
                     APIKey := rt.Getenv logchefAPIEnvVar, Timeout := 0 },
      log ++ [{ Level := "DEBUG", Message := "Creating Logchef client",
                Attrs := [("url", .str parsed.Redacted),
                  ("api_key_set", .bool (rt.Getenv logchefAPIEnvVar != ""))] }], ?_, ?_, ?_⟩
    · rcases h with h | h
      · simp only [ExtractLogchefClientFromEnv, h, hnew _ (Or.inr rfl)]
        rfl
      · simp only [ExtractLogchefClientFromEnv, h, hnew _ (Or.inl rfl)]
        rfl
    · rw [New_config]
    · rw [New_config]
  · intro hk
    simp [Runtime.Getenv, hk]
  · intro key hk
    simp [Runtime.Getenv, hk]

/-- An environment without `LOGCHEF_URL` and with an API key: the default URL, the key as
it is. -/
theorem stdio_default_url_witness :
    (ExtractLogchefInfoFromEnv (Example.runtime [("LOGCHEF_API_KEY", "k")])
        Context.background []).1 =
      .ok (WithLogchefURL (WithLogchefAPIKey Context.background "k") "http://localhost:5173") ∧
    ((ExtractLogchefClientFromEnv (Example.runtime [("LOGCHEF_URL", "")])
        Context.background []).1.map
          (fun ctx => (LogchefClientFromContext ctx).map (fun c => c.config))) =
      .ok (some { BaseURL := "http://localhost:5173", APIKey := "", Timeout := 30 * Second }) :=
  have h := stdio_default_url (Example.runtime [("LOGCHEF_API_KEY", "k")]) Context.background []
    (Or.inl rfl)
  ⟨by obtain ⟨log1, h1, _⟩ := h.1; rw [h1]; rfl, rfl⟩

theorem trimRightSlash_data (s : String) :
    (trimRightSlash s).data = List.rdropWhile (fun c => decide (c = '/')) s.data := rfl

/-- A string is what is left of it and the slashes that were cut off its end. -/
theorem trimRightSlash_append (s : String) :
    ∃ k, s.data = (trimRightSlash s).data ++ List.replicate k '/' := by
  refine ⟨(s.data.reverse.takeWhile (fun c => decide (c = '/'))).length, ?_⟩
  have hsplit := List.takeWhile_append_dropWhile (fun c => decide (c = '/')) s.data.reverse
  have hrep : (s.data.reverse.takeWhile (fun c => decide (c = '/'))).reverse =
      List.replicate (s.data.reverse.takeWhile (fun c => decide (c = '/'))).length '/' := by
    rw [List.eq_replicate_iff]
    refine ⟨by simp, fun b hb => ?_⟩
    have := List.mem_takeWhile_imp (List.mem_reverse.mp hb)
    simpa using this
  have hrev := congrArg List.reverse hsplit
  rw [List.reverse_append, List.reverse_reverse, hrep] at hrev
  exact hrev.symm

/-- What is left does not end in a slash. -/
theorem trimRightSlash_last (s : String) : (trimRightSlash s).data.getLast? ≠ some '/' := by
  intro h
  have hne : List.rdropWhile (fun c => decide (c = '/')) s.data ≠ [] := by
    intro hnil
    rw [trimRightSlash_data, hnil] at h
    exact absurd h (by simp)
  have hnot := List.rdropWhile_last_not (fun c => decide (c = '/')) s.data hne
  rw [trimRightSlash_data, List.getLast?_eq_getLast _ hne] at h
  simp only [Option.some.injEq] at h
  simp [h] at hnot

/-- A string that does not end in a slash is left as it is. -/
theorem trimRightSlash_of_last (s : String) (h : s.data.getLast? ≠ some '/') :
    trimRightSlash s = s := by
  have hself : List.rdropWhile (fun c => decide (c = '/')) s.data = s.data := by
    rw [List.rdropWhile_eq_self_iff]
    intro hl hp
    apply h
    rw [List.getLast?_eq_getLast _ hl]
    simpa using hp
  show String.mk (List.rdropWhile (fun c => decide (c = '/')) s.data) = s
  rw [hself]

/-- One trailing slash after a string that does not end in a slash: the slash goes. -/
theorem trimRightSlash_of_one_slash (w : String) (h : w.data.getLast? ≠ some '/') :
    trimRightSlash (w ++ "/") = w := by
  have hw := trimRightSlash_of_last w h
  have hdata : (w ++ "/").data = w.data ++ ['/'] := by
    rw [String.data_append]
  show String.mk (List.rdropWhile (fun c => decide (c = '/')) (w ++ "/").data) = w
  rw [hdata, List.rdropWhile_concat_pos _ _ _ (by simp)]
  exact hw

/-- C13, as stated, fails: for `LOGCHEF_URL` set to "http://logchef.example.com//" the URL
attached is "http://logchef.example.com", both slashes stripped, and not the value without
its last character. -/
theorem envURL_two_trailing_slashes :
    (urlAndAPIKeyFromEnv
        (Example.runtime [("LOGCHEF_URL", "http://logchef.example.com//")])).1 =
      "http://logchef.example.com" ∧
    ((ExtractLogchefInfoFromEnv
        (Example.runtime [("LOGCHEF_URL", "http://logchef.example.com//")])
        Context.background []).1.map LogchefURLFromContext) =
      .ok "http://logchef.example.com" ∧
    "http://logchef.example.com" ≠ "http://logchef.example.com/" :=
  ⟨by decide, rfl, by decide⟩

/-- C13, amended: for every value `v` of `LOGCHEF_URL`, `urlAndAPIKeyFromEnv` yields `v`
without its trailing slashes, all of them: `v` is that value followed by slashes only, and
that value does not end in a slash.  It is `v` itself when `v` does not end in a slash, and
`v` without its last character when `v` ends in exactly one slash.
`ExtractLogchefInfoFromEnv` attaches that value, or the default URL when nothing is left
of `v`, whenever `url.Parse` accepts it, and panics otherwise. -/
theorem envURL_trailing_slashes (rt : Runtime) (v : String)
    (hv : rt.LookupEnv logchefURLEnvVar = some v) :
    (urlAndAPIKeyFromEnv rt).1 = trimRightSlash v ∧
    (∃ k, v.data = (trimRightSlash v).data ++ List.replicate k '/') ∧
    (trimRightSlash v).data.getLast? ≠ some '/' ∧
    (v.data.getLast? ≠ some '/' → (urlAndAPIKeyFromEnv rt).1 = v) ∧
    (∀ w : String, v = w ++ "/" → w.data.getLast? ≠ some '/' →
      (urlAndAPIKeyFromEnv rt).1 = w) ∧
    (∀ (ctx : Context) (log : Log) (parsed : URL),
      rt.urlParse (if trimRightSlash v = "" then defaultLogchefURL else trimRightSlash v) =
        .ok parsed →
      ∃ log1, ExtractLogchefInfoFromEnv rt ctx log =
        (.ok (WithLogchefURL (WithLogchefAPIKey ctx (rt.Getenv logchefAPIEnvVar))
          (if trimRightSlash v = "" then defaultLogchefURL else trimRightSlash v)), log1)) ∧
    (∀ (ctx : Context) (log : Log) (err : Error),
      rt.urlParse (if trimRightSlash v = "" then defaultLogchefURL else trimRightSlash v) =
        .error err →
      ExtractLogchefInfoFromEnv rt ctx log =
        (.error ("invalid Logchef URL " ++
          (if trimRightSlash v = "" then defaultLogchefURL else trimRightSlash v) ++
          ": " ++ err), log)) := by
  have henv : (urlAndAPIKeyFromEnv rt).1 = trimRightSlash v := by
    simp [urlAndAPIKeyFromEnv, Runtime.Getenv, hv]
  refine ⟨henv, trimRightSlash_append v, trimRightSlash_last v, ?_, ?_, ?_, ?_⟩
  · intro h
    rw [henv, trimRightSlash_of_last v h]
  · intro w hw hlast
    rw [henv, hw, trimRightSlash_of_one_slash w hlast]
  · intro ctx log parsed hparse
    exact ⟨_, ExtractLogchefInfoFromEnv_ok rt ctx log _ parsed (by rw [henv]) hparse⟩
  · intro ctx log err hparse
    simp only [ExtractLogchefInfoFromEnv, henv, hparse]

/-- A value with one trailing slash: the slash is stripped and the rest attached. -/
theorem envURL_trailing_slashes_witness :
    (urlAndAPIKeyFromEnv
        (Example.runtime [("LOGCHEF_URL", "http://logchef.example.com/")])).1 =
      "http://logchef.example.com" :=
  (envURL_trailing_slashes (Example.runtime [("LOGCHEF_URL", "http://logchef.example.com/")])
    "http://logchef.example.com/" rfl).2.2.2.2.1 "http://logchef.example.com" (by decide)
    (by decide)

/-- The values that both header steps compute are the resolved URL and API key. -/
theorem header_resolution (rt : Runtime) (req : InboundRequest) :
    (if (if (urlAndAPIKeyFromHeaders req).1 = "" then (urlAndAPIKeyFromEnv rt).1
          else (urlAndAPIKeyFromHeaders req).1) = "" then defaultLogchefURL
      else (if (urlAndAPIKeyFromHeaders req).1 = "" then (urlAndAPIKeyFromEnv rt).1
          else (urlAndAPIKeyFromHeaders req).1)) = resolvedURL rt req ∧
    (if (urlAndAPIKeyFromHeaders req).2 = "" then (urlAndAPIKeyFromEnv rt).2
      else (urlAndAPIKeyFromHeaders req).2) = resolvedAPIKey rt req := by
  constructor
  · simp only [urlAndAPIKeyFromHeaders, resolvedURL]
    by_cases h1 : headerGet req.Header logchefURLHeader = ""
    · by_cases h2 : (urlAndAPIKeyFromEnv rt).1 = "" <;> simp [h1, h2]
    · simp [h1]
  · simp only [urlAndAPIKeyFromHeaders, urlAndAPIKeyFromEnv, resolvedAPIKey]
    by_cases h1 : headerGet req.Header logchefAPIKeyHeader = "" <;> simp [h1]

theorem resolvedURL_ne_empty (rt : Runtime) (req : InboundRequest) :
    ¬ resolvedURL rt req = "" := by
  unfold resolvedURL
  by_cases h1 : headerGet req.Header logchefURLHeader = ""
  · by_cases h2 : (urlAndAPIKeyFromEnv rt).1 = ""
    · simp [h1, h2, default_ne_empty]
    · simp [h1, h2]
  · simp [h1]

theorem ExtractLogchefInfoFromHeaders_eq (rt : Runtime) (ctx : Context) (req : InboundRequest)
    (log : Log) :
    ExtractLogchefInfoFromHeaders rt ctx req log =
      (.ok (WithLogchefURL (WithLogchefAPIKey ctx (resolvedAPIKey rt req)) (resolvedURL rt req)),
        log) := by
  simp only [ExtractLogchefInfoFromHeaders, (header_resolution rt req).1,
    (header_resolution rt req).2]

theorem ExtractLogchefClientFromHeaders_ok (rt : Runtime) (ctx : Context)
    (req : InboundRequest) (log : Log) (parsed : URL)
    (hparse : rt.urlParse (resolvedURL rt req) = .ok parsed) :
    ExtractLogchefClientFromHeaders rt ctx req log =
      (.ok (WithLogchefClient ctx (New rt { BaseURL := resolvedURL rt req,
                                            APIKey := resolvedAPIKey rt req, Timeout := 0 })),
        log ++ [{ Level := "DEBUG", Message := "Creating Logchef client",
                  Attrs := [("url", .str parsed.Redacted),
                    ("api_key_set", .bool (resolvedAPIKey rt req != ""))] }]) := by
  have hnew := NewLogchefClient_ok rt ctx (resolvedURL rt req) (resolvedAPIKey rt req)
    (resolvedURL rt req) log parsed (by rw [if_neg (resolvedURL_ne_empty rt req)]) hparse
  simp only [ExtractLogchefClientFromHeaders, (header_resolution rt req).1,
    (header_resolution rt req).2, hnew]

theorem ExtractLogchefClientFromHeaders_panic (rt : Runtime) (ctx : Context)
    (req : InboundRequest) (log : Log) (err : Error)
    (hparse : rt.urlParse (resolvedURL rt req) = .error err) :
    ExtractLogchefClientFromHeaders rt ctx req log =
      (.error ("invalid Logchef URL: " ++ err), log) := by
  simp only [ExtractLogchefClientFromHeaders, (header_resolution rt req).1,
    (header_resolution rt req).2, NewLogchefClient, if_neg (resolvedURL_ne_empty rt req), hparse]

/-- C14: for every header values and environment, the URL resolved is the URL header as it
is when it is not empty, else the URL of `urlAndAPIKeyFromEnv` when that is not empty,
else "http://localhost:5173", and the API key resolved is the key header when it is not
empty, else the key of the environment.  `ExtractLogchefInfoFromHeaders` attaches these two
values to the context; `ExtractLogchefClientFromHeaders` binds a client with these two
values whenever it binds one, which is whenever `url.Parse` accepts the URL. -/
theorem header_env_fallback (rt : Runtime) (ctx : Context) (req : InboundRequest) (log : Log)
    (hURL hKey eURL eKey U K : String)
    (hhURL : hURL = headerGet req.Header "X-Logchef-URL")
    (hhKey : hKey = headerGet req.Header "X-Logchef-API-Key")
    (heURL : eURL = (urlAndAPIKeyFromEnv rt).1)
    (heKey : eKey = (urlAndAPIKeyFromEnv rt).2)
    (hU : U = if hURL ≠ "" then hURL else if eURL ≠ "" then eURL else "http://localhost:5173")
    (hK : K = if hKey ≠ "" then hKey else eKey) :
    ExtractLogchefInfoFromHeaders rt ctx req log =
      (.ok (WithLogchefURL (WithLogchefAPIKey ctx K) U), log) ∧
    LogchefURLFromContext (WithLogchefURL (WithLogchefAPIKey ctx K) U) = U ∧
    LogchefAPIKeyFromContext (WithLogchefURL (WithLogchefAPIKey ctx K) U) = K ∧
    (∀ parsed, rt.urlParse U = .ok parsed →
      ∃ c log1, ExtractLogchefClientFromHeaders rt ctx req log =
          (.ok (WithLogchefClient ctx c), log1) ∧
        c.config.BaseURL = U ∧ c.config.APIKey = K) ∧
    (∀ err, rt.urlParse U = .error err →
      ExtractLogchefClientFromHeaders rt ctx req log =
        (.error ("invalid Logchef URL: " ++ err), log)) ∧
    eKey = rt.Getenv "LOGCHEF_API_KEY" := by
  have hUeq : U = resolvedURL rt req := by
    rw [hU, hhURL, heURL, ← defaultLogchefURL_eq]
    rfl
  have hKeq : K = resolvedAPIKey rt req := by
    rw [hK, hhKey, heKey]
    rfl
  subst hUeq hKeq
  refine ⟨ExtractLogchefInfoFromHeaders_eq rt ctx req log, rfl, rfl, ?_, ?_, ?_⟩
  · intro parsed hparse
    exact ⟨_, _, ExtractLogchefClientFromHeaders_ok rt ctx req log parsed hparse,
      by rw [New_config], by rw [New_config]⟩
  · intro err hparse
    exact ExtractLogchefClientFromHeaders_panic rt ctx req log err hparse
  · rw [heKey]
    rfl

/-- An empty URL header with an API key header, on an environment with a URL ending in a
slash and a key: the URL of the environment without its slash, the key of the header. -/
theorem header_env_fallback_witness :
    ExtractLogchefInfoFromHeaders
        (Example.runtime [("LOGCHEF_URL", "http://env.example.com/"), ("LOGCHEF_API_KEY", "e")])
        Context.background (Example.inbound "" "h") [] =
      (.ok (WithLogchefURL (WithLogchefAPIKey Context.background "h") "http://env.example.com"),
        []) :=
  (header_env_fallback
    (Example.runtime [("LOGCHEF_URL", "http://env.example.com/"), ("LOGCHEF_API_KEY", "e")])
    Context.background (Example.inbound "" "h") [] "" "h" "http://env.example.com" "e"
    "http://env.example.com" "h" (by decide) (by decide) (by decide) (by decide) (by decide)
    (by decide)).1

/-! ## The composed context functions -/

theorem ExtractLogchefClientFromEnv_ok (rt : Runtime) (ctx : Context) (log : Log)
    (parsed : URL) (hparse : rt.urlParse (envClientURL rt) = .ok parsed) :
    ExtractLogchefClientFromEnv rt ctx log =
      (.ok (WithLogchefClient ctx (New rt { BaseURL := envClientURL rt,
                                            APIKey := rt.Getenv logchefAPIEnvVar,
                                            Timeout := 0 })),
        log ++ [{ Level := "DEBUG", Message := "Creating Logchef client",
                  Attrs := [("url", .str parsed.Redacted),
                    ("api_key_set", .bool (rt.Getenv logchefAPIEnvVar != ""))] }]) := by
  have hnew : ∀ v, envClientURL rt = (if v = "" then defaultLogchefURL else v) →
      NewLogchefClient rt ctx v (rt.Getenv logchefAPIEnvVar) log = _ :=
    fun v hv => NewLogchefClient_ok rt ctx v _ (envClientURL rt) log parsed hv hparse
  cases henv : rt.LookupEnv logchefURLEnvVar with
  | none =>
    have hv : envClientURL rt =
        (if defaultLogchefURL = "" then defaultLogchefURL else defaultLogchefURL) := by
      simp [envClientURL, henv]
    simp only [ExtractLogchefClientFromEnv, henv, hnew _ hv]
    rfl
  | some v =>
    have hv : envClientURL rt = (if v = "" then defaultLogchefURL else v) := by
      simp [envClientURL, henv]
    simp only [ExtractLogchefClientFromEnv, henv, hnew _ hv]
    rfl

theorem ExtractLogchefClientFromEnv_panic (rt : Runtime) (ctx : Context) (log : Log)
    (err : Error) (hparse : rt.urlParse (envClientURL rt) = .error err) :
    ExtractLogchefClientFromEnv rt ctx log = (.error ("invalid Logchef URL: " ++ err), log) := by
  cases henv : rt.LookupEnv logchefURLEnvVar with
  | none =>
    have hv : (if defaultLogchefURL = "" then defaultLogchefURL else defaultLogchefURL) =
        envClientURL rt := by
      simp [envClientURL, henv]
    simp only [ExtractLogchefClientFromEnv, henv, NewLogchefClient, hv, hparse]
  | some v =>
    have hv : (if v = "" then defaultLogchefURL else v) = envClientURL rt := by
      simp [envClientURL, henv]
    simp only [ExtractLogchefClientFromEnv, henv, NewLogchefClient, hv, hparse]

theorem ExtractLogchefInfoFromEnv_panic (rt : Runtime) (ctx : Context) (log : Log)
    (err : Error) (hparse : rt.urlParse (envInfoURL rt) = .error err) :
    ExtractLogchefInfoFromEnv rt ctx log =
      (.error ("invalid Logchef URL " ++ envInfoURL rt ++ ": " ++ err), log) := by
  unfold envInfoURL at hparse
  simp only [ExtractLogchefInfoFromEnv, hparse, envInfoURL]

/-- C15, on the input where it fails: with `LOGCHEF_URL` set to
"http://logchef.example.com/", the context that `ComposedStdioContextFunc` produces holds
the URL "http://logchef.example.com", slash stripped, and a client whose `BaseURL` is
"http://logchef.example.com/", slash kept; the API keys agree. -/
theorem stdio_client_keeps_trailing_slash :
    ((ComposedStdioContextFunc
        (Example.runtime [("LOGCHEF_URL", "http://logchef.example.com/"),
          ("LOGCHEF_API_KEY", "k")]) false Context.background []).1.map
      (fun ctx => (LogchefURLFromContext ctx, LogchefAPIKeyFromContext ctx,
        (LogchefClientFromContext ctx).map (fun c => (c.config.BaseURL, c.config.APIKey))))) =
      .ok ("http://logchef.example.com", "k", some ("http://logchef.example.com/", "k")) ∧
    "http://logchef.example.com/" ≠ "http://logchef.example.com" :=
  ⟨rfl, by decide⟩

/-- The context that `ComposedStdioContextFunc` produces when `url.Parse` accepts both
URLs: the client is built from the value of `LOGCHEF_URL` as it is set, the attached URL
is that value without its trailing slashes. -/
theorem ComposedStdioContextFunc_ok (rt : Runtime) (debug : Bool) (ctx : Context) (log : Log)
    (p1 p2 : URL) (h1 : rt.urlParse (envInfoURL rt) = .ok p1)
    (h2 : rt.urlParse (envClientURL rt) = .ok p2) :
    (ComposedStdioContextFunc rt debug ctx log).1 =
      .ok { logchefDebug := some debug
            logchefURL := some (envInfoURL rt)
            logchefAPIKey := some (rt.Getenv logchefAPIEnvVar)
            logchefClient := some (New rt { BaseURL := envClientURL rt,
                                            APIKey := rt.Getenv logchefAPIEnvVar,
                                            Timeout := 0 }) } := by
  simp only [ComposedStdioContextFunc, ComposeStdioContextFuncs,
    ExtractLogchefInfoFromEnv_ok rt _ _ (envInfoURL rt) p1 rfl h1,
    ExtractLogchefClientFromEnv_ok rt _ _ p2 h2]
  rfl

/-- The context that the composed SSE function produces when `url.Parse` accepts the
resolved URL. -/
theorem ComposedSSEContextFunc_ok (rt : Runtime) (debug : Bool) (ctx : Context)
    (req : InboundRequest) (log : Log) (parsed : URL)
    (hparse : rt.urlParse (resolvedURL rt req) = .ok parsed) :
    (ComposedSSEContextFunc rt debug ctx req log).1 =
      .ok { logchefDebug := some debug
            logchefURL := some (resolvedURL rt req)
            logchefAPIKey := some (resolvedAPIKey rt req)
            logchefClient := some (New rt { BaseURL := resolvedURL rt req,
                                            APIKey := resolvedAPIKey rt req,
                                            Timeout := 0 }) } := by
  simp only [ComposedSSEContextFunc, ComposeSSEContextFuncs, ExtractLogchefInfoFromHeaders_eq,
    ExtractLogchefClientFromHeaders_ok rt _ req _ parsed hparse]
  rfl

/-- The context that the composed HTTP function produces when `url.Parse` accepts the
resolved URL. -/
theorem ComposedHTTPContextFunc_ok (rt : Runtime) (debug : Bool) (ctx : Context)
    (req : InboundRequest) (log : Log) (parsed : URL)
    (hparse : rt.urlParse (resolvedURL rt req) = .ok parsed) :
    (ComposedHTTPContextFunc rt debug ctx req log).1 =
      .ok { logchefDebug := some debug
            logchefURL := some (resolvedURL rt req)
            logchefAPIKey := some (resolvedAPIKey rt req)
            logchefClient := some (New rt { BaseURL := resolvedURL rt req,
                                            APIKey := resolvedAPIKey rt req,
                                            Timeout := 0 }) } := by
  simp only [ComposedHTTPContextFunc, ComposeHTTPContextFuncs, ExtractLogchefInfoFromHeaders_eq,
    ExtractLogchefClientFromHeaders_ok rt _ req _ parsed hparse]
  rfl

/-- C16: for every inbound request and environment whose resolved URL `url.Parse` accepts,
`ComposedSSEContextFunc` and `ComposedHTTPContextFunc` return a context that holds a client
whose `BaseURL` is `LogchefURLFromContext` of that context and whose `APIKey` is
`LogchefAPIKeyFromContext` of it, and `LogchefDebugFromContext` of it is the debug
argument. -/
theorem http_client_matches_context (rt : Runtime) (debug : Bool) (ctx : Context)
    (req : InboundRequest) (log : Log) (parsed : URL)
    (hparse : rt.urlParse (resolvedURL rt req) = .ok parsed) :
    (∃ ctx1 log1 c, ComposedSSEContextFunc rt debug ctx req log = (.ok ctx1, log1) ∧
      LogchefClientFromContext ctx1 = some c ∧
      c.config.BaseURL = LogchefURLFromContext ctx1 ∧
      c.config.APIKey = LogchefAPIKeyFromContext ctx1 ∧
      LogchefDebugFromContext ctx1 = debug) ∧
    (∃ ctx1 log1 c, ComposedHTTPContextFunc rt debug ctx req log = (.ok ctx1, log1) ∧
      LogchefClientFromContext ctx1 = some c ∧
      c.config.BaseURL = LogchefURLFromContext ctx1 ∧
      c.config.APIKey = LogchefAPIKeyFromContext ctx1 ∧
      LogchefDebugFromContext ctx1 = debug) := by
  constructor
  · exact ⟨_, (ComposedSSEContextFunc rt debug ctx req log).2, _,
      Prod.ext (ComposedSSEContextFunc_ok rt debug ctx req log parsed hparse) rfl, rfl,
      by rw [New_config]; rfl, by rw [New_config]; rfl, rfl⟩
  · exact ⟨_, (ComposedHTTPContextFunc rt debug ctx req log).2, _,
      Prod.ext (ComposedHTTPContextFunc_ok rt debug ctx req log parsed hparse) rfl, rfl,
      by rw [New_config]; rfl, by rw [New_config]; rfl, rfl⟩

/-- A request with both headers on an environment with other values: the client carries
the header values, and so does the context. -/
theorem http_client_matches_context_witness :
    ((ComposedHTTPContextFunc
        (Example.runtime [("LOGCHEF_URL", "http://env.example.com"), ("LOGCHEF_API_KEY", "e")])
        true Context.background (Example.inbound "http://header.example.com/" "h") []).1.map
      (fun ctx => (LogchefURLFromContext ctx, LogchefAPIKeyFromContext ctx,
        LogchefDebugFromContext ctx,
        (LogchefClientFromContext ctx).map (fun c => (c.config.BaseURL, c.config.APIKey))))) =
      .ok ("http://header.example.com/", "h", true,
        some ("http://header.example.com/", "h")) ∧
    ∃ ctx1 log1 c, ComposedSSEContextFunc
        (Example.runtime [("LOGCHEF_URL", "http://env.example.com"), ("LOGCHEF_API_KEY", "e")])
        true Context.background (Example.inbound "http://header.example.com/" "h") [] =
          (.ok ctx1, log1) ∧
      LogchefClientFromContext ctx1 = some c ∧
      c.config.BaseURL = LogchefURLFromContext ctx1 ∧
      c.config.APIKey = LogchefAPIKeyFromContext ctx1 ∧
      LogchefDebugFromContext ctx1 = true :=
  ⟨rfl, (http_client_matches_context
    (Example.runtime [("LOGCHEF_URL", "http://env.example.com"), ("LOGCHEF_API_KEY", "e")])
    true Context.background (Example.inbound "http://header.example.com/" "h") []
    { Redacted := "http://header.example.com/" } rfl).1⟩

/-- C17, as stated, fails: with `LOGCHEF_URL` set to "http://logchef.example.com", running
`ExtractLogchefClientFromEnv` before `ExtractLogchefInfoFromEnv` yields a client bound to
"http://logchef.example.com", not to the default; and with that URL in the header,
running `ExtractLogchefClientFromHeaders` before `ExtractLogchefInfoFromHeaders` does the
same. -/
theorem reversed_order_not_default :
    ((ComposeStdioContextFuncs
        [ExtractLogchefClientFromEnv
           (Example.runtime [("LOGCHEF_URL", "http://logchef.example.com")]),
         ExtractLogchefInfoFromEnv
           (Example.runtime [("LOGCHEF_URL", "http://logchef.example.com")])]
        Context.background []).1.map
      (fun ctx => (LogchefClientFromContext ctx).map (fun c => c.config.BaseURL))) =
      .ok (some "http://logchef.example.com") ∧
    ((ComposeHTTPContextFuncs
        [ExtractLogchefClientFromHeaders (Example.runtime []),
         ExtractLogchefInfoFromHeaders (Example.runtime [])]
        Context.background (Example.inbound "http://logchef.example.com" "") []).1.map
      (fun ctx => (LogchefClientFromContext ctx).map (fun c => c.config.BaseURL))) =
      .ok (some "http://logchef.example.com") ∧
    "http://logchef.example.com" ≠ "http://localhost:5173" :=
  ⟨rfl, rfl, by decide⟩

/-- C17, amended: the client-construction step does not read the context, it resolves the
URL and the API key itself, so the order of the two steps does not change the client.
Whenever the pipeline with the client-construction step first returns a context, the
pipeline in the written order returns the same context, and its client is bound to the
URL and key that the step resolves (for stdio the value of `LOGCHEF_URL` as it is set,
or the default when it is unset or empty; for SSE and HTTP the URL resolved from header and
environment), not to the default configuration. -/
theorem reversed_order_same_client (rt : Runtime) (ctx : Context) (log : Log) :
    (∀ ctxR,
      (ComposeStdioContextFuncs [ExtractLogchefClientFromEnv rt, ExtractLogchefInfoFromEnv rt]
        ctx log).1 = .ok ctxR →
      (ComposeStdioContextFuncs [ExtractLogchefInfoFromEnv rt, ExtractLogchefClientFromEnv rt]
        ctx log).1 = .ok ctxR ∧
      ∃ c, LogchefClientFromContext ctxR = some c ∧ c.config.BaseURL = envClientURL rt ∧
        c.config.APIKey = rt.Getenv logchefAPIEnvVar) ∧
    (∀ req ctxR,
      (ComposeSSEContextFuncs
        [ExtractLogchefClientFromHeaders rt, ExtractLogchefInfoFromHeaders rt]
        ctx req log).1 = .ok ctxR →
      (ComposeSSEContextFuncs
        [ExtractLogchefInfoFromHeaders rt, ExtractLogchefClientFromHeaders rt]
        ctx req log).1 = .ok ctxR ∧
      ∃ c, LogchefClientFromContext ctxR = some c ∧ c.config.BaseURL = resolvedURL rt req ∧
        c.config.APIKey = resolvedAPIKey rt req) ∧
    (∀ req ctxR,
      (ComposeHTTPContextFuncs
        [ExtractLogchefClientFromHeaders rt, ExtractLogchefInfoFromHeaders rt]
        ctx req log).1 = .ok ctxR →
      (ComposeHTTPContextFuncs
        [ExtractLogchefInfoFromHeaders rt, ExtractLogchefClientFromHeaders rt]
        ctx req log).1 = .ok ctxR ∧
      ∃ c, LogchefClientFromContext ctxR = some c ∧ c.config.BaseURL = resolvedURL rt req ∧
        c.config.APIKey = resolvedAPIKey rt req) ∧
    (∀ p1 p2, rt.urlParse (envInfoURL rt) = .ok p1 → rt.urlParse (envClientURL rt) = .ok p2 →
      ∃ ctxR, (ComposeStdioContextFuncs
        [ExtractLogchefClientFromEnv rt, ExtractLogchefInfoFromEnv rt] ctx log).1 = .ok ctxR) ∧
    (∀ req p, rt.urlParse (resolvedURL rt req) = .ok p →
      ∃ ctxR, (ComposeHTTPContextFuncs
        [ExtractLogchefClientFromHeaders rt, ExtractLogchefInfoFromHeaders rt]
        ctx req log).1 = .ok ctxR) := by
  refine ⟨?_, ?_, ?_, ?_, ?_⟩
  · intro ctxR hR
    cases h2 : rt.urlParse (envClientURL rt) with
    | error err =>
      simp only [ComposeStdioContextFuncs, ExtractLogchefClientFromEnv_panic rt _ _ err h2] at hR
      exact absurd hR (by simp)
    | ok p2 =>
      cases h1 : rt.urlParse (envInfoURL rt) with
      | error err =>
        simp only [ComposeStdioContextFuncs, ExtractLogchefClientFromEnv_ok rt _ _ p2 h2,
          ExtractLogchefInfoFromEnv_panic rt _ _ err h1] at hR
        exact absurd hR (by simp)
      | ok p1 =>
        simp only [ComposeStdioContextFuncs, ExtractLogchefClientFromEnv_ok rt _ _ p2 h2,
          ExtractLogchefInfoFromEnv_ok rt _ _ (envInfoURL rt) p1 rfl h1,
          Except.ok.injEq] at hR
        subst hR
        refine ⟨?_, _, rfl, by rw [New_config], by rw [New_config]⟩
        simp only [ComposeStdioContextFuncs, ExtractLogchefClientFromEnv_ok rt _ _ p2 h2,
          ExtractLogchefInfoFromEnv_ok rt _ _ (envInfoURL rt) p1 rfl h1]
        rfl
  · intro req ctxR hR
    cases h : rt.urlParse (resolvedURL rt req) with
    | error err =>
      simp only [ComposeSSEContextFuncs,
        ExtractLogchefClientFromHeaders_panic rt _ req _ err h] at hR
      exact absurd hR (by simp)
    | ok p =>
      simp only [ComposeSSEContextFuncs, ExtractLogchefClientFromHeaders_ok rt _ req _ p h,
        ExtractLogchefInfoFromHeaders_eq, Except.ok.injEq] at hR
      subst hR
      refine ⟨?_, _, rfl, by rw [New_config], by rw [New_config]⟩
      simp only [ComposeSSEContextFuncs, ExtractLogchefClientFromHeaders_ok rt _ req _ p h,
        ExtractLogchefInfoFromHeaders_eq]
      rfl
  · intro req ctxR hR
    cases h : rt.urlParse (resolvedURL rt req) with
    | error err =>
      simp only [ComposeHTTPContextFuncs,
        ExtractLogchefClientFromHeaders_panic rt _ req _ err h] at hR
      exact absurd hR (by simp)
    | ok p =>
      simp only [ComposeHTTPContextFuncs, ExtractLogchefClientFromHeaders_ok rt _ req _ p h,
        ExtractLogchefInfoFromHeaders_eq, Except.ok.injEq] at hR
      subst hR
      refine ⟨?_, _, rfl, by rw [New_config], by rw [New_config]⟩
      simp only [ComposeHTTPContextFuncs, ExtractLogchefClientFromHeaders_ok rt _ req _ p h,
        ExtractLogchefInfoFromHeaders_eq]
      rfl
  · intro p1 p2 h1 h2
    simp only [ComposeStdioContextFuncs, ExtractLogchefClientFromEnv_ok rt _ _ p2 h2,
      ExtractLogchefInfoFromEnv_ok rt _ _ (envInfoURL rt) p1 rfl h1]
    exact ⟨_, rfl⟩
  · intro req p h
    simp only [ComposeHTTPContextFuncs, ExtractLogchefClientFromHeaders_ok rt _ req _ p h,
      ExtractLogchefInfoFromHeaders_eq]
    exact ⟨_, rfl⟩

/-- The reversed stdio pipeline on an environment with a URL and a key returns the context
of the written order, with a client bound to that URL and key. -/
theorem reversed_order_same_client_witness :
    (ComposeStdioContextFuncs
        [ExtractLogchefInfoFromEnv
           (Example.runtime [("LOGCHEF_URL", "http://logchef.example.com"),
             ("LOGCHEF_API_KEY", "k")]),
         ExtractLogchefClientFromEnv
           (Example.runtime [("LOGCHEF_URL", "http://logchef.example.com"),
             ("LOGCHEF_API_KEY", "k")])]
        Context.background []).1 =
      .ok { logchefDebug := none
            logchefURL := some "http://logchef.example.com"
            logchefAPIKey := some "k"
            logchefClient := some (New
              (Example.runtime [("LOGCHEF_URL", "http://logchef.example.com"),
                ("LOGCHEF_API_KEY", "k")])
              { BaseURL := "http://logchef.example.com", APIKey := "k", Timeout := 0 }) } :=
  ((reversed_order_same_client
    (Example.runtime [("LOGCHEF_URL", "http://logchef.example.com"), ("LOGCHEF_API_KEY", "k")])
    Context.background []).1 _ rfl).1

/-! ## Composition of context functions -/

theorem ComposeStdioContextFuncs_append (fs gs : List StdioContextFunc) (ctx : Context)
    (log : Log) :
    ComposeStdioContextFuncs (fs ++ gs) ctx log =
      match ComposeStdioContextFuncs fs ctx log with
      | (.error p, log1) => (.error p, log1)
      | (.ok ctx1, log1) => ComposeStdioContextFuncs gs ctx1 log1 := by
  induction fs generalizing ctx log with
  | nil => rfl
  | cons f fs ih =>
    simp only [List.cons_append, ComposeStdioContextFuncs]
    rcases hf : f ctx log with ⟨_ | ctx1, log1⟩
    · rfl
    · exact ih ctx1 log1

theorem ComposeSSEContextFuncs_append (fs gs : List httpContextFunc) (ctx : Context)
    (req : InboundRequest) (log : Log) :
    ComposeSSEContextFuncs (fs ++ gs) ctx req log =
      match ComposeSSEContextFuncs fs ctx req log with
      | (.error p, log1) => (.error p, log1)
      | (.ok ctx1, log1) => ComposeSSEContextFuncs gs ctx1 req log1 := by
  induction fs generalizing ctx log with
  | nil => rfl
  | cons f fs ih =>
    simp only [List.cons_append, ComposeSSEContextFuncs]
    rcases hf : f ctx req log with ⟨_ | ctx1, log1⟩
    · rfl
    · exact ih ctx1 log1

theorem ComposeHTTPContextFuncs_append (fs gs : List httpContextFunc) (ctx : Context)
    (req : InboundRequest) (log : Log) :
    ComposeHTTPContextFuncs (fs ++ gs) ctx req log =
      match ComposeHTTPContextFuncs fs ctx req log with
      | (.error p, log1) => (.error p, log1)
      | (.ok ctx1, log1) => ComposeHTTPContextFuncs gs ctx1 req log1 := by
  induction fs generalizing ctx log with
  | nil => rfl
  | cons f fs ih =>
    simp only [List.cons_append, ComposeHTTPContextFuncs]
    rcases hf : f ctx req log with ⟨_ | ctx1, log1⟩
    · rfl
    · exact ih ctx1 log1

theorem ComposeStdioContextFuncs_pure (steps : List (Context → Context)) (ctx : Context)
    (log : Log) :
    ComposeStdioContextFuncs (steps.map (fun g ctx0 log0 => (.ok (g ctx0), log0))) ctx log =
      (.ok (steps.foldl (fun acc g => g acc) ctx), log) := by
  induction steps generalizing ctx with
  | nil => rfl
  | cons g steps ih =>
    simp only [List.map_cons, ComposeStdioContextFuncs, List.foldl_cons]
    exact ih (g ctx)

theorem ComposeSSEContextFuncs_pure (steps : List (Context → InboundRequest → Context))
    (ctx : Context) (req : InboundRequest) (log : Log) :
    ComposeSSEContextFuncs (steps.map (fun g ctx0 req0 log0 => (.ok (g ctx0 req0), log0)))
        ctx req log =
      (.ok (steps.foldl (fun acc g => g acc req) ctx), log) := by
  induction steps generalizing ctx with
  | nil => rfl
  | cons g steps ih =>
    simp only [List.map_cons, ComposeSSEContextFuncs, List.foldl_cons]
    exact ih (g ctx req)

theorem ComposeHTTPContextFuncs_pure (steps : List (Context → InboundRequest → Context))
    (ctx : Context) (req : InboundRequest) (log : Log) :
    ComposeHTTPContextFuncs (steps.map (fun g ctx0 req0 log0 => (.ok (g ctx0 req0), log0)))
        ctx req log =
      (.ok (steps.foldl (fun acc g => g acc req) ctx), log) := by
  induction steps generalizing ctx with
  | nil => rfl
  | cons g steps ih =>
    simp only [List.map_cons, ComposeHTTPContextFuncs, List.foldl_cons]
    exact ih (g ctx req)

/-- C18: the three compose functions run their steps from left to right, each step on the
context the one before it returned, and, for SSE and HTTP, every step on the same request.
For steps `f1..fn` that are plain functions of the context the result is
`fn(...f2(f1(ctx))...)`; for steps that also log or panic it is the first step followed by
the composition of the rest, a panic ending the run.  The empty list composes to the
identity, and the composition of a concatenation is the composition of the first list
followed by the composition of the second. -/
theorem compose_context_funcs (ctx : Context) (req : InboundRequest) (log : Log) :
    (∀ steps : List (Context → Context),
      ComposeStdioContextFuncs (steps.map (fun g ctx0 log0 => (.ok (g ctx0), log0))) ctx log =
        (.ok (steps.foldl (fun acc g => g acc) ctx), log)) ∧
    (∀ steps : List (Context → InboundRequest → Context),
      ComposeSSEContextFuncs (steps.map (fun g ctx0 req0 log0 => (.ok (g ctx0 req0), log0)))
          ctx req log =
        (.ok (steps.foldl (fun acc g => g acc req) ctx), log) ∧
      ComposeHTTPContextFuncs (steps.map (fun g ctx0 req0 log0 => (.ok (g ctx0 req0), log0)))
          ctx req log =
        (.ok (steps.foldl (fun acc g => g acc req) ctx), log)) ∧
    (ComposeStdioContextFuncs [] ctx log = (.ok ctx, log) ∧
      ComposeSSEContextFuncs [] ctx req log = (.ok ctx, log) ∧
      ComposeHTTPContextFuncs [] ctx req log = (.ok ctx, log)) ∧
    (∀ (f : StdioContextFunc) (funcs : List StdioContextFunc),
      ComposeStdioContextFuncs (f :: funcs) ctx log =
        match f ctx log with
        | (.error p, log1) => (.error p, log1)
        | (.ok ctx1, log1) => ComposeStdioContextFuncs funcs ctx1 log1) ∧
    (∀ (f : httpContextFunc) (funcs : List httpContextFunc),
      (ComposeSSEContextFuncs (f :: funcs) ctx req log =
        match f ctx req log with
        | (.error p, log1) => (.error p, log1)
        | (.ok ctx1, log1) => ComposeSSEContextFuncs funcs ctx1 req log1) ∧
      (ComposeHTTPContextFuncs (f :: funcs) ctx req log =
        match f ctx req log with
        | (.error p, log1) => (.error p, log1)
        | (.ok ctx1, log1) => ComposeHTTPContextFuncs funcs ctx1 req log1)) ∧
    (∀ fs gs : List StdioContextFunc,
      ComposeStdioContextFuncs (fs ++ gs) ctx log =
        match ComposeStdioContextFuncs fs ctx log with
        | (.error p, log1) => (.error p, log1)
        | (.ok ctx1, log1) => ComposeStdioContextFuncs gs ctx1 log1) ∧
    (∀ fs gs : List httpContextFunc,
      (ComposeSSEContextFuncs (fs ++ gs) ctx req log =
        match ComposeSSEContextFuncs fs ctx req log with
        | (.error p, log1) => (.error p, log1)
        | (.ok ctx1, log1) => ComposeSSEContextFuncs gs ctx1 req log1) ∧
      (ComposeHTTPContextFuncs (fs ++ gs) ctx req log =
        match ComposeHTTPContextFuncs fs ctx req log with
        | (.error p, log1) => (.error p, log1)
        | (.ok ctx1, log1) => ComposeHTTPContextFuncs gs ctx1 req log1)) :=
  ⟨fun steps => ComposeStdioContextFuncs_pure steps ctx log,
    fun steps => ⟨ComposeSSEContextFuncs_pure steps ctx req log,
      ComposeHTTPContextFuncs_pure steps ctx req log⟩,
    ⟨rfl, rfl, rfl⟩,
    fun _ _ => rfl,
    fun _ _ => ⟨rfl, rfl⟩,
    fun fs gs => ComposeStdioContextFuncs_append fs gs ctx log,
    fun fs gs => ⟨ComposeSSEContextFuncs_append fs gs ctx req log,
      ComposeHTTPContextFuncs_append fs gs ctx req log⟩⟩

/-! ## Tools on a context without a client -/

/-- C19: when the context carries no bound client, each of the thirty-six tool functions
of the tools package returns, for every argument value, no result and the error
"Logchef client not found in context", and performs no client operation: the trace is
left as it was, for the admin tools too, which do not fetch the profile. -/
theorem tools_without_client (ctx : Context) (tr : Trace)
    (h : LogchefClientFromContext ctx = none) :
    (∀ args, getProfile ctx args tr = (.error "Logchef client not found in context", tr)) ∧
    (∀ args, getTeams ctx args tr = (.error "Logchef client not found in context", tr)) ∧
    (∀ args, getMeta ctx args tr = (.error "Logchef client not found in context", tr)) ∧
    (∀ args, getTeamSources ctx args tr = (.error "Logchef client not found in context", tr)) ∧
    (∀ order args, getSources order ctx args tr =
      (.ok (.error "Logchef client not found in context"), tr)) ∧
    (∀ args, queryLogs ctx args tr = (.error "Logchef client not found in context", tr)) ∧
    (∀ args, getSourceSchema ctx args tr = (.error "Logchef client not found in context", tr)) ∧
    (∀ args, getLogHistogram ctx args tr = (.error "Logchef client not found in context", tr)) ∧
    (∀ args, getCollections ctx args tr = (.error "Logchef client not found in context", tr)) ∧
    (∀ args, createCollection ctx args tr = (.error "Logchef client not found in context", tr)) ∧
    (∀ args, getCollection ctx args tr = (.error "Logchef client not found in context", tr)) ∧
    (∀ args, updateCollection ctx args tr = (.error "Logchef client not found in context", tr)) ∧
    (∀ args, deleteCollection ctx args tr = (.error "Logchef client not found in context", tr)) ∧
    (∀ args, listAllTeams ctx args tr = (.error "Logchef client not found in context", tr)) ∧
    (∀ args, getTeam ctx args tr = (.error "Logchef client not found in context", tr)) ∧
    (∀ args, createTeam ctx args tr = (.error "Logchef client not found in context", tr)) ∧
    (∀ args, updateTeam ctx args tr = (.error "Logchef client not found in context", tr)) ∧
    (∀ args, deleteTeam ctx args tr = (.error "Logchef client not found in context", tr)) ∧
    (∀ args, listTeamMembers ctx args tr = (.error "Logchef client not found in context", tr)) ∧
    (∀ args, addTeamMember ctx args tr = (.error "Logchef client not found in context", tr)) ∧
    (∀ args, removeTeamMember ctx args tr = (.error "Logchef client not found in context", tr)) ∧
    (∀ args, linkSourceToTeam ctx args tr = (.error "Logchef client not found in context", tr)) ∧
    (∀ args, unlinkSourceFromTeam ctx args tr = (.error "Logchef client not found in context", tr)) ∧
    (∀ args, listAllUsers ctx args tr = (.error "Logchef client not found in context", tr)) ∧
    (∀ args, getUser ctx args tr = (.error "Logchef client not found in context", tr)) ∧
    (∀ args, createUser ctx args tr = (.error "Logchef client not found in context", tr)) ∧
    (∀ args, updateUser ctx args tr = (.error "Logchef client not found in context", tr)) ∧
    (∀ args, deleteUser ctx args tr = (.error "Logchef client not found in context", tr)) ∧
    (∀ args, listAPITokens ctx args tr = (.error "Logchef client not found in context", tr)) ∧
    (∀ args, createAPIToken ctx args tr = (.error "Logchef client not found in context", tr)) ∧
    (∀ args, deleteAPIToken ctx args tr = (.error "Logchef client not found in context", tr)) ∧
    (∀ args, listAllSources ctx args tr = (.error "Logchef client not found in context", tr)) ∧
    (∀ args, createSource ctx args tr = (.error "Logchef client not found in context", tr)) ∧
    (∀ args, validateSourceConnection ctx args tr =
      (.error "Logchef client not found in context", tr)) ∧
    (∀ args, deleteSource ctx args tr = (.error "Logchef client not found in context", tr)) ∧
    (∀ args, getAdminSourceStats ctx args tr = (.error "Logchef client not found in context", tr)) := by
  refine ⟨?_, ?_, ?_, ?_, ?_, ?_, ?_, ?_, ?_, ?_, ?_, ?_, ?_, ?_, ?_, ?_, ?_, ?_,
    ?_, ?_, ?_, ?_, ?_, ?_, ?_, ?_, ?_, ?_, ?_, ?_, ?_, ?_, ?_, ?_, ?_, ?_⟩
  · intro args
    simp only [getProfile, h]
  · intro args
    simp only [getTeams, h]
  · intro args
    simp only [getMeta, h]
  · intro args
    simp only [getTeamSources, h]
  · intro order args
    simp only [getSources, h]
  · intro args
    simp only [queryLogs, h]
  · intro args
    simp only [getSourceSchema, h]
  · intro args
    simp only [getLogHistogram, h]
  · intro args
    simp only [getCollections, h]
  · intro args
    simp only [createCollection, h]
  · intro args
    simp only [getCollection, h]
  · intro args
    simp only [updateCollection, h]
  · intro args
    simp only [deleteCollection, h]
  · intro args
    simp only [listAllTeams, h]
  · intro args
    simp only [getTeam, h]
  · intro args
    simp only [createTeam, h]
  · intro args
    simp only [updateTeam, h]
  · intro args
    simp only [deleteTeam, h]
  · intro args
    simp only [listTeamMembers, h]
  · intro args
    simp only [addTeamMember, h]
  · intro args
    simp only [removeTeamMember, h]
  · intro args
    simp only [linkSourceToTeam, h]
  · intro args
    simp only [unlinkSourceFromTeam, h]
  · intro args
    simp only [listAllUsers, h]
  · intro args
    simp only [getUser, h]
  · intro args
    simp only [createUser, h]
  · intro args
    simp only [updateUser, h]
  · intro args
    simp only [deleteUser, h]
  · intro args
    simp only [listAPITokens, h]
  · intro args
    simp only [createAPIToken, h]
  · intro args
    simp only [deleteAPIToken, h]
  · intro args
    simp only [listAllSources, h]
  · intro args
    simp only [createSource, h]
  · intro args
    simp only [validateSourceConnection, h]
  · intro args
    simp only [deleteSource, h]
  · intro args
    simp only [getAdminSourceStats, h]

/-- The tools `deleteUser` and `getSources` on a context that was never composed. -/
theorem tools_without_client_witness :
    deleteUser Context.background ⟨7⟩ [] =
        (.error "Logchef client not found in context", []) ∧
      getSources MapOrder.insertion Context.background {} [Request.GetMeta] =
        (.ok (.error "Logchef client not found in context"), [Request.GetMeta]) :=
  ⟨(tools_without_client Context.background [] rfl).2.2.2.2.2.2.2.2.2.2.2.2.2.2.2.2.2.2.2.2.2.2.2.2.2.2.2.1 ⟨7⟩,
    (tools_without_client Context.background [Request.GetMeta] rfl).2.2.2.2.1
      MapOrder.insertion {}⟩

/-! ## The status check of the client operations -/

theorem perform_of_response (rt : Runtime) (config : Config) (op : Request) (parsed : URL)
    (resp : HTTPResponse)
    (hparse : rt.urlParse (config.BaseURL ++ op.endpoint.Path) = .ok parsed)
    (hdo : rt.Do (op.httpRequest config) = .ok resp) :
    perform rt config op =
      (if resp.StatusCode ≠ op.endpoint.Expected then
        .error ("API request failed with status " ++ toString resp.StatusCode ++ ": " ++
          resp.Body)
      else op.receive rt.unmarshal resp, [op.httpRequest config]) := by
  simp only [perform, hparse, hdo]
  split <;> rfl

theorem endpoint_expected (op : Request) : op.endpoint.Expected = statedSuccessCode op := by
  cases op <;> rfl

theorem receive_of_decodes (unmarshal : (op : Request) → String → Except Error op.Result)
    (resp : HTTPResponse) (op : Request) (h : op.decodes = true) :
    op.receive unmarshal resp = readJSON (unmarshal op) resp := by
  cases op <;> first | rfl | simp [Request.decodes] at h

theorem receive_of_not_decodes (unmarshal : (op : Request) → String → Except Error op.Result)
    (resp : HTTPResponse) (op : Request) (h : op.decodes = false) :
    ∃ v, op.receive unmarshal resp = .ok v := by
  cases op <;> first | exact ⟨(), rfl⟩ | simp [Request.decodes] at h

theorem readJSON_error_iff {T : Type} (unmarshal : String → Except Error T)
    (resp : HTTPResponse) :
    (∃ e, readJSON unmarshal resp = .error e) ↔
      (∃ e, resp.ReadErr = some e) ∨ ∃ e, unmarshal resp.Body = .error e := by
  unfold readJSON
  cases hr : resp.ReadErr with
  | some err => simp
  | none =>
    cases hu : unmarshal resp.Body with
    | error err => simp
    | ok v => simp


/-- C20, as stated, fails: `GetProfile` receives a response with its expected status 200
and a body that does not decode, and returns an error. -/
theorem status_ok_yet_error :
    (Example.runtime []).Do
        (Request.GetProfile.httpRequest ⟨"http://localhost:5173", "k", 30 * Second⟩) =
      .ok { StatusCode := 200, Body := "<html>", ReadErr := none } ∧
    Request.GetProfile.endpoint.Expected = 200 ∧
    (perform (Example.runtime []) ⟨"http://localhost:5173", "k", 30 * Second⟩
        Request.GetProfile).1 =
      .error "unmarshal response: invalid character '<' looking for beginning of value" :=
  ⟨rfl, rfl, rfl⟩

/-- C20, amended: a client operation that receives an HTTP response compares its status
with one expected code, 201 for `CreateCollection`, `CreateTeam`, `CreateUser`,
`CreateAPIToken` and `CreateSource`, 204 for `DeleteCollection`, 200 for every other
operation.  When the status differs, and so for every status outside 200..299, it returns
the error "API request failed with status <code>: <raw response body>".  When the status is
the expected one, an operation that returns only an error (the seven DELETE operations,
`AddTeamMember` and `LinkSourceToTeam`) returns nil, so that it returns an error exactly
when the status differs; an operation that returns a value reads and decodes the body and
returns an error exactly when reading or decoding fails. -/
theorem status_check (rt : Runtime) (config : Config) (op : Request) (parsed : URL)
    (resp : HTTPResponse)
    (hparse : rt.urlParse (config.BaseURL ++ op.endpoint.Path) = .ok parsed)
    (hdo : rt.Do (op.httpRequest config) = .ok resp) :
    op.endpoint.Expected = statedSuccessCode op ∧
    (resp.StatusCode ≠ statedSuccessCode op →
      (perform rt config op).1 =
        .error ("API request failed with status " ++ toString resp.StatusCode ++ ": " ++
          resp.Body)) ∧
    (resp.StatusCode < 200 ∨ 300 ≤ resp.StatusCode →
      (perform rt config op).1 =
        .error ("API request failed with status " ++ toString resp.StatusCode ++ ": " ++
          resp.Body)) ∧
    (op.decodes = false ↔
      (op.endpoint.Method = "DELETE" ∨ (∃ teamID request, op = .AddTeamMember teamID request) ∨
        ∃ teamID request, op = .LinkSourceToTeam teamID request)) ∧
    (op.decodes = false →
      (resp.StatusCode = statedSuccessCode op → ∃ v, (perform rt config op).1 = .ok v) ∧
      ((∃ e, (perform rt config op).1 = .error e) ↔ resp.StatusCode ≠ statedSuccessCode op)) ∧
    (op.decodes = true →
      (resp.StatusCode = statedSuccessCode op →
        (perform rt config op).1 = readJSON (rt.unmarshal op) resp) ∧
      ((∃ e, (perform rt config op).1 = .error e) ↔
        (resp.StatusCode ≠ statedSuccessCode op ∨ (∃ e, resp.ReadErr = some e) ∨
          ∃ e, rt.unmarshal op resp.Body = .error e))) ∧
    (perform rt config op).2 = [op.httpRequest config] := by
  have hperf := perform_of_response rt config op parsed resp hparse hdo
  have hexp := endpoint_expected op
  rw [hexp] at hperf
  have hdiff : resp.StatusCode ≠ statedSuccessCode op →
      (perform rt config op).1 =
        .error ("API request failed with status " ++ toString resp.StatusCode ++ ": " ++
          resp.Body) := by
    intro h
    rw [hperf, if_pos h]
  have hsame : resp.StatusCode = statedSuccessCode op →
      (perform rt config op).1 = op.receive rt.unmarshal resp := by
    intro h
    rw [hperf, if_neg (by simpa using h)]
  refine ⟨hexp, hdiff, ?_, ?_, ?_, ?_, ?_⟩
  · intro hout
    apply hdiff
    cases op <;> simp only [statedSuccessCode] <;> omega
  · cases op <;> simp [Request.decodes, Request.endpoint]
  · intro hdec
    refine ⟨fun h => ?_, ?_⟩
    · rw [hsame h]
      exact receive_of_not_decodes rt.unmarshal resp op hdec
    · by_cases h : resp.StatusCode = statedSuccessCode op
      · obtain ⟨v, hv⟩ := receive_of_not_decodes rt.unmarshal resp op hdec
        rw [hsame h, hv]
        simp [h]
      · rw [hdiff h]
        simp [h]
  · intro hdec
    refine ⟨fun h => ?_, ?_⟩
    · rw [hsame h, receive_of_decodes rt.unmarshal resp op hdec]
    · by_cases h : resp.StatusCode = statedSuccessCode op
      · rw [hsame h, receive_of_decodes rt.unmarshal resp op hdec, readJSON_error_iff]
        simp [h]
      · rw [hdiff h]
        simp [h]
  · rw [hperf]

/-- The operation `DeleteCollection` on a server that answers 200: the status differs from
the expected 204 and the operation returns the status error with the raw body. -/
theorem status_check_witness :
    (perform (Example.runtime []) ⟨"http://localhost:5173", "k", 30 * Second⟩
        (.DeleteCollection 1 2 3)).1 =
      .error "API request failed with status 200: <html>" :=
  (status_check (Example.runtime []) ⟨"http://localhost:5173", "k", 30 * Second⟩
    (.DeleteCollection 1 2 3) _ _ rfl rfl).2.1 (by decide)

/-! ## The request of a client operation -/

theorem perform_of_parse_error (rt : Runtime) (config : Config) (op : Request) (err : Error)
    (hparse : rt.urlParse (config.BaseURL ++ op.endpoint.Path) = .error err) :
    perform rt config op = (.error ("create request: " ++ err), []) := by
  simp only [perform, hparse]

theorem perform_sent (rt : Runtime) (config : Config) (op : Request) (parsed : URL)
    (hparse : rt.urlParse (config.BaseURL ++ op.endpoint.Path) = .ok parsed) :
    (perform rt config op).2 = [op.httpRequest config] := by
  simp only [perform, hparse]
  cases rt.Do (op.httpRequest config) with
  | error err => rfl
  | ok resp =>
    by_cases h : resp.StatusCode = op.endpoint.Expected <;> simp [h]

theorem authorized_iff (op : Request) : op.endpoint.Authorized = false ↔ op = .GetMeta := by
  cases op <;> simp [Request.endpoint]

/-- C21, as stated, fails: the request that `GetMeta` passes to the HTTP client carries the
header `Content-Type` and no `Authorization` header, and an operation whose URL `url.Parse`
rejects, here `GetProfile` on a base URL with a line feed in it, returns without a call of
the HTTP client, and so without any request. -/
theorem getMeta_without_authorization :
    (perform (Example.runtime []) ⟨"http://localhost:5173", "k", 30 * Second⟩ .GetMeta).2 =
      [{ Method := "GET", URL := "http://localhost:5173/api/v1/meta",
         Header := [("Content-Type", "application/json")], Body := none }] ∧
    headerGet (Request.GetMeta.httpRequest ⟨"http://localhost:5173", "k", 30 * Second⟩).Header
      "Authorization" = "" ∧
    perform (Example.runtime []) ⟨"http://localhost\n:5173", "k", 30 * Second⟩ .GetProfile =
      (.error "create request: net/url: invalid control character in URL", []) :=
  ⟨rfl, rfl, rfl⟩

/-- C21, amended: every operation of the client calls the HTTP client, `c.httpClient.Do`, at
most once: exactly once, with the request built from its endpoint, when `url.Parse` accepts
its URL, and not at all when it does not, the operation then returning the error
"create request: ...".  The request that an operation other than `GetMeta` passes to the
HTTP client carries the header `Authorization` with the value "Bearer <configured API key>"
and the header `Content-Type`; the request that `GetMeta` passes carries the header
`Content-Type` only.  The statement counts the calls of `Do`, not the requests on the wire:
the HTTP client follows redirects, so one call may issue more than one. -/
theorem request_per_operation (rt : Runtime) (config : Config) (op : Request) :
    (∀ parsed, rt.urlParse (config.BaseURL ++ op.endpoint.Path) = .ok parsed →
      (perform rt config op).2 = [op.httpRequest config]) ∧
    (∀ err, rt.urlParse (config.BaseURL ++ op.endpoint.Path) = .error err →
      perform rt config op = (.error ("create request: " ++ err), [])) ∧
    (perform rt config op).2.length ≤ 1 ∧
    (op ≠ .GetMeta →
      (op.httpRequest config).Header =
        [("Authorization", "Bearer " ++ config.APIKey), ("Content-Type", "application/json")] ∧
      headerGet (op.httpRequest config).Header "Authorization" = "Bearer " ++ config.APIKey) ∧
    (op = .GetMeta →
      (op.httpRequest config).Header = [("Content-Type", "application/json")] ∧
      headerGet (op.httpRequest config).Header "Authorization" = "") ∧
    (New rt config).backend.GetMeta = (perform rt (New rt config).config .GetMeta).1 ∧
    (New rt config).backend.GetProfile = (perform rt (New rt config).config .GetProfile).1 := by
  refine ⟨fun parsed h => perform_sent rt config op parsed h,
    fun err h => perform_of_parse_error rt config op err h, ?_, ?_, ?_, rfl, rfl⟩
  · cases h : rt.urlParse (config.BaseURL ++ op.endpoint.Path) with
    | error err => rw [perform_of_parse_error rt config op err h]; simp
    | ok parsed => rw [perform_sent rt config op parsed h]; simp
  · intro hne
    have hauth : op.endpoint.Authorized = true := by
      cases h : op.endpoint.Authorized with
      | true => rfl
      | false => exact absurd ((authorized_iff op).mp h) hne
    simp [Request.httpRequest, requestHeader, hauth, headerGet]
  · intro heq
    subst heq
    exact ⟨rfl, rfl⟩

/-- The operation `GetProfile` on a runtime that accepts its URL calls the HTTP client once,
with a request that carries the bearer header. -/
theorem request_per_operation_witness :
    (perform (Example.runtime []) ⟨"http://localhost:5173", "k", 30 * Second⟩ .GetProfile).2 =
      [Request.GetProfile.httpRequest ⟨"http://localhost:5173", "k", 30 * Second⟩] ∧
    (Request.GetProfile.httpRequest ⟨"http://localhost:5173", "k", 30 * Second⟩).Header =
      [("Authorization", "Bearer k"), ("Content-Type", "application/json")] :=
  ⟨(request_per_operation (Example.runtime []) ⟨"http://localhost:5173", "k", 30 * Second⟩
      .GetProfile).1 { Redacted := "http://localhost:5173/api/v1/me" } rfl,
    ((request_per_operation (Example.runtime []) ⟨"http://localhost:5173", "k", 30 * Second⟩
      .GetProfile).2.2.2.1 (by simp)).1⟩

/-! ## The limit and the timeout of a log query -/

theorem queryLogsDefaults_limit (request : LogQueryRequest) :
    (queryLogsDefaults request).Limit =
      if 1 ≤ request.Limit ∧ request.Limit ≤ 100 then request.Limit else 100 := by
  unfold queryLogsDefaults
  by_cases h0 : request.Limit ≤ 0
  · have h1 : ¬ (1 ≤ request.Limit ∧ request.Limit ≤ 100) := by omega
    simp only [h0, if_true, h1, if_false]
    split <;> split <;> simp_all
  · by_cases h100 : request.Limit > 100
    · have h1 : ¬ (1 ≤ request.Limit ∧ request.Limit ≤ 100) := by omega
      simp only [h0, if_false, h100, if_true, h1]
      split <;> rfl
    · have h1 : 1 ≤ request.Limit ∧ request.Limit ≤ 100 := by omega
      simp only [h0, if_false, h100, h1, and_self, if_true]
      split <;> rfl

theorem queryLogsDefaults_rest (request : LogQueryRequest) :
    (queryLogsDefaults request).RawSQL = request.RawSQL ∧
    (queryLogsDefaults request).QueryTimeout =
      match request.QueryTimeout with
      | none => some 30
      | some timeout => some timeout := by
  unfold queryLogsDefaults
  cases hq : request.QueryTimeout <;>
    by_cases h0 : request.Limit ≤ 0 <;> by_cases h100 : request.Limit > 100 <;>
    simp [h0, h100, hq]

theorem queryLogs_trace (ctx : Context) (c : Client) (args : QueryLogsParams) (tr : Trace)
    (hc : LogchefClientFromContext ctx = some c) :
    (queryLogs ctx args tr).2 =
      tr ++ [Request.QueryLogs args.TeamID args.SourceID
        { RawSQL := args.RawSQL
          Limit := if args.Limit < 0 then 0 else if args.Limit > 100 then 100 else args.Limit
          QueryTimeout := args.QueryTimeout }] := by
  simp only [queryLogs, hc, Client.QueryLogs]
  by_cases h0 : args.Limit < 0
  · have h1 : ¬ (0 : Int) > 100 := by omega
    simp only [h0, if_true, h1, if_false]
    generalize c.backend.QueryLogs _ _ _ = r
    cases r <;> rfl
  · by_cases h100 : args.Limit > 100
    · simp only [h0, if_false, h100, if_true]
      generalize c.backend.QueryLogs _ _ _ = r
      cases r <;> rfl
    · simp only [h0, if_false, h100]
      generalize c.backend.QueryLogs _ _ _ = r
      cases r <;> rfl

/-- C22: for every `Limit` given to `queryLogs` on a context with a client, the tool asks
the client for one `QueryLogs` operation, and the body of the request of that operation
carries a limit between 1 and 100: `Limit` itself when it lies between 1 and 100, and 100
when it is zero, negative or above 100.  The clamp of `queryLogs` changes nothing: the
request of `QueryLogs` called with the arguments as they came is the same request. -/
theorem queryLogs_limit (ctx : Context) (c : Client) (args : QueryLogsParams) (tr : Trace)
    (hc : LogchefClientFromContext ctx = some c) :
    ∃ request body,
      (queryLogs ctx args tr).2 =
        tr ++ [Request.QueryLogs args.TeamID args.SourceID request] ∧
      ((Request.QueryLogs args.TeamID args.SourceID request).httpRequest c.config).Body =
        some (.logQuery body) ∧
      1 ≤ body.Limit ∧ body.Limit ≤ 100 ∧
      (1 ≤ args.Limit ∧ args.Limit ≤ 100 → body.Limit = args.Limit) ∧
      (args.Limit ≤ 0 ∨ 100 < args.Limit → body.Limit = 100) ∧
      (Request.QueryLogs args.TeamID args.SourceID
          { RawSQL := args.RawSQL, Limit := args.Limit,
            QueryTimeout := args.QueryTimeout }).httpRequest c.config =
        (Request.QueryLogs args.TeamID args.SourceID request).httpRequest c.config ∧
      (∀ (rt : Runtime) (parsed : URL),
        rt.urlParse (c.config.BaseURL ++
          (Request.QueryLogs args.TeamID args.SourceID request).endpoint.Path) = .ok parsed →
        (perform rt c.config (Request.QueryLogs args.TeamID args.SourceID request)).2 =
          [(Request.QueryLogs args.TeamID args.SourceID request).httpRequest c.config]) := by
  refine ⟨_, _, queryLogs_trace ctx c args tr hc, rfl, ?_, ?_, ?_, ?_, ?_,
    fun rt parsed h => perform_sent rt c.config _ parsed h⟩
  · rw [queryLogsDefaults_limit]
    simp only
    split_ifs <;> omega
  · rw [queryLogsDefaults_limit]
    simp only
    split_ifs <;> omega
  · intro h
    rw [queryLogsDefaults_limit]
    simp only
    split_ifs <;> omega
  · intro h
    rw [queryLogsDefaults_limit]
    simp only
    split_ifs <;> omega
  · have hbody : queryLogsDefaults
        { RawSQL := args.RawSQL, Limit := args.Limit, QueryTimeout := args.QueryTimeout } =
      queryLogsDefaults
        { RawSQL := args.RawSQL
          Limit := if args.Limit < 0 then 0 else if args.Limit > 100 then 100 else args.Limit
          QueryTimeout := args.QueryTimeout } := by
      have e : ∀ a b : LogQueryRequest, a.RawSQL = b.RawSQL → a.Limit = b.Limit →
          a.QueryTimeout = b.QueryTimeout → a = b := by
        intro a b h1 h2 h3
        cases a; cases b; simp_all
      apply e
      · rw [(queryLogsDefaults_rest _).1, (queryLogsDefaults_rest _).1]
      · rw [queryLogsDefaults_limit, queryLogsDefaults_limit]
        simp only
        split_ifs <;> omega
      · rw [(queryLogsDefaults_rest _).2, (queryLogsDefaults_rest _).2]
    simp only [Request.httpRequest, Request.endpoint, hbody]

/-- A limit of 250 and a limit of -3 are both sent as 100, a limit of 40 as 40. -/
theorem queryLogs_limit_witness :
    (∃ request body,
      (queryLogs (Example.ctxOf Example.unavailable) ⟨1, 2, "SELECT 1", 250, none⟩ []).2 =
        [Request.QueryLogs 1 2 request] ∧
      ((Request.QueryLogs 1 2 request).httpRequest
          (Example.clientOf Example.unavailable).config).Body = some (.logQuery body) ∧
      body.Limit = 100) ∧
    ((Request.QueryLogs 1 2 ⟨"SELECT 1", -3, none⟩).httpRequest
        (Example.clientOf Example.unavailable).config).Body =
      some (.logQuery ⟨"SELECT 1", 100, some 30⟩) ∧
    ((Request.QueryLogs 1 2 ⟨"SELECT 1", 40, some 5⟩).httpRequest
        (Example.clientOf Example.unavailable).config).Body =
      some (.logQuery ⟨"SELECT 1", 40, some 5⟩) := by
  refine ⟨?_, rfl, rfl⟩
  obtain ⟨request, body, h1, h2, _, _, _, h6, _⟩ :=
    queryLogs_limit (Example.ctxOf Example.unavailable) (Example.clientOf Example.unavailable)
      ⟨1, 2, "SELECT 1", 250, none⟩ [] rfl
  exact ⟨request, body, h1, h2, h6 (Or.inr (by decide))⟩

theorem histogramDefaults_fields (request : HistogramRequest) :
    (histogramDefaults request).RawSQL = request.RawSQL ∧
    (histogramDefaults request).Window = request.Window ∧
    (histogramDefaults request).GroupBy = request.GroupBy ∧
    (histogramDefaults request).Timezone = request.Timezone ∧
    (histogramDefaults request).QueryTimeout =
      match request.QueryTimeout with
      | none => some 30
      | some timeout => some timeout := by
  unfold histogramDefaults
  cases hq : request.QueryTimeout <;> simp [hq]

/-- C23: the body of the request of `QueryLogs` and of `GetLogHistogram` carries the query
timeout 30 when the caller gave none, and the caller's value as it is when one was given,
zero and negative values included; the other fields of the caller's request, the limit of a
log query apart, are in the body unchanged.  That body is the body of the one request the
operation sends. -/
theorem query_timeout_default (config : Config) (teamID sourceID : Int) :
    (∀ request : LogQueryRequest, ∃ body,
      ((Request.QueryLogs teamID sourceID request).httpRequest config).Body =
        some (.logQuery body) ∧
      (request.QueryTimeout = none → body.QueryTimeout = some 30) ∧
      (∀ timeout, request.QueryTimeout = some timeout → body.QueryTimeout = some timeout) ∧
      body.RawSQL = request.RawSQL) ∧
    (∀ request : HistogramRequest, ∃ body,
      ((Request.GetLogHistogram teamID sourceID request).httpRequest config).Body =
        some (.histogram body) ∧
      (request.QueryTimeout = none → body.QueryTimeout = some 30) ∧
      (∀ timeout, request.QueryTimeout = some timeout → body.QueryTimeout = some timeout) ∧
      body.RawSQL = request.RawSQL ∧ body.Window = request.Window ∧
      body.GroupBy = request.GroupBy ∧ body.Timezone = request.Timezone) ∧
    (∀ (request : HistogramRequest) (timeout : Int), request.QueryTimeout = some timeout →
      ((Request.GetLogHistogram teamID sourceID request).httpRequest config).Body =
        some (.histogram request)) ∧
    (∀ (rt : Runtime) (op : Request) (parsed : URL),
      rt.urlParse (config.BaseURL ++ op.endpoint.Path) = .ok parsed →
      (perform rt config op).2 = [op.httpRequest config]) := by
  refine ⟨fun request => ⟨_, rfl, ?_, ?_, (queryLogsDefaults_rest request).1⟩,
    fun request => ⟨_, rfl, ?_, ?_, (histogramDefaults_fields request).1,
      (histogramDefaults_fields request).2.1, (histogramDefaults_fields request).2.2.1,
      (histogramDefaults_fields request).2.2.2.1⟩, ?_,
    fun rt op parsed h => perform_sent rt config op parsed h⟩
  · intro h
    rw [(queryLogsDefaults_rest request).2, h]
  · intro timeout h
    rw [(queryLogsDefaults_rest request).2, h]
  · intro h
    rw [(histogramDefaults_fields request).2.2.2.2, h]
  · intro timeout h
    rw [(histogramDefaults_fields request).2.2.2.2, h]
  · intro request timeout h
    simp [Request.httpRequest, Request.endpoint, histogramDefaults, h]

/-- A log query without a timeout is sent with 30, one with the timeout 0 with 0, and a
histogram request with the timeout -1 with -1. -/
theorem query_timeout_default_witness :
    ((Request.QueryLogs 1 2 ⟨"SELECT 1", 10, none⟩).httpRequest
        ⟨"http://localhost:5173", "k", 30 * Second⟩).Body =
      some (.logQuery ⟨"SELECT 1", 10, some 30⟩) ∧
    ((Request.QueryLogs 1 2 ⟨"SELECT 1", 10, some 0⟩).httpRequest
        ⟨"http://localhost:5173", "k", 30 * Second⟩).Body =
      some (.logQuery ⟨"SELECT 1", 10, some 0⟩) ∧
    ((Request.GetLogHistogram 1 2 ⟨"SELECT 1", "1m", "", "UTC", some (-1)⟩).httpRequest
        ⟨"http://localhost:5173", "k", 30 * Second⟩).Body =
      some (.histogram ⟨"SELECT 1", "1m", "", "UTC", some (-1)⟩) :=
  ⟨rfl, rfl,
    (query_timeout_default ⟨"http://localhost:5173", "k", 30 * Second⟩ 1 2).2.2.1
      ⟨"SELECT 1", "1m", "", "UTC", some (-1)⟩ (-1) rfl⟩

/-! ## The timeout of a bound client -/

theorem New_timeout (rt : Runtime) (baseURL apiKey : String) :
    (New rt { BaseURL := baseURL, APIKey := apiKey, Timeout := 0 }).httpClient.Timeout =
      30 * Second := by
  simp [New]

theorem NewLogchefClient_eq (rt : Runtime) (ctx : Context) (logchefURL apiKey : String)
    (log log1 : Log) (c : Client)
    (h : NewLogchefClient rt ctx logchefURL apiKey log = (.ok c, log1)) :
    c = New rt { BaseURL := if logchefURL = "" then defaultLogchefURL else logchefURL,
                 APIKey := apiKey, Timeout := 0 } := by
  unfold NewLogchefClient at h
  cases hparse : rt.urlParse (if logchefURL = "" then defaultLogchefURL else logchefURL) with
  | error err =>
    simp only [hparse] at h
    exact absurd (congrArg Prod.fst h) (by simp)
  | ok parsed =>
    simp only [hparse] at h
    have := congrArg Prod.fst h
    simp only [Except.ok.injEq] at this
    exact this.symm

/-- C24: the client that `NewLogchefClient` builds, which it does exactly when `url.Parse`
accepts the URL, has a timeout of 30 seconds in its configuration and in its HTTP client,
the given URL as `BaseURL`, the default URL when the given one is empty, and the given key
as `APIKey`; so has every client that the stdio, SSE and HTTP pipelines bind.  The function
`client.New` keeps a `Timeout` that is not zero and replaces a zero one by 30 seconds. -/
theorem client_timeout (rt : Runtime) (ctx : Context) (logchefURL apiKey : String)
    (log : Log) :
    (∀ c log1, NewLogchefClient rt ctx logchefURL apiKey log = (.ok c, log1) →
      c.config.Timeout = 30 * Second ∧ c.httpClient.Timeout = 30 * Second ∧
      c.config.BaseURL = (if logchefURL = "" then "http://localhost:5173" else logchefURL) ∧
      c.config.APIKey = apiKey) ∧
    (∀ parsed,
      rt.urlParse (if logchefURL = "" then "http://localhost:5173" else logchefURL) =
        .ok parsed →
      ∃ c log1, NewLogchefClient rt ctx logchefURL apiKey log = (.ok c, log1)) ∧
    (∀ debug ctx1, (ComposedStdioContextFunc rt debug ctx log).1 = .ok ctx1 →
      ∃ c, LogchefClientFromContext ctx1 = some c ∧
        c.config.Timeout = 30 * Second ∧ c.httpClient.Timeout = 30 * Second) ∧
    (∀ debug req ctx1, (ComposedSSEContextFunc rt debug ctx req log).1 = .ok ctx1 →
      ∃ c, LogchefClientFromContext ctx1 = some c ∧
        c.config.Timeout = 30 * Second ∧ c.httpClient.Timeout = 30 * Second) ∧
    (∀ debug req ctx1, (ComposedHTTPContextFunc rt debug ctx req log).1 = .ok ctx1 →
      ∃ c, LogchefClientFromContext ctx1 = some c ∧
        c.config.Timeout = 30 * Second ∧ c.httpClient.Timeout = 30 * Second) ∧
    (∀ config : Config, config.Timeout ≠ 0 →
      (New rt config).config = config ∧ (New rt config).httpClient.Timeout = config.Timeout) ∧
    (∀ config : Config, config.Timeout = 0 →
      (New rt config).config = { config with Timeout := 30 * Second } ∧
      (New rt config).httpClient.Timeout = 30 * Second) ∧
    30 * Second = 30000000000 := by
  refine ⟨?_, ?_, ?_, ?_, ?_, ?_, ?_, rfl⟩
  · intro c log1 h
    have hc := NewLogchefClient_eq rt ctx logchefURL apiKey log log1 c h
    subst hc
    rw [New_config, New_timeout, ← defaultLogchefURL_eq]
    exact ⟨rfl, rfl, rfl, rfl⟩
  · intro parsed hparse
    rw [← defaultLogchefURL_eq] at hparse
    exact ⟨_, _, NewLogchefClient_ok rt ctx logchefURL apiKey _ log parsed rfl hparse⟩
  · intro debug ctx1 h
    cases h1 : rt.urlParse (envInfoURL rt) with
    | error err =>
      simp only [ComposedStdioContextFunc, ComposeStdioContextFuncs,
        ExtractLogchefInfoFromEnv_panic rt _ _ err h1] at h
      exact absurd h (by simp)
    | ok p1 =>
      cases h2 : rt.urlParse (envClientURL rt) with
      | error err =>
        simp only [ComposedStdioContextFunc, ComposeStdioContextFuncs,
          ExtractLogchefInfoFromEnv_ok rt _ _ (envInfoURL rt) p1 rfl h1,
          ExtractLogchefClientFromEnv_panic rt _ _ err h2] at h
        exact absurd h (by simp)
      | ok p2 =>
        rw [ComposedStdioContextFunc_ok rt debug ctx log p1 p2 h1 h2, Except.ok.injEq] at h
        subst h
        exact ⟨_, rfl, by rw [New_config], New_timeout rt _ _⟩
  · intro debug req ctx1 h
    cases hp : rt.urlParse (resolvedURL rt req) with
    | error err =>
      simp only [ComposedSSEContextFunc, ComposeSSEContextFuncs,
        ExtractLogchefInfoFromHeaders_eq,
        ExtractLogchefClientFromHeaders_panic rt _ req _ err hp] at h
      exact absurd h (by simp)
    | ok parsed =>
      rw [ComposedSSEContextFunc_ok rt debug ctx req log parsed hp, Except.ok.injEq] at h
      subst h
      exact ⟨_, rfl, by rw [New_config], New_timeout rt _ _⟩
  · intro debug req ctx1 h
    cases hp : rt.urlParse (resolvedURL rt req) with
    | error err =>
      simp only [ComposedHTTPContextFunc, ComposeHTTPContextFuncs,
        ExtractLogchefInfoFromHeaders_eq,
        ExtractLogchefClientFromHeaders_panic rt _ req _ err hp] at h
      exact absurd h (by simp)
    | ok parsed =>
      rw [ComposedHTTPContextFunc_ok rt debug ctx req log parsed hp, Except.ok.injEq] at h
      subst h
      exact ⟨_, rfl, by rw [New_config], New_timeout rt _ _⟩
  · intro config h
    simp [New, h]
  · intro config h
    simp [New, h]

/-- The client built for a URL and a key has the timeout of 30 seconds; `client.New` keeps a
timeout of 5 seconds. -/
theorem client_timeout_witness :
    ((NewLogchefClient (Example.runtime []) Context.background "http://logchef.example.com"
        "k" []).1.map (fun c => (c.config, c.httpClient.Timeout))) =
      .ok ({ BaseURL := "http://logchef.example.com", APIKey := "k",
             Timeout := 30000000000 }, 30000000000) ∧
    (New (Example.runtime []) ⟨"http://logchef.example.com", "k", 5 * Second⟩).config =
      ⟨"http://logchef.example.com", "k", 5 * Second⟩ :=
  ⟨rfl, ((client_timeout (Example.runtime []) Context.background "" "" []).2.2.2.2.2.1
    ⟨"http://logchef.example.com", "k", 5 * Second⟩ (by decide)).1⟩

/-! ## The log records of the resolution -/

theorem Setenv_key (rt : Runtime) (k : String) :
    (rt.Setenv logchefAPIEnvVar k).Getenv logchefAPIEnvVar = k := by
  simp [Runtime.Setenv, Runtime.Getenv]

theorem Setenv_url (rt : Runtime) (k : String) :
    (urlAndAPIKeyFromEnv (rt.Setenv logchefAPIEnvVar k)).1 = (urlAndAPIKeyFromEnv rt).1 := by
  have hne : ¬ logchefURLEnvVar = logchefAPIEnvVar := by decide
  simp [urlAndAPIKeyFromEnv, Runtime.Setenv, Runtime.Getenv, hne]

theorem key_set_eq (k1 k2 : String) (hk : k1 = "" ↔ k2 = "") : (k1 != "") = (k2 != "") := by
  by_cases h1 : k1 = ""
  · rw [h1, hk.mp h1]
  · have h2 : ¬ k2 = "" := fun h => h1 (hk.mpr h)
    have e1 : (k1 != "") = true := bne_iff_ne.mpr h1
    have e2 : (k2 != "") = true := bne_iff_ne.mpr h2
    rw [e1, e2]

theorem ExtractLogchefInfoFromEnv_log (rt : Runtime) (ctx : Context) (log : Log) (k : String) :
    (ExtractLogchefInfoFromEnv (rt.Setenv logchefAPIEnvVar k) ctx log).2 =
      match rt.urlParse (envInfoURL rt) with
      | .error _ => log
      | .ok parsed =>
        log ++ [{ Level := "INFO", Message := "Using Logchef configuration",
                  Attrs := [("url", .str parsed.Redacted),
                    ("api_key_set", .bool (k != ""))] }] := by
  have hurl : (rt.Setenv logchefAPIEnvVar k).urlParse = rt.urlParse := rfl
  have hkey : (urlAndAPIKeyFromEnv (rt.Setenv logchefAPIEnvVar k)).2 = k := Setenv_key rt k
  simp only [ExtractLogchefInfoFromEnv, Setenv_url, hurl, hkey, envInfoURL]
  cases rt.urlParse (if (urlAndAPIKeyFromEnv rt).1 = "" then defaultLogchefURL
    else (urlAndAPIKeyFromEnv rt).1) <;> rfl

theorem NewLogchefClient_log (rt : Runtime) (ctx : Context) (logchefURL k : String)
    (log : Log) :
    (NewLogchefClient rt ctx logchefURL k log).2 =
      match rt.urlParse (if logchefURL = "" then defaultLogchefURL else logchefURL) with
      | .error _ => log
      | .ok parsed =>
        log ++ [{ Level := "DEBUG", Message := "Creating Logchef client",
                  Attrs := [("url", .str parsed.Redacted),
                    ("api_key_set", .bool (k != ""))] }] := by
  simp only [NewLogchefClient]
  cases rt.urlParse (if logchefURL = "" then defaultLogchefURL else logchefURL) <;> rfl

/-- C25: for every environment, every URL and every two API keys that are both empty or
both not empty, `ExtractLogchefInfoFromEnv` writes the same log records in an environment
with the first key as in the same environment with the second, and `NewLogchefClient`
writes the same records for the first key as for the second.  Each of the two writes at
most one record, whose attributes are the redacted URL and the boolean `api_key_set`, and
none when it panics. -/
theorem api_key_not_logged (rt : Runtime) (ctx : Context) (logchefURL k1 k2 : String)
    (log : Log) (hk : k1 = "" ↔ k2 = "") :
    (ExtractLogchefInfoFromEnv (rt.Setenv logchefAPIEnvVar k1) ctx log).2 =
      (ExtractLogchefInfoFromEnv (rt.Setenv logchefAPIEnvVar k2) ctx log).2 ∧
    (NewLogchefClient rt ctx logchefURL k1 log).2 =
      (NewLogchefClient rt ctx logchefURL k2 log).2 ∧
    ((rt.Setenv logchefAPIEnvVar k1).Getenv logchefAPIEnvVar = k1 ∧
      (rt.Setenv logchefAPIEnvVar k2).Getenv logchefAPIEnvVar = k2) ∧
    ((ExtractLogchefInfoFromEnv (rt.Setenv logchefAPIEnvVar k1) ctx log).2 = log ∨
      ∃ parsed : URL, (ExtractLogchefInfoFromEnv (rt.Setenv logchefAPIEnvVar k1) ctx log).2 =
        log ++ [{ Level := "INFO", Message := "Using Logchef configuration",
                  Attrs := [("url", .str parsed.Redacted),
                    ("api_key_set", .bool (k1 != ""))] }]) ∧
    ((NewLogchefClient rt ctx logchefURL k1 log).2 = log ∨
      ∃ parsed : URL, (NewLogchefClient rt ctx logchefURL k1 log).2 =
        log ++ [{ Level := "DEBUG", Message := "Creating Logchef client",
                  Attrs := [("url", .str parsed.Redacted),
                    ("api_key_set", .bool (k1 != ""))] }]) := by
  refine ⟨?_, ?_, ⟨Setenv_key rt k1, Setenv_key rt k2⟩, ?_, ?_⟩
  · rw [ExtractLogchefInfoFromEnv_log, ExtractLogchefInfoFromEnv_log, key_set_eq k1 k2 hk]
  · rw [NewLogchefClient_log, NewLogchefClient_log, key_set_eq k1 k2 hk]
  · rw [ExtractLogchefInfoFromEnv_log]
    cases rt.urlParse (envInfoURL rt) with
    | error err => exact Or.inl rfl
    | ok parsed => exact Or.inr ⟨parsed, rfl⟩
  · rw [NewLogchefClient_log]
    cases rt.urlParse (if logchefURL = "" then defaultLogchefURL else logchefURL) with
    | error err => exact Or.inl rfl
    | ok parsed => exact Or.inr ⟨parsed, rfl⟩

/-- Two environments that differ in the API key only: the records written are the same, one
record with the URL and `api_key_set` true. -/
theorem api_key_not_logged_witness :
    (ExtractLogchefInfoFromEnv
        ((Example.runtime [("LOGCHEF_URL", "http://logchef.example.com")]).Setenv
          "LOGCHEF_API_KEY" "secret-one") Context.background []).2 =
      (ExtractLogchefInfoFromEnv
        ((Example.runtime [("LOGCHEF_URL", "http://logchef.example.com")]).Setenv
          "LOGCHEF_API_KEY" "secret-two") Context.background []).2 ∧
    (ExtractLogchefInfoFromEnv
        ((Example.runtime [("LOGCHEF_URL", "http://logchef.example.com")]).Setenv
          "LOGCHEF_API_KEY" "secret-one") Context.background []).2 =
      [{ Level := "INFO", Message := "Using Logchef configuration",
         Attrs := [("url", .str "http://logchef.example.com"),
           ("api_key_set", .bool true)] }] :=
  ⟨(api_key_not_logged (Example.runtime [("LOGCHEF_URL", "http://logchef.example.com")])
      Context.background "http://logchef.example.com" "secret-one" "secret-two" []
      (by decide)).1, rfl⟩

/-! ## A URL that `url.Parse` rejects -/

theorem NewLogchefClient_panic (rt : Runtime) (ctx : Context) (logchefURL apiKey : String)
    (log : Log) (err : Error)
    (hparse : rt.urlParse (if logchefURL = "" then defaultLogchefURL else logchefURL) =
      .error err) :
    NewLogchefClient rt ctx logchefURL apiKey log =
      (.error ("invalid Logchef URL: " ++ err), log) := by
  simp only [NewLogchefClient, hparse]

/-- C26: when `url.Parse` rejects the resolved URL, `ExtractLogchefInfoFromEnv` panics and
returns no context, and so does the composed stdio function; on the per-request path the
step that attaches the URL returns, `NewLogchefClient` panics, and the composed SSE and HTTP
functions panic with its error and return no context, so that no client is bound and no
tool function has a context to run on.  When `url.Parse` accepts the URL, neither
`ExtractLogchefInfoFromEnv` nor `NewLogchefClient` panics, and the composed SSE and HTTP
functions return a context. -/
theorem unparseable_url_panics (rt : Runtime) (debug : Bool) (ctx : Context)
    (req : InboundRequest) (log : Log) :
    (∀ err, rt.urlParse (envInfoURL rt) = .error err →
      ExtractLogchefInfoFromEnv rt ctx log =
        (.error ("invalid Logchef URL " ++ envInfoURL rt ++ ": " ++ err), log) ∧
      ∃ log1, ComposedStdioContextFunc rt debug ctx log =
        (.error ("invalid Logchef URL " ++ envInfoURL rt ++ ": " ++ err), log1)) ∧
    (∀ logchefURL apiKey err,
      rt.urlParse (if logchefURL = "" then defaultLogchefURL else logchefURL) = .error err →
      NewLogchefClient rt ctx logchefURL apiKey log =
        (.error ("invalid Logchef URL: " ++ err), log)) ∧
    (∀ err, rt.urlParse (resolvedURL rt req) = .error err →
      (∃ ctx1, ExtractLogchefInfoFromHeaders rt ctx req log = (.ok ctx1, log)) ∧
      ExtractLogchefClientFromHeaders rt ctx req log =
        (.error ("invalid Logchef URL: " ++ err), log) ∧
      (∃ log1, ComposedSSEContextFunc rt debug ctx req log =
        (.error ("invalid Logchef URL: " ++ err), log1)) ∧
      (∃ log1, ComposedHTTPContextFunc rt debug ctx req log =
        (.error ("invalid Logchef URL: " ++ err), log1))) ∧
    (∀ parsed, rt.urlParse (envInfoURL rt) = .ok parsed →
      ∃ ctx1 log1, ExtractLogchefInfoFromEnv rt ctx log = (.ok ctx1, log1)) ∧
    (∀ logchefURL apiKey parsed,
      rt.urlParse (if logchefURL = "" then defaultLogchefURL else logchefURL) = .ok parsed →
      ∃ c log1, NewLogchefClient rt ctx logchefURL apiKey log = (.ok c, log1)) ∧
    (∀ parsed, rt.urlParse (resolvedURL rt req) = .ok parsed →
      (∃ ctx1, (ComposedSSEContextFunc rt debug ctx req log).1 = .ok ctx1) ∧
      (∃ ctx1, (ComposedHTTPContextFunc rt debug ctx req log).1 = .ok ctx1)) := by
  refine ⟨?_, ?_, ?_, ?_, ?_, ?_⟩
  · intro err h
    refine ⟨ExtractLogchefInfoFromEnv_panic rt ctx log err h, ?_⟩
    simp only [ComposedStdioContextFunc, ComposeStdioContextFuncs,
      ExtractLogchefInfoFromEnv_panic rt _ _ err h]
    exact ⟨_, rfl⟩
  · intro logchefURL apiKey err h
    exact NewLogchefClient_panic rt ctx logchefURL apiKey log err h
  · intro err h
    refine ⟨⟨_, ExtractLogchefInfoFromHeaders_eq rt ctx req log⟩,
      ExtractLogchefClientFromHeaders_panic rt ctx req log err h, ?_, ?_⟩
    · simp only [ComposedSSEContextFunc, ComposeSSEContextFuncs,
        ExtractLogchefInfoFromHeaders_eq,
        ExtractLogchefClientFromHeaders_panic rt _ req _ err h]
      exact ⟨_, rfl⟩
    · simp only [ComposedHTTPContextFunc, ComposeHTTPContextFuncs,
        ExtractLogchefInfoFromHeaders_eq,
        ExtractLogchefClientFromHeaders_panic rt _ req _ err h]
      exact ⟨_, rfl⟩
  · intro parsed h
    exact ⟨_, _, ExtractLogchefInfoFromEnv_ok rt ctx log (envInfoURL rt) parsed rfl h⟩
  · intro logchefURL apiKey parsed h
    exact ⟨_, _, NewLogchefClient_ok rt ctx logchefURL apiKey _ log parsed rfl h⟩
  · intro parsed h
    exact ⟨⟨_, ComposedSSEContextFunc_ok rt debug ctx req log parsed h⟩,
      ⟨_, ComposedHTTPContextFunc_ok rt debug ctx req log parsed h⟩⟩

/-- A URL with a line feed in it, in the environment and in the header: the environment step
panics, and so does the composed HTTP function. -/
theorem unparseable_url_panics_witness :
    ExtractLogchefInfoFromEnv (Example.runtime [("LOGCHEF_URL", "http://logchef\n.example.com")])
        Context.background [] =
      (.error ("invalid Logchef URL http://logchef\n.example.com: " ++
        "net/url: invalid control character in URL"), []) ∧
    (ComposedHTTPContextFunc (Example.runtime []) false Context.background
        (Example.inbound "http://logchef\n.example.com" "k") []).1 =
      .error "invalid Logchef URL: net/url: invalid control character in URL" :=
  ⟨((unparseable_url_panics
      (Example.runtime [("LOGCHEF_URL", "http://logchef\n.example.com")]) false
      Context.background (Example.inbound "" "") []).1
      "net/url: invalid control character in URL" rfl).1, rfl⟩

/-! ## The accessors of the context -/

/-- C27: each accessor of the context returns the value that was set last under its key,
the empty URL included; on a context where the key was never set, `context.Background()`
among them, the accessors return false, "http://localhost:5173", the empty key and no
client; and setting one of the four values leaves what the other three accessors return as
it was. -/
theorem context_accessors (ctx : Context) (log : Log) (d : Bool) (u k : String)
    (c : Client) :
    (LogchefDebugFromContext (WithLogchefDebug ctx d log).1 = d ∧
      LogchefURLFromContext (WithLogchefURL ctx u) = u ∧
      LogchefURLFromContext (WithLogchefURL ctx "") = "" ∧
      LogchefAPIKeyFromContext (WithLogchefAPIKey ctx k) = k ∧
      LogchefClientFromContext (WithLogchefClient ctx c) = some c) ∧
    ((ctx.logchefDebug = none → LogchefDebugFromContext ctx = false) ∧
      (ctx.logchefURL = none → LogchefURLFromContext ctx = "http://localhost:5173") ∧
      (ctx.logchefAPIKey = none → LogchefAPIKeyFromContext ctx = "") ∧
      (ctx.logchefClient = none → LogchefClientFromContext ctx = none)) ∧
    (LogchefDebugFromContext Context.background = false ∧
      LogchefURLFromContext Context.background = "http://localhost:5173" ∧
      LogchefAPIKeyFromContext Context.background = "" ∧
      LogchefClientFromContext Context.background = none) ∧
    (LogchefURLFromContext (WithLogchefDebug ctx d log).1 = LogchefURLFromContext ctx ∧
      LogchefAPIKeyFromContext (WithLogchefDebug ctx d log).1 = LogchefAPIKeyFromContext ctx ∧
      LogchefClientFromContext (WithLogchefDebug ctx d log).1 = LogchefClientFromContext ctx) ∧
    (LogchefDebugFromContext (WithLogchefURL ctx u) = LogchefDebugFromContext ctx ∧
      LogchefAPIKeyFromContext (WithLogchefURL ctx u) = LogchefAPIKeyFromContext ctx ∧
      LogchefClientFromContext (WithLogchefURL ctx u) = LogchefClientFromContext ctx) ∧
    (LogchefDebugFromContext (WithLogchefAPIKey ctx k) = LogchefDebugFromContext ctx ∧
      LogchefURLFromContext (WithLogchefAPIKey ctx k) = LogchefURLFromContext ctx ∧
      LogchefClientFromContext (WithLogchefAPIKey ctx k) = LogchefClientFromContext ctx) ∧
    (LogchefDebugFromContext (WithLogchefClient ctx c) = LogchefDebugFromContext ctx ∧
      LogchefURLFromContext (WithLogchefClient ctx c) = LogchefURLFromContext ctx ∧
      LogchefAPIKeyFromContext (WithLogchefClient ctx c) = LogchefAPIKeyFromContext ctx) := by
  refine ⟨⟨rfl, rfl, rfl, rfl, rfl⟩, ⟨?_, ?_, ?_, ?_⟩, ⟨rfl, rfl, rfl, rfl⟩,
    ⟨rfl, rfl, rfl⟩, ⟨rfl, rfl, rfl⟩, ⟨rfl, rfl, rfl⟩, ⟨rfl, rfl, rfl⟩⟩
  · intro h
    simp only [LogchefDebugFromContext, h]
  · intro h
    simp only [LogchefURLFromContext, h]
    rfl
  · intro h
    simp only [LogchefAPIKeyFromContext, h]
  · intro h
    exact h

/-- A context with a key set and no URL set: the URL read back is the default, the key the
one that was set. -/
theorem context_accessors_witness :
    LogchefURLFromContext (WithLogchefAPIKey Context.background "k") =
      "http://localhost:5173" ∧
    LogchefAPIKeyFromContext (WithLogchefAPIKey Context.background "k") = "k" :=
  ⟨(context_accessors (WithLogchefAPIKey Context.background "k") [] true "" "k"
      (Example.clientOf Example.unavailable)).2.1.2.1 rfl,
    (context_accessors Context.background [] true "" "k"
      (Example.clientOf Example.unavailable)).1.2.2.2.1⟩

/-! ## The tools of the admin category that run no admin check -/

theorem withProfile_client (ctx : Context) (c : Client)
    (profile : Except Error ProfileResponse) :
    LogchefClientFromContext (WithLogchefClient ctx (c.withProfile profile)) =
      some (c.withProfile profile) := rfl

/-- C28: ten tool functions that `AddAdminTools` registers run no admin check.  With a bound
client, for every argument value, each of `getTeam`, `updateTeam`, `listTeamMembers`,
`addTeamMember`, `removeTeamMember`, `linkSourceToTeam`, `unlinkSourceFromTeam`,
`listAPITokens`, `createAPIToken` and `deleteAPIToken` performs its one client operation and
nothing else, no profile fetch, and returns the result of that operation, or its error
behind the name of the operation; and it returns the same, with the same trace, whatever
the API answers to a profile fetch, so whatever the role of the caller is. -/
theorem admin_tools_unchecked (ctx : Context) (c : Client) (tr : Trace)
    (hc : LogchefClientFromContext ctx = some c) :
    (∀ args,
      getTeam ctx args tr =
        ((c.backend.GetTeamByID args.TeamID).mapError
            (fun e => "get team: " ++ e),
        tr ++ [Request.GetTeamByID args.TeamID]) ∧
      ∀ profile, getTeam (WithLogchefClient ctx (c.withProfile profile)) args tr =
        getTeam ctx args tr) ∧
    (∀ args,
      updateTeam ctx args tr =
        ((c.backend.UpdateTeam args.TeamID
          ({ Name := args.Name, Description := args.Description } : TeamUpdateRequest)).mapError
            (fun e => "update team: " ++ e),
        tr ++ [Request.UpdateTeam args.TeamID
          ({ Name := args.Name, Description := args.Description } : TeamUpdateRequest)]) ∧
      ∀ profile, updateTeam (WithLogchefClient ctx (c.withProfile profile)) args tr =
        updateTeam ctx args tr) ∧
    (∀ args,
      listTeamMembers ctx args tr =
        ((c.backend.ListTeamMembers args.TeamID).mapError
            (fun e => "list team members: " ++ e),
        tr ++ [Request.ListTeamMembers args.TeamID]) ∧
      ∀ profile, listTeamMembers (WithLogchefClient ctx (c.withProfile profile)) args tr =
        listTeamMembers ctx args tr) ∧
    (∀ args,
      addTeamMember ctx args tr =
        ((match c.backend.AddTeamMember args.TeamID
          ({ UserID := args.UserID, Role := args.Role } : TeamMemberRequest) with
          | none => .ok { Success := true, Message := "Team member added successfully" }
          | some e => .error ("add team member: " ++ e)),
        tr ++ [Request.AddTeamMember args.TeamID
          ({ UserID := args.UserID, Role := args.Role } : TeamMemberRequest)]) ∧
      ∀ profile, addTeamMember (WithLogchefClient ctx (c.withProfile profile)) args tr =
        addTeamMember ctx args tr) ∧
    (∀ args,
      removeTeamMember ctx args tr =
        ((match c.backend.RemoveTeamMember args.TeamID args.UserID with
          | none => .ok { Success := true, Message := "Team member removed successfully" }
          | some e => .error ("remove team member: " ++ e)),
        tr ++ [Request.RemoveTeamMember args.TeamID args.UserID]) ∧
      ∀ profile, removeTeamMember (WithLogchefClient ctx (c.withProfile profile)) args tr =
        removeTeamMember ctx args tr) ∧
    (∀ args,
      linkSourceToTeam ctx args tr =
        ((match c.backend.LinkSourceToTeam args.TeamID
          ({ SourceID := args.SourceID } : TeamSourceRequest) with
          | none => .ok { Success := true, Message := "Source linked to team successfully" }
          | some e => .error ("link source to team: " ++ e)),
        tr ++ [Request.LinkSourceToTeam args.TeamID
          ({ SourceID := args.SourceID } : TeamSourceRequest)]) ∧
      ∀ profile, linkSourceToTeam (WithLogchefClient ctx (c.withProfile profile)) args tr =
        linkSourceToTeam ctx args tr) ∧
    (∀ args,
      unlinkSourceFromTeam ctx args tr =
        ((match c.backend.UnlinkSourceFromTeam args.TeamID args.SourceID with
          | none => .ok { Success := true, Message := "Source unlinked from team successfully" }
          | some e => .error ("unlink source from team: " ++ e)),
        tr ++ [Request.UnlinkSourceFromTeam args.TeamID args.SourceID]) ∧
      ∀ profile, unlinkSourceFromTeam (WithLogchefClient ctx (c.withProfile profile)) args tr =
        unlinkSourceFromTeam ctx args tr) ∧
    (∀ args,
      listAPITokens ctx args tr =
        ((c.backend.ListAPITokens).mapError
            (fun e => "list API tokens: " ++ e),
        tr ++ [Request.ListAPITokens]) ∧
      ∀ profile, listAPITokens (WithLogchefClient ctx (c.withProfile profile)) args tr =
        listAPITokens ctx args tr) ∧
    (∀ args,
      createAPIToken ctx args tr =
        ((c.backend.CreateAPIToken
          ({ Name := args.Name, ExpiresAt := args.ExpiresAt } : APITokenRequest)).mapError
            (fun e => "create API token: " ++ e),
        tr ++ [Request.CreateAPIToken
          ({ Name := args.Name, ExpiresAt := args.ExpiresAt } : APITokenRequest)]) ∧
      ∀ profile, createAPIToken (WithLogchefClient ctx (c.withProfile profile)) args tr =
        createAPIToken ctx args tr) ∧
    (∀ args,
      deleteAPIToken ctx args tr =
        ((match c.backend.DeleteAPIToken args.TokenID with
          | none => .ok { Success := true, Message := "API token deleted successfully" }
          | some e => .error ("delete API token: " ++ e)),
        tr ++ [Request.DeleteAPIToken args.TokenID]) ∧
      ∀ profile, deleteAPIToken (WithLogchefClient ctx (c.withProfile profile)) args tr =
        deleteAPIToken ctx args tr) ∧
    (∀ name ∈ ["get_team", "update_team", "list_team_members", "add_team_member",
        "remove_team_member", "link_source_to_team", "unlink_source_from_team",
        "list_api_tokens", "create_api_token", "delete_api_token"],
      name ∈ (AddAdminTools ⟨[]⟩).tools) := by
  refine ⟨?_, ?_, ?_, ?_, ?_, ?_, ?_, ?_, ?_, ?_, ?_⟩
  · intro args
    refine ⟨?_, fun profile => ?_⟩
    · cases h : c.backend.GetTeamByID args.TeamID <;>
        simp [getTeam, hc, Client.GetTeamByID, h, Except.mapError]
    · simp only [getTeam, withProfile_client, hc,
        Client.GetTeamByID]
      rfl
  · intro args
    refine ⟨?_, fun profile => ?_⟩
    · cases h : c.backend.UpdateTeam args.TeamID
        ({ Name := args.Name, Description := args.Description } : TeamUpdateRequest) <;>
        simp [updateTeam, hc, Client.UpdateTeam, h, Except.mapError]
    · simp only [updateTeam, withProfile_client, hc,
        Client.UpdateTeam]
      rfl
  · intro args
    refine ⟨?_, fun profile => ?_⟩
    · cases h : c.backend.ListTeamMembers args.TeamID <;>
        simp [listTeamMembers, hc, Client.ListTeamMembers, h, Except.mapError]
    · simp only [listTeamMembers, withProfile_client, hc,
        Client.ListTeamMembers]
      rfl
  · intro args
    refine ⟨?_, fun profile => ?_⟩
    · cases h : c.backend.AddTeamMember args.TeamID
        ({ UserID := args.UserID, Role := args.Role } : TeamMemberRequest) <;>
        simp [addTeamMember, hc, Client.AddTeamMember, h, Except.mapError]
    · simp only [addTeamMember, withProfile_client, hc,
        Client.AddTeamMember]
      rfl
  · intro args
    refine ⟨?_, fun profile => ?_⟩
    · cases h : c.backend.RemoveTeamMember args.TeamID args.UserID <;>
        simp [removeTeamMember, hc, Client.RemoveTeamMember, h, Except.mapError]
    · simp only [removeTeamMember, withProfile_client, hc,
        Client.RemoveTeamMember]
      rfl
  · intro args
    refine ⟨?_, fun profile => ?_⟩
    · cases h : c.backend.LinkSourceToTeam args.TeamID
        ({ SourceID := args.SourceID } : TeamSourceRequest) <;>
        simp [linkSourceToTeam, hc, Client.LinkSourceToTeam, h, Except.mapError]
    · simp only [linkSourceToTeam, withProfile_client, hc,
        Client.LinkSourceToTeam]
      rfl
  · intro args
    refine ⟨?_, fun profile => ?_⟩
    · cases h : c.backend.UnlinkSourceFromTeam args.TeamID args.SourceID <;>
        simp [unlinkSourceFromTeam, hc, Client.UnlinkSourceFromTeam, h, Except.mapError]
    · simp only [unlinkSourceFromTeam, withProfile_client, hc,
        Client.UnlinkSourceFromTeam]
      rfl
  · intro args
    refine ⟨?_, fun profile => ?_⟩
    · cases h : c.backend.ListAPITokens <;>
        simp [listAPITokens, hc, Client.ListAPITokens, h, Except.mapError]
    · simp only [listAPITokens, withProfile_client, hc,
        Client.ListAPITokens]
      rfl
  · intro args
    refine ⟨?_, fun profile => ?_⟩
    · cases h : c.backend.CreateAPIToken
        ({ Name := args.Name, ExpiresAt := args.ExpiresAt } : APITokenRequest) <;>
        simp [createAPIToken, hc, Client.CreateAPIToken, h, Except.mapError]
    · simp only [createAPIToken, withProfile_client, hc,
        Client.CreateAPIToken]
      rfl
  · intro args
    refine ⟨?_, fun profile => ?_⟩
    · cases h : c.backend.DeleteAPIToken args.TokenID <;>
        simp [deleteAPIToken, hc, Client.DeleteAPIToken, h, Except.mapError]
    · simp only [deleteAPIToken, withProfile_client, hc,
        Client.DeleteAPIToken]
      rfl
  · decide

/-- A caller with the role "member" deletes an API token: one client operation, no profile
fetch, and the deletion goes through. -/
theorem admin_tools_unchecked_witness :
    deleteAPIToken
        (Example.ctxOf { Example.roleBackend "member" with DeleteAPIToken := fun _ => none })
        ⟨5⟩ [] =
      (.ok { Success := true, Message := "API token deleted successfully" },
        [Request.DeleteAPIToken 5]) ∧
    deleteAPIToken
        (WithLogchefClient
          (Example.ctxOf { Example.roleBackend "member" with DeleteAPIToken := fun _ => none })
          ((Example.clientOf
            { Example.roleBackend "member" with DeleteAPIToken := fun _ => none }).withProfile
            (.ok (Example.profile "admin"))))
        ⟨5⟩ [] =
      deleteAPIToken
        (Example.ctxOf { Example.roleBackend "member" with DeleteAPIToken := fun _ => none })
        ⟨5⟩ [] :=
  ⟨rfl, ((admin_tools_unchecked
    (Example.ctxOf { Example.roleBackend "member" with DeleteAPIToken := fun _ => none })
    (Example.clientOf { Example.roleBackend "member" with DeleteAPIToken := fun _ => none })
    [] rfl).2.2.2.2.2.2.2.2.2.1 ⟨5⟩).2 (.ok (Example.profile "admin"))⟩

/-! ## The number of associations of the aggregation -/

theorem sum_mapAssign_some (m : SourceMap) (k : Int) (v w : SourceWithTeams)
    (h : mapIndex m k = some v) :
    ((mapAssign m k w).map (fun e => e.2.Teams.length)).sum + v.Teams.length =
      (m.map (fun e => e.2.Teams.length)).sum + w.Teams.length := by
  induction m with
  | nil => simp [mapIndex] at h
  | cons e rest ih =>
    obtain ⟨k0, v0⟩ := e
    by_cases hk : k0 = k
    · simp only [mapIndex, hk, if_true, Option.some.injEq] at h
      subst h
      simp only [mapAssign, hk, if_true, List.map_cons, List.sum_cons]
      omega
    · simp only [mapIndex, hk, if_false] at h
      have := ih h
      simp only [mapAssign, hk, if_false, List.map_cons, List.sum_cons]
      omega

theorem sum_mapAssign_none (m : SourceMap) (k : Int) (w : SourceWithTeams)
    (h : mapIndex m k = none) :
    ((mapAssign m k w).map (fun e => e.2.Teams.length)).sum =
      (m.map (fun e => e.2.Teams.length)).sum + w.Teams.length := by
  induction m with
  | nil => simp [mapAssign]
  | cons e rest ih =>
    obtain ⟨k0, v0⟩ := e
    by_cases hk : k0 = k
    · simp [mapIndex, hk] at h
    · simp only [mapIndex, hk, if_false] at h
      have := ih h
      simp only [mapAssign, hk, if_false, List.map_cons, List.sum_cons]
      omega

/-- One step of the inner loop adds one team entry to the map. -/
theorem addSource_sum (team : UserTeamDetails) (m : SourceMap) (source : SourceResponse) :
    ((addSource team m source).map (fun e => e.2.Teams.length)).sum =
      (m.map (fun e => e.2.Teams.length)).sum + 1 := by
  unfold addSource
  cases h : mapIndex m source.ID with
  | none =>
    simp only
    rw [sum_mapAssign_none m _ _ h]
    rfl
  | some existing =>
    simp only
    have := sum_mapAssign_some m source.ID existing
      { existing with
        Teams := existing.Teams ++ [{ ID := team.ID, Name := team.Name, Role := team.Role }] } h
    simp only [List.length_append, List.length_singleton] at this
    omega

theorem scan_sum (entries : List (UserTeamDetails × SourceResponse)) (m : SourceMap) :
    ((entries.foldl (fun acc e => addSource e.1 acc e.2) m).map
        (fun e => e.2.Teams.length)).sum =
      (m.map (fun e => e.2.Teams.length)).sum + entries.length := by
  induction entries generalizing m with
  | nil => simp
  | cons e rest ih =>
    rw [List.foldl_cons, ih, addSource_sum, List.length_cons]
    omega

theorem scanned_length (srcs : Int → List SourceResponse) (teams : List UserTeamDetails) :
    (scanned srcs teams).length = sourceEntries srcs teams := by
  induction teams with
  | nil => rfl
  | cons team rest ih =>
    have ih2 : (List.flatMap rest
        (fun team => (srcs team.ID).map (fun source => (team, source)))).length =
        (rest.map (fun team => (srcs team.ID).length)).sum := ih
    simp only [scanned, sourceEntries, List.flatMap_cons, List.length_append, List.length_map,
      List.map_cons, List.sum_cons, ih2]

/-- C29: on a successful call of `getSources`, one where the membership fetch and every
team-source fetch succeed and no entry of the lists they return is nil, which is the case
whenever `getSources` returns a response (`getSources_ok_only_if`), the team entries of
the response of `getSources`, summed over its sources, are as many as the source entries
that the team-source fetches returned, repeats counted, and the sources of the response are
as many as the distinct source IDs among those entries. -/
theorem getSources_counts (order : MapOrder) (ctx : Context) (args : GetSourcesParams)
    (tr : Trace) (c : Client) (teamsResp : TeamsResponse)
    (teams : List UserTeamDetails) (srcs : Int → List SourceResponse)
    (hc : LogchefClientFromContext ctx = some c)
    (hteams : c.backend.GetTeams = .ok teamsResp)
    (hdata : teamsResp.Data = teams.map some)
    (hsrc : ∀ team ∈ teams, ∃ r, c.backend.GetTeamSources team.ID = .ok r ∧
      r.Data = (srcs team.ID).map some) :
    ∃ resp, (getSources order ctx args tr).1 = .ok (.ok resp) ∧
      teamEntries resp = sourceEntries srcs teams ∧
      (resp.Sources.map (fun s => s.Teams.length)).sum =
        (teams.map (fun team => (srcs team.ID).length)).sum ∧
      resp.Sources.length = (distinctSourceIDs srcs teams).length ∧
      (∀ id, id ∈ distinctSourceIDs srcs teams ↔
        ∃ team ∈ teams, ∃ source ∈ (srcs team.ID), source.ID = id) ∧
      (distinctSourceIDs srcs teams).Nodup := by
  refine ⟨_, by
    rw [getSources_ok order ctx args tr c teamsResp teams srcs hc hteams hdata hsrc], ?_⟩
  have hsum : teamEntries
      { Sources := (order.range (aggregateMap srcs teams)).map (fun entry => entry.2) } =
      sourceEntries srcs teams := by
    show (((order.range (aggregateMap srcs teams)).map (fun entry => entry.2)).map
      (fun s => s.Teams.length)).sum = _
    rw [List.map_map]
    have hperm := ((order.perm (aggregateMap srcs teams)).map
      ((fun s : SourceWithTeams => s.Teams.length) ∘ fun entry => entry.2)).sum_eq
    rw [hperm, ← scanned_length]
    have := scan_sum (scanned srcs teams) []
    simpa [aggregateMap, Function.comp_def] using this
  have hmem : ∀ id, id ∈ distinctSourceIDs srcs teams ↔
      ∃ team ∈ teams, ∃ source ∈ (srcs team.ID), source.ID = id := by
    intro id
    simp only [distinctSourceIDs, List.mem_dedup, List.mem_map]
    constructor
    · rintro ⟨e, he, hid⟩
      have := (mem_scanned srcs teams e).mp he
      exact ⟨e.1, this.1, e.2, this.2, hid⟩
    · rintro ⟨team, ht, source, hs, hid⟩
      exact ⟨(team, source), (mem_scanned srcs teams _).mpr ⟨ht, hs⟩, hid⟩
  have hnodup : (distinctSourceIDs srcs teams).Nodup := List.nodup_dedup _
  refine ⟨hsum, hsum, ?_, hmem, hnodup⟩
  obtain ⟨hn, hm⟩ := ids_of_response order srcs teams
  have hperm : (((order.range (aggregateMap srcs teams)).map
      (fun entry => entry.2)).map (fun s => s.SourceResponse.ID)).Perm
      (distinctSourceIDs srcs teams) :=
    (List.perm_ext_iff_of_nodup hn hnodup).mpr (fun id => by rw [hm id, hmem id])
  have := hperm.length_eq
  simpa using this

/-- The merge law input T1 → [A, B], T2 → [B, C]: four team entries for four source entries,
three sources for three distinct IDs. -/
theorem getSources_counts_witness :
    ∃ resp, (getSources MapOrder.reversed (Example.ctxOf Example.mergeBackend) {} []).1 =
        .ok (.ok resp) ∧
      teamEntries resp = 4 ∧ resp.Sources.length = 3 := by
  obtain ⟨resp, h1, h2, _, h4, _⟩ :=
    getSources_counts MapOrder.reversed (Example.ctxOf Example.mergeBackend) {} []
      _ ⟨"success", [some Example.T1, some Example.T2]⟩ [Example.T1, Example.T2]
    Example.mergeSources rfl rfl rfl (fun _ _ => ⟨_, rfl, rfl⟩)
  exact ⟨resp, h1, h2.trans (by decide), h4.trans (by decide)⟩

/-! ## The schema conversion of `createSource` -/

theorem set_prefix_length (pre tail : List LogColumn) (x y : LogColumn) :
    (pre ++ x :: tail).set pre.length y = pre ++ y :: tail := by
  induction pre with
  | nil => rfl
  | cons a pre ih => simp only [List.cons_append, List.length_cons, List.set_cons_succ, ih]

/-- One step of the schema loop on a slice whose entry at the index is still the zero
column: the entry becomes the column of the map, the other entries stay. -/
theorem schemaStep_prefix (pre tail : List LogColumn) (col : List (String × AnyValue)) :
    schemaStep (pre ++ { Name := "", Type_ := "" } :: tail) pre.length col =
      pre ++ schemaColumn col :: tail := by
  unfold schemaStep schemaColumn
  cases h1 : colIndex col "name" with
  | none => rfl
  | some v =>
    cases v with
    | string name =>
      cases h2 : colIndex col "type" with
      | none => rfl
      | some w =>
        cases w with
        | string colType => exact set_prefix_length pre tail _ _
        | null => rfl
        | bool b => rfl
        | number f => rfl
        | array elems => rfl
        | object fields => rfl
    | null => rfl
    | bool b => rfl
    | number f => rfl
    | array elems => rfl
    | object fields => rfl

theorem schemaLoop_from (rest : List (List (String × AnyValue))) (pre : List LogColumn) :
    (rest.enumFrom pre.length).foldl (fun schema entry => schemaStep schema entry.1 entry.2)
        (pre ++ List.replicate rest.length { Name := "", Type_ := "" }) =
      pre ++ rest.map schemaColumn := by
  induction rest generalizing pre with
  | nil => simp
  | cons col rest ih =>
    simp only [List.enumFrom_cons, List.foldl_cons, List.length_cons, List.replicate_succ,
      schemaStep_prefix, List.map_cons]
    have := ih (pre ++ [schemaColumn col])
    simp only [List.length_append, List.length_singleton, List.append_assoc,
      List.singleton_append] at this
    exact this

/-- The schema loop leaves, at every index, the column of the map at that index. -/
theorem schemaLoop_eq_map (cols : List (List (String × AnyValue))) :
    schemaLoop cols = cols.map schemaColumn := by
  have := schemaLoop_from cols []
  simpa [schemaLoop, List.enum] using this

theorem schemaColumn_strings (col : List (String × AnyValue)) (name colType : String)
    (h1 : colIndex col "name" = some (.string name))
    (h2 : colIndex col "type" = some (.string colType)) :
    schemaColumn col = { Name := name, Type_ := colType } := by
  simp only [schemaColumn, h1, h2]

theorem schemaColumn_zero (col : List (String × AnyValue))
    (h : (∀ name, colIndex col "name" ≠ some (.string name)) ∨
      ∀ colType, colIndex col "type" ≠ some (.string colType)) :
    schemaColumn col = { Name := "", Type_ := "" } := by
  unfold schemaColumn
  cases h1 : colIndex col "name" with
  | none => rfl
  | some v =>
    cases v with
    | string name =>
      cases h2 : colIndex col "type" with
      | none => rfl
      | some w =>
        cases w with
        | string colType =>
          rcases h with h | h
          · exact absurd h1 (h name)
          · exact absurd h2 (h colType)
        | null => rfl
        | bool b => rfl
        | number f => rfl
        | array elems => rfl
        | object fields => rfl
    | null => rfl
    | bool b => rfl
    | number f => rfl
    | array elems => rfl
    | object fields => rfl

/-- C30: with a bound client whose profile fetch returns the role "admin", `createSource`
asks for one `CreateSource` operation whose request, the body of the HTTP request, has no
schema when the schema argument is nil, and for a schema argument of `n` maps a schema of
`n` columns, in which the column at an index holds the name and the type of the map at that
index when both values are strings, and is the empty column when either key is missing or
its value is not a string: no entry is dropped and none rejects the call. -/
theorem createSource_schema (ctx : Context) (c : Client) (profile : ProfileResponse)
    (args : CreateSourceParams) (tr : Trace)
    (hc : LogchefClientFromContext ctx = some c)
    (hp : c.backend.GetProfile = .ok profile)
    (hrole : profile.Data.User.Role = "admin") :
    ∃ request,
      (createSource ctx args tr).2 =
        tr ++ [Request.GetProfile, Request.CreateSource request] ∧
      (Request.CreateSource request).endpoint.Body = some (.source request) ∧
      (args.Schema = none → request.Schema = none) ∧
      (∀ cols, args.Schema = some cols →
        ∃ schema, request.Schema = some schema ∧
          schema.length = cols.length ∧
          (∀ (i : Nat) (col : List (String × AnyValue)), cols[i]? = some col →
            (∀ name colType, colIndex col "name" = some (.string name) →
              colIndex col "type" = some (.string colType) →
              schema[i]? = some ({ Name := name, Type_ := colType } : LogColumn)) ∧
            ((∀ name, colIndex col "name" ≠ some (.string name)) ∨
                (∀ colType, colIndex col "type" ≠ some (.string colType)) →
              schema[i]? = some ({ Name := "", Type_ := "" } : LogColumn)))) := by
  have hck := checkAdminRole_of_admin c tr profile hp hrole
  refine ⟨sourceRequestOf args, ?_, rfl, ?_, ?_⟩
  · cases h : c.backend.CreateSource (sourceRequestOf args) <;>
      simp only [sourceRequestOf] at h ⊢ <;>
      simp [createSource, hc, hck, Client.CreateSource, h]
  · intro h
    simp only [sourceRequestOf, h]
  · intro cols h
    refine ⟨schemaLoop cols, by simp only [sourceRequestOf, h], ?_, ?_⟩
    · rw [schemaLoop_eq_map, List.length_map]
    · intro i col hi
      have hget : (schemaLoop cols)[i]? = some (schemaColumn col) := by
        rw [schemaLoop_eq_map, List.getElem?_map, hi]
        rfl
      refine ⟨fun name colType h1 h2 => ?_, fun hz => ?_⟩
      · rw [hget, schemaColumn_strings col name colType h1 h2]
      · rw [hget, schemaColumn_zero col hz]

/-- A schema of three maps, the second without a type and the third with a number as name:
three columns, the first converted, the other two empty. -/
theorem createSource_schema_witness :
    ∃ request,
      (createSource (Example.ctxOf (Example.roleBackend "admin"))
        { Name := "logs", Description := "", Host := "localhost", Database := "default",
          TableName := "logs", MetaIsAutoCreated := true, MetaTsField := "timestamp",
          MetaSeverityField := "", TTLDays := 7,
          Schema := some [[("name", .string "ts"), ("type", .string "DateTime")],
            [("name", .string "body")],
            [("name", .number 0), ("type", .string "String")]] } []).2 =
        [Request.GetProfile, Request.CreateSource request] ∧
      request.Schema =
        some [{ Name := "ts", Type_ := "DateTime" }, { Name := "", Type_ := "" },
          { Name := "", Type_ := "" }] := by
  obtain ⟨request, h1, _, _, h4⟩ :=
    createSource_schema (Example.ctxOf (Example.roleBackend "admin"))
      (Example.clientOf (Example.roleBackend "admin")) (Example.profile "admin")
      { Name := "logs", Description := "", Host := "localhost", Database := "default",
        TableName := "logs", MetaIsAutoCreated := true, MetaTsField := "timestamp",
        MetaSeverityField := "", TTLDays := 7,
        Schema := some [[("name", .string "ts"), ("type", .string "DateTime")],
          [("name", .string "body")],
          [("name", .number 0), ("type", .string "String")]] } [] rfl rfl rfl
  obtain ⟨schema, hs, hlen, hcols⟩ := h4 _ rfl
  refine ⟨request, h1, ?_⟩
  rw [hs]
  have e0 := (hcols 0 _ rfl).1 "ts" "DateTime" rfl rfl
  have e1 := (hcols 1 _ rfl).2 (Or.inr (fun colType => by simp [colIndex]))
  have e2 := (hcols 2 _ rfl).2 (Or.inl (fun name => by simp [colIndex]))
  match schema, hlen, e0, e1, e2 with
  | [a, b, d], _, e0, e1, e2 =>
    simp only [List.getElem?_cons_zero, List.getElem?_cons_succ, Option.some.injEq] at e0 e1 e2
    rw [e0, e1, e2]

end Logchef
